import Mathlib

/-!
# Order lifecycle and table coordination

A shallow embedding of the order / table core of the restaurant ordering
platform:

* `src/models/Order.js`  (schema, `pre('save')` hook, `updateStatus`,
  `generateOrderNumber`),
* `src/models/Table.js`, `src/models/User.js`, `src/models/Restaurant.js` (schemas,
  `hasPermission`),
* `src/controllers/staffController.js`  (`updateOrderStatus`),
* `src/controllers/customerController.js`  (`tableEntry`, `addToCart`, `updateCartItem`,
  `viewCart`, `placeOrder`), `src/middleware/auth.js`  (`loadRestaurant`, `isStaff`),
* `src/routes/auth.js`  (the session of `POST /login`, `POST /customer-login`),
* `src/controllers/adminController.js`  (`updateTableStatus`, `updateMenuItem`),
* `src/controllers/superAdminController.js`  (`deleteRestaurant`).

Modelling conventions.

* The document store is a record of lists, one list per collection; a handler is a
  function from the store (and the session) to the new store (and session) and the
  JSON response.  A handler's `try/catch` is the `none` branch of the step that throws.
* ObjectIds are natural numbers handed out by the counter `Store.nextId` when a
  document is inserted.
* A JS `Number` holding a price or an amount is an exact rational, a quantity an
  integer: the handlers compute in exact arithmetic, and `NaN` is outside the model.
  The rounding of IEEE doubles is modelled apart, by `Js.toDouble`, for the amounts of
  the `pre('save')` hook (`preSaveNumber`).  The quantity of a request is a Number
  printed in decimal notation (a rational), which `parseInt` truncates.
* Every `new Date()` of one request reads the same instant.
* Schema fields that none of the modelled handlers reads or writes (payment fields,
  capacity, location, QR data, e-mail, password, ...) are left out of the records.
-/

namespace RestaurantSaaS

/-! ## JavaScript built-ins used by the code -/

namespace Js

/-- The method `String.prototype.trim` (ASCII white space). -/
def trim (s : String) : String :=
  String.mk ((s.data.dropWhile Char.isWhitespace).reverse.dropWhile Char.isWhitespace).reverse

/-- The method `String.prototype.toLowerCase` (ASCII letters). -/
def toLowerCase (s : String) : String :=
  String.mk (s.data.map Char.toLower)

/-- The call `s.slice(0, n)`. -/
def sliceTo (n : Nat) (s : String) : String :=
  String.mk (s.data.take n)

/-- The call `s.slice(-n)`: the last `n` characters. -/
def sliceLast (n : Nat) (s : String) : String :=
  String.mk (s.data.drop (s.data.length - n))

/-- The call `replace` with the global hyphen pattern and the empty string: every
hyphen is removed. -/
def removeHyphens (s : String) : String :=
  String.mk (s.data.filter (fun c => c != '-'))

/-- The call `s.padStart(n, c)` for a one-character filler. -/
def padStart (n : Nat) (c : Char) (s : String) : String :=
  String.mk (List.replicate (n - s.data.length) c) ++ s

/-- A decimal field of fixed width two, as `toISOString` prints month, day, hours, ... -/
def twoDigits (n : Nat) : String :=
  String.mk [Nat.digitChar (n / 10 % 10), Nat.digitChar (n % 10)]

/-- A decimal field of fixed width three (milliseconds). -/
def threeDigits (n : Nat) : String :=
  String.mk [Nat.digitChar (n / 100 % 10), Nat.digitChar (n / 10 % 10), Nat.digitChar (n % 10)]

/-- A decimal field of fixed width four (the year of `toISOString`, 0 to 9999). -/
def fourDigits (n : Nat) : String :=
  String.mk [Nat.digitChar (n / 1000 % 10), Nat.digitChar (n / 100 % 10),
    Nat.digitChar (n / 10 % 10), Nat.digitChar (n % 10)]

/-- A decimal field of fixed width six (the expanded year of `toISOString`). -/
def sixDigits (n : Nat) : String :=
  String.mk [Nat.digitChar (n / 100000 % 10), Nat.digitChar (n / 10000 % 10),
    Nat.digitChar (n / 1000 % 10), Nat.digitChar (n / 100 % 10),
    Nat.digitChar (n / 10 % 10), Nat.digitChar (n % 10)]

/-- A JS `Date` as the code observes it: its time value, the UTC calendar fields that
`toISOString` prints, and the two instants that `setHours(0, 0, 0, 0)` and
`setHours(23, 59, 59, 999)` return for it (the bounds of its day in the server's
local time zone). -/
structure Date where
  time : Nat
  utcFullYear : Nat
  utcMonth : Nat
  utcDate : Nat
  utcHours : Nat
  utcMinutes : Nat
  utcSeconds : Nat
  utcMilliseconds : Nat
  startOfDay : Nat
  endOfDay : Nat
  deriving DecidableEq, Repr

/-- The method `Date.prototype.toISOString`: `YYYY-MM-DDTHH:mm:ss.sssZ`, with the
expanded form `+YYYYYY` for a year above 9999.  `utcMonth` is the calendar month,
1 to 12. -/
def toISOString (d : Date) : String :=
  (if d.utcFullYear ≤ 9999 then fourDigits d.utcFullYear else "+" ++ sixDigits d.utcFullYear)
    ++ "-" ++ twoDigits d.utcMonth ++ "-" ++ twoDigits d.utcDate
    ++ "T" ++ twoDigits d.utcHours ++ ":" ++ twoDigits d.utcMinutes
    ++ ":" ++ twoDigits d.utcSeconds ++ "." ++ threeDigits d.utcMilliseconds ++ "Z"

end Js

/-! ## Data model -/

/-- Document identifiers (ObjectIds). -/
abbrev Id := Nat

/-- Instants, in milliseconds since the epoch. -/
abbrev Time := Nat

/-- The enum of `status` in `src/models/Order.js`. -/
inductive OrderStatus where
  | pending
  | preparing
  | served
  | done
  | cancelled
  deriving DecidableEq, Repr

/-- The string stored for an order status. -/
def OrderStatus.toString : OrderStatus → String
  | .pending => "pending"
  | .preparing => "preparing"
  | .served => "served"
  | .done => "done"
  | .cancelled => "cancelled"

/-- The enum validator of `Order.status`: the status a string denotes, if any. -/
def OrderStatus.ofString? (s : String) : Option OrderStatus :=
  if s = "pending" then some .pending
  else if s = "preparing" then some .preparing
  else if s = "served" then some .served
  else if s = "done" then some .done
  else if s = "cancelled" then some .cancelled
  else none

/-- The enum of `status` in `src/models/Table.js`. -/
inductive TableStatus where
  | available
  | occupied
  | reserved
  | cleaning
  deriving DecidableEq, Repr

/-- The enum validator of `Table.status`. -/
def TableStatus.ofString? (s : String) : Option TableStatus :=
  if s = "available" then some .available
  else if s = "occupied" then some .occupied
  else if s = "reserved" then some .reserved
  else if s = "cleaning" then some .cleaning
  else none

/-- The enum of `role` in `src/models/User.js`. -/
inductive Role where
  | superadmin
  | admin
  | staff
  | customer
  deriving DecidableEq, Repr

/-- A line of a cart or of an order (`orderItemSchema`; a cart line has the same
fields, `customerController.js` lines 131-138). -/
structure LineItem where
  menuItem : Id
  name : String
  price : ℚ
  quantity : Int
  notes : String
  subtotal : ℚ
  deriving DecidableEq, Repr

/-- An entry of `Order.statusHistory`. -/
structure StatusChange where
  status : String
  timestamp : Time
  updatedBy : Id
  deriving DecidableEq, Repr

/-- A document of the `orders` collection. -/
structure Order where
  _id : Id
  restaurant : Id
  table : Id
  customer : Option Id
  customerPhone : String
  orderNumber : String
  items : List LineItem
  subtotal : ℚ
  tax : ℚ
  total : ℚ
  status : OrderStatus
  notes : String
  statusHistory : List StatusChange
  placedAt : Time
  completedAt : Option Time
  createdAt : Time
  deriving DecidableEq, Repr

/-- A document of the `tables` collection. -/
structure Table where
  _id : Id
  restaurant : Id
  tableNumber : String
  status : TableStatus
  isActive : Bool
  currentOrder : Option Id
  deriving DecidableEq, Repr

/-- A document of the `restaurants` collection; `orderPrefix` is
`settings.orderPrefix` (absent when the stored document lacks it). -/
structure Restaurant where
  _id : Id
  slug : String
  isActive : Bool
  orderPrefix : Option String
  deriving DecidableEq, Repr

/-- A document of the `menuitems` collection. -/
structure MenuItem where
  _id : Id
  restaurant : Id
  name : String
  price : ℚ
  isAvailable : Bool
  deriving DecidableEq, Repr

/-- A document of the `users` collection. -/
structure User where
  _id : Id
  username : String
  name : String
  phone : Option String
  role : Role
  restaurant : Option Id
  permissions : List String := []
  deriving DecidableEq, Repr

/-- The document store, with the ObjectId counter. -/
structure Store where
  restaurants : List Restaurant
  tables : List Table
  menuItems : List MenuItem
  users : List User
  orders : List Order
  nextId : Id
  deriving DecidableEq, Repr

/-- The field `req.session.user` of a logged-in staff, admin or superadmin. -/
structure SessionUser where
  _id : Id
  role : Role
  restaurant : Option Id
  deriving DecidableEq, Repr

/-- The field `req.session.customer`; `placeOrder` stores it without `restaurant`. -/
structure SessionCustomer where
  _id : Id
  phone : Option String
  name : String
  restaurant : Option Id := none
  deriving DecidableEq, Repr

/-- The field `req.session.cart`. -/
structure Cart where
  items : List LineItem
  total : ℚ
  deriving DecidableEq, Repr

/-- The session of a browser: each field is absent until a handler sets it. -/
structure Session where
  user : Option SessionUser
  restaurant : Option Restaurant
  table : Option Table
  cart : Option Cart
  customer : Option SessionCustomer
  deriving DecidableEq, Repr

/-- The body of a `res.json(...)` answer. -/
structure Response where
  success : Bool
  message : Option String
  newStatus : Option String
  orderId : Option Id
  orderNumber : Option String
  deriving DecidableEq, Repr

/-- The answer `res.json` with `success: false` and a message. -/
def Response.failure (msg : String) : Response :=
  { success := false, message := some msg, newStatus := none, orderId := none,
    orderNumber := none }

/-! ## `src/models/Order.js` -/

/-- The constant `taxRate` of the `pre('save')` hook. -/
def taxRate : ℚ := 1 / 10

/-- The hook `orderSchema.pre('save')`: every line's subtotal and the order's
subtotal, tax and total are recomputed, and `completedAt` is stamped when the status
was modified and is `done`.  `statusModified` is `this.isModified('status')`. -/
def preSave (o : Order) (statusModified : Bool) (now : Time) : Order :=
  let items := o.items.map (fun item => { item with subtotal := item.price * item.quantity })
  let subtotal := items.foldl (fun sum item => sum + item.subtotal) 0
  let tax := subtotal * taxRate
  { o with
    items := items
    subtotal := subtotal
    tax := tax
    total := subtotal + tax
    completedAt := if statusModified && o.status == OrderStatus.done then some now
                   else o.completedAt }

/-- The method `orderSchema.methods.updateStatus` up to the write: the status is set,
one entry is pushed on the history, and `save()` validates the status against the
enum (`none`: the validation error) and runs the `pre('save')` hook. -/
def updateStatus (o : Order) (newStatus : String) (userId : Id) (now : Time) : Option Order :=
  match OrderStatus.ofString? newStatus with
  | none => none
  | some st =>
    some (preSave
      { o with
        status := st
        statusHistory := o.statusHistory ++
          [{ status := newStatus, timestamp := now, updatedBy := userId }] }
      (decide (st ≠ o.status)) now)

/-- The write of `save()` on a loaded order: the stored document with its `_id` is
replaced. -/
def Store.saveOrder (s : Store) (o : Order) : Store :=
  { s with orders := s.orders.map (fun x => if x._id = o._id then o else x) }

/-- The query of `countDocuments` in `generateOrderNumber`: the orders of the
restaurant created between the two instants, bounds included. -/
def countTodaysOrders (s : Store) (restaurantId : Id) (startOfDay endOfDay : Time) : Nat :=
  (s.orders.filter (fun o =>
    decide (o.restaurant = restaurantId ∧ startOfDay ≤ o.createdAt ∧ o.createdAt ≤ endOfDay))).length

/-- The expression `restaurant?.settings?.orderPrefix || 'ORD'`: an absent restaurant,
an absent setting and the empty string all give `ORD`. -/
def orderPrefixOf (restaurant : Option Restaurant) : String :=
  match restaurant.bind (fun r => r.orderPrefix) with
  | none => "ORD"
  | some p => if p = "" then "ORD" else p

/-- The static `orderSchema.statics.generateOrderNumber`. -/
def generateOrderNumber (s : Store) (restaurantId : Id) (today : Js.Date) : String :=
  let restaurant := s.restaurants.find? (fun r => decide (r._id = restaurantId))
  let pfx := orderPrefixOf restaurant
  let dateStr := Js.removeHyphens (Js.sliceTo 10 (Js.toISOString today))
  let count := countTodaysOrders s restaurantId today.startOfDay today.endOfDay
  let orderNum := Js.padStart 4 '0' (Nat.repr (count + 1))
  pfx ++ "-" ++ dateStr ++ "-" ++ orderNum

/-! ## `src/controllers/staffController.js` -/

/-- The table `validTransitions` of `updateOrderStatus`. -/
def validTransitions : OrderStatus → List String
  | .pending => ["preparing", "cancelled"]
  | .preparing => ["served", "cancelled"]
  | .served => ["done"]
  | .done => []
  | .cancelled => []

/-- The call `Table.findByIdAndUpdate(id, update)`: the table with that `_id`, if
there is one, is updated. -/
def Store.findByIdAndUpdateTable (s : Store) (id : Id) (update : Table → Table) : Store :=
  { s with tables := s.tables.map (fun t => if t._id = id then update t else t) }

/-- The query `Order.findOne` with `_id` and `restaurant` of `updateOrderStatus`. -/
def findOrder (s : Store) (orderId : Id) (restaurant : Option Id) : Option Order :=
  s.orders.find? (fun o => decide (o._id = orderId ∧ some o.restaurant = restaurant))

/-- The handler `exports.updateOrderStatus`: `status` is `req.body.status`, `orderId`
is `req.params.id`, `user` is `req.session.user`. -/
def updateOrderStatus (s : Store) (user : SessionUser) (orderId : Id) (status : String)
    (now : Time) : Store × Response :=
  match findOrder s orderId user.restaurant with
  | none => (s, Response.failure "Order not found")
  | some order =>
    if ¬ (status ∈ validTransitions order.status) then
      (s, Response.failure
        ("Cannot change status from " ++ order.status.toString ++ " to " ++ status))
    else
      match updateStatus order status user._id now with
      | none => (s, Response.failure "Error updating order status")
      | some saved =>
        let s1 := s.saveOrder saved
        let s2 :=
          if status = "done" ∨ status = "cancelled" then
            s1.findByIdAndUpdateTable saved.table
              (fun t => { t with status := TableStatus.available, currentOrder := none })
          else s1
        (s2, { success := true, message := none, newStatus := some status, orderId := none,
               orderNumber := none })

/-! ## `src/models/User.js` and the inserts of `save()` -/

/-- The write of `save()` on a new user: the `required` validators of `username` and
`name` and the unique index on `username`; `none` is the error that `save()` throws. -/
def Store.insertUser (s : Store) (u : User) : Option Store :=
  if u.username = "" ∨ u.name = "" then none
  else if s.users.any (fun x => decide (x.username = u.username)) then none
  else some { s with users := s.users ++ [u], nextId := s.nextId + 1 }

/-- The validators of `orderItemSchema`: `name` required, `price` at least 0,
`quantity` at least 1. -/
def LineItem.valid (item : LineItem) : Bool :=
  decide (item.name ≠ "" ∧ 0 ≤ item.price ∧ 1 ≤ item.quantity)

/-- The validators of `orderSchema` that a new order can fail: `customerPhone` and
`orderNumber` required, and the validators of every line. -/
def Order.valid (o : Order) : Bool :=
  decide (o.customerPhone ≠ "" ∧ o.orderNumber ≠ "") && o.items.all LineItem.valid

/-- The write of `save()` on a new order: validation, the `pre('save')` hook, then the
insert, which the unique index on `(restaurant, orderNumber)` can refuse; `createdAt`
is set by the `timestamps` option.  `none` is the error that `save()` throws. -/
def Store.insertOrder (s : Store) (o : Order) (now : Time) : Option (Store × Order) :=
  if ¬ o.valid then none
  else
    let saved := { preSave o true now with createdAt := now }
    if s.orders.any (fun x =>
        decide (x.restaurant = saved.restaurant ∧ x.orderNumber = saved.orderNumber)) then none
    else some ({ s with orders := s.orders ++ [saved], nextId := s.nextId + 1 }, saved)

/-! ## `src/controllers/customerController.js` -/

/-- The query `User.findOne` with `phone`, `role: 'customer'` and `restaurant` of
`placeOrder`; the `trim` setter of `phone` applies to the queried value. -/
def findCustomer (s : Store) (phone : String) (restaurantId : Id) : Option User :=
  s.users.find? (fun u => decide (u.phone = some (Js.trim phone) ∧ u.role = Role.customer ∧
    u.restaurant = some restaurantId))

/-- The document `new User(...)` of `placeOrder`, after the setters of the schema
(`username`: trim and lowercase; `phone` and `name`: trim). -/
def newCustomer (id : Id) (phone : String) (restaurantId : Id) : User :=
  { _id := id
    username := Js.toLowerCase (Js.trim ("customer_" ++ phone))
    name := Js.trim ("Customer " ++ Js.sliceLast 4 phone)
    phone := some (Js.trim phone)
    role := Role.customer
    restaurant := some restaurantId }

/-- The step "create or find customer" of `placeOrder`: the store after it and the
customer, or `none` when `customer.save()` throws. -/
def findOrCreateCustomer (s : Store) (phone : String) (restaurantId : Id) :
    Option (Store × User) :=
  match findCustomer s phone restaurantId with
  | some customer => some (s, customer)
  | none =>
    let customer := newCustomer s.nextId phone restaurantId
    (s.insertUser customer).map (fun s1 => (s1, customer))

/-- The document `new Order(...)` of `placeOrder`, with the defaults of the schema. -/
def newOrder (id : Id) (restaurant : Restaurant) (table : Table) (customer : User)
    (phone : String) (orderNumber : String) (cart : Cart) (notes : String) (now : Time) :
    Order :=
  { _id := id
    restaurant := restaurant._id
    table := table._id
    customer := some customer._id
    customerPhone := phone
    orderNumber := orderNumber
    items := cart.items
    subtotal := 0
    tax := 0
    total := 0
    status := OrderStatus.pending
    notes := notes
    statusHistory := []
    placedAt := now
    completedAt := none
    createdAt := now }

/-- The handler `exports.placeOrder`: `reqRestaurant` is `req.restaurant` (set by the
middleware `loadRestaurant`), `phone` and `notes` are the fields of `req.body`. -/
def placeOrder (s : Store) (sess : Session) (reqRestaurant : Option Restaurant)
    (phone : Option String) (notes : Option String) (now : Js.Date) :
    Store × Session × Response :=
  match reqRestaurant <|> sess.restaurant, sess.table with
  | some restaurant, some table =>
    match sess.cart with
    | none => (s, sess, Response.failure "Cart is empty")
    | some cart =>
      if cart.items.length = 0 then (s, sess, Response.failure "Cart is empty")
      else
        match phone with
        | none => (s, sess, Response.failure "Phone number is required")
        | some phone =>
          if phone = "" then (s, sess, Response.failure "Phone number is required")
          else
            match findOrCreateCustomer s phone restaurant._id with
            | none => (s, sess, Response.failure "Error placing order")
            | some (s1, customer) =>
              let sess1 := { sess with
                customer := some
                  { _id := customer._id, phone := customer.phone, name := customer.name } }
              let orderNumber := generateOrderNumber s1 restaurant._id now
              let order := newOrder s1.nextId restaurant table customer phone orderNumber cart
                (notes.getD "") now.time
              match s1.insertOrder order now.time with
              | none => (s1, sess1, Response.failure "Error placing order")
              | some (s2, saved) =>
                let s3 := s2.findByIdAndUpdateTable table._id
                  (fun t => { t with status := TableStatus.occupied,
                                     currentOrder := some saved._id })
                (s3, { sess1 with cart := none },
                  { success := true, message := none, newStatus := none,
                    orderId := some saved._id, orderNumber := some saved.orderNumber })
  | _, _ => (s, sess, Response.failure "Restaurant or table information missing")

/-! ## `src/controllers/adminController.js` -/

/-- The handler `exports.updateTableStatus`: the table of the caller's restaurant gets
the requested status, and loses its current order when that status is `available`;
`save()` validates the status against the enum. -/
def updateTableStatus (s : Store) (user : SessionUser) (tableId : Id) (status : String) :
    Store × Response :=
  match s.tables.find? (fun t => decide (t._id = tableId ∧ some t.restaurant = user.restaurant)) with
  | none => (s, Response.failure "Table not found")
  | some table =>
    match TableStatus.ofString? status with
    | none => (s, Response.failure "Error updating table status")
    | some st =>
      let saved := { table with
        status := st
        currentOrder := if status = "available" then none else table.currentOrder }
      ({ s with tables := s.tables.map (fun t => if t._id = saved._id then saved else t) },
        { success := true, message := none, newStatus := none, orderId := none,
          orderNumber := none })

/-! ## Reachable states -/

/-- The stores reachable from a store without orders, whose tables have no current
order, through `placeOrder`, `updateOrderStatus` and `updateTableStatus`, each called
with any session and any request. -/
inductive Reachable : Store → Prop where
  | init (s : Store) (horders : s.orders = [])
      (htables : ∀ t ∈ s.tables, t.currentOrder = none) : Reachable s
  | placeOrder (s : Store) (sess : Session) (reqRestaurant : Option Restaurant)
      (phone notes : Option String) (now : Js.Date) (h : Reachable s) :
      Reachable (placeOrder s sess reqRestaurant phone notes now).1
  | updateOrderStatus (s : Store) (user : SessionUser) (orderId : Id) (status : String)
      (now : Time) (h : Reachable s) :
      Reachable (updateOrderStatus s user orderId status now).1
  | updateTableStatus (s : Store) (user : SessionUser) (tableId : Id) (status : String)
      (h : Reachable s) :
      Reachable (updateTableStatus s user tableId status).1

/-! ## `src/controllers/customerController.js`: cart and table entry -/

namespace Js

/-- The Numbers that `String(x)` prints in decimal notation: zero and the numbers of
absolute value from `1e-6` up to, not including, `1e21`.  The other Numbers are printed
in exponent notation, of which `parseInt` reads only the leading digit. -/
def decimalNotation (x : ℚ) : Prop :=
  x = 0 ∨ (1 / 1000000 ≤ |x| ∧ |x| < 1000000000000000000000)

/-- The function `parseInt` on a Number that is printed in decimal notation
(`decimalNotation`), or on the string of one: the integer part, rounded toward zero.
On a Number printed in exponent notation the code differs from this definition;
statements on the value of `parseInt` are restricted to `decimalNotation`. -/
def parseInt (x : ℚ) : Int :=
  if 0 ≤ x then Rat.floor x else - Rat.floor (- x)

/-- The method `Array.prototype.findIndex`; `none` stands for the result -1. -/
def findIndex {α : Type} (p : α → Bool) : List α → Option Nat
  | [] => none
  | a :: l => if p a then some 0 else (findIndex p l).map (fun i => i + 1)

end Js

/-- The query `MenuItem.findOne` of `addToCart`: the item with that `_id`, of the
active restaurant, that is available. -/
def findMenuItem (s : Store) (itemId : Id) (restaurantId : Id) : Option MenuItem :=
  s.menuItems.find? (fun m =>
    decide (m._id = itemId ∧ m.restaurant = restaurantId ∧ m.isAvailable = true))

/-- The expression `items.reduce((sum, item) => sum + item.subtotal, 0)` of the cart
handlers. -/
def cartTotal (items : List LineItem) : ℚ :=
  items.foldl (fun sum item => sum + item.subtotal) 0

/-- The answer `res.json` with `success: true` of the cart handlers; its field `cart`
is the cart of the session that the handler returns. -/
def Response.cartUpdated : Response :=
  { success := true, message := none, newStatus := none, orderId := none,
    orderNumber := none }

/-- The handler `exports.addToCart`: `itemId`, `quantity` (default 1) and `notes`
(default empty) are the fields of `req.body`. -/
def addToCart (s : Store) (sess : Session) (reqRestaurant : Option Restaurant) (itemId : Id)
    (quantity : Option ℚ) (notes : Option String) : Session × Response :=
  match reqRestaurant <|> sess.restaurant with
  | none => (sess, Response.failure "Restaurant not found")
  | some restaurant =>
    match findMenuItem s itemId restaurant._id with
    | none => (sess, Response.failure "Menu item not found")
    | some menuItem =>
      let cart := sess.cart.getD { items := [], total := 0 }
      let q := Js.parseInt (quantity.getD 1)
      let items :=
        match Js.findIndex (fun item => decide (item.menuItem = itemId)) cart.items with
        | some existingIndex =>
          cart.items.modify
            (fun item => { item with
              quantity := item.quantity + q
              subtotal := (item.quantity + q) * menuItem.price })
            existingIndex
        | none =>
          cart.items ++
            [{ menuItem := menuItem._id, name := menuItem.name, price := menuItem.price,
               quantity := q, notes := notes.getD "", subtotal := menuItem.price * q }]
      ({ sess with cart := some { items := items, total := cartTotal items } },
        Response.cartUpdated)

/-- The handler `exports.updateCartItem`: `itemId` is `req.params.itemId`, `quantity`
is `req.body.quantity`. -/
def updateCartItem (sess : Session) (itemId : Id) (quantity : ℚ) : Session × Response :=
  match sess.cart with
  | none => (sess, Response.failure "Cart is empty")
  | some cart =>
    match Js.findIndex (fun item => decide (item.menuItem = itemId)) cart.items with
    | none => (sess, Response.failure "Item not found in cart")
    | some itemIndex =>
      let items :=
        if quantity ≤ 0 then cart.items.eraseIdx itemIndex
        else
          cart.items.modify
            (fun item => { item with
              quantity := Js.parseInt quantity
              subtotal := Js.parseInt quantity * item.price })
            itemIndex
      ({ sess with cart := some { items := items, total := cartTotal items } },
        Response.cartUpdated)

/-- The cart that `exports.viewCart` renders. -/
def viewCart (sess : Session) : Cart :=
  sess.cart.getD { items := [], total := 0 }

/-- The handler `exports.tableEntry`: the active restaurant with the slug and its
active table with the number are stored in the session; `false` is the 404 page.  The
setters of `slug` (trim, lowercase) apply to the queried value. -/
def tableEntry (s : Store) (sess : Session) (restaurantSlug tableNumber : String) :
    Session × Bool :=
  match s.restaurants.find? (fun r =>
      decide (r.slug = Js.toLowerCase (Js.trim restaurantSlug) ∧ r.isActive = true)) with
  | none => (sess, false)
  | some restaurant =>
    match s.tables.find? (fun t =>
        decide (t.restaurant = restaurant._id ∧ t.tableNumber = tableNumber ∧
          t.isActive = true)) with
    | none => (sess, false)
    | some table => ({ sess with restaurant := some restaurant, table := some table }, true)

/-- The middleware `loadRestaurant` of the customer routes: the active restaurant with
the slug is stored in the session and handed to the handler as `req.restaurant`;
`none` is the 404 page. -/
def loadRestaurant (s : Store) (sess : Session) (restaurantSlug : String) :
    Option (Session × Restaurant) :=
  match s.restaurants.find? (fun r =>
      decide (r.slug = Js.toLowerCase (Js.trim restaurantSlug) ∧ r.isActive = true)) with
  | none => none
  | some restaurant => some ({ sess with restaurant := some restaurant }, restaurant)

/-- A request to `placeOrder`. -/
structure PlaceOrderRequest where
  sess : Session
  reqRestaurant : Option Restaurant
  phone : Option String
  notes : Option String
  now : Js.Date
  deriving DecidableEq, Repr

/-- The store after the requests to `placeOrder` are served one after another. -/
def placeOrders (s : Store) (reqs : List PlaceOrderRequest) : Store :=
  reqs.foldl (fun st r => (placeOrder st r.sess r.reqRestaurant r.phone r.notes r.now).1) s

/-- The orders of a restaurant created within a day, in the order of the collection
(the documents that `countDocuments` counts in `generateOrderNumber`). -/
def ordersOfDay (s : Store) (restaurantId : Id) (startOfDay endOfDay : Time) : List Order :=
  s.orders.filter (fun o =>
    decide (o.restaurant = restaurantId ∧ startOfDay ≤ o.createdAt ∧ o.createdAt ≤ endOfDay))

/-! ## Notions of the specification -/

/-- The current date as eight digits `YYYYMMDD` (the wording of the specification). -/
def dateDigits (d : Js.Date) : String :=
  Js.fourDigits d.utcFullYear ++ Js.twoDigits d.utcMonth ++ Js.twoDigits d.utcDate

/-- The number `k` written in decimal and left-padded with zeros to four digits (the
wording of the specification). -/
def paddedSequence (k : Nat) : String :=
  String.mk (List.replicate (4 - (Nat.repr k).length) '0') ++ Nat.repr k

/-- The statuses with a legal next status: pending, preparing and served. -/
def OrderStatus.nonTerminal : OrderStatus → Bool
  | .pending => true
  | .preparing => true
  | .served => true
  | .done => false
  | .cancelled => false

/-- The orders with a non-terminal status placed on a table. -/
def activeOrdersOn (s : Store) (tableId : Id) : List Order :=
  s.orders.filter (fun o => decide (o.table = tableId) && o.status.nonTerminal)

/-- The orders that a table references as its current order. -/
def currentOrdersOf (s : Store) (t : Table) : List Order :=
  s.orders.filter (fun o => decide (t.currentOrder = some o._id))

/-! ## Sample data -/

/-- A restaurant with the prefix of the seed data. -/
def sampleRestaurant : Restaurant :=
  { _id := 1, slug := "demo", isActive := true, orderPrefix := some "DEMO" }

/-- Table "5" of the sample restaurant, occupied by the sample order. -/
def sampleTable : Table :=
  { _id := 10, restaurant := 1, tableNumber := "5", status := TableStatus.occupied,
    isActive := true, currentOrder := some 1000 }

/-- A staff member of the sample restaurant. -/
def sampleStaff : SessionUser :=
  { _id := 100, role := Role.staff, restaurant := some 1 }

/-- The two lines of the scenario: item A at 10.00 twice, item B at 5.00 once. -/
def sampleLines : List LineItem :=
  [{ menuItem := 50, name := "Item A", price := 10, quantity := 2, notes := "", subtotal := 20 },
   { menuItem := 51, name := "Item B", price := 5, quantity := 1, notes := "", subtotal := 5 }]

/-- A pending order on table "5". -/
def sampleOrder : Order :=
  { _id := 1000, restaurant := 1, table := 10, customer := none, customerPhone := "5550100",
    orderNumber := "DEMO-20240101-0001", items := sampleLines, subtotal := 25, tax := 5 / 2,
    total := 55 / 2, status := OrderStatus.pending, notes := "", statusHistory := [],
    placedAt := 1704100000000, completedAt := none, createdAt := 1704100000000 }

/-- The menu of the sample restaurant. -/
def sampleMenu : List MenuItem :=
  [{ _id := 50, restaurant := 1, name := "Item A", price := 10, isAvailable := true },
   { _id := 51, restaurant := 1, name := "Item B", price := 5, isAvailable := true }]

/-- A store holding the sample restaurant, table and order. -/
def sampleStore : Store :=
  { restaurants := [sampleRestaurant], tables := [sampleTable], menuItems := sampleMenu,
    users := [], orders := [sampleOrder], nextId := 2000 }

/-- Table "5" of the sample restaurant before any order. -/
def freeTable : Table :=
  { _id := 10, restaurant := 1, tableNumber := "5", status := TableStatus.available,
    isActive := true, currentOrder := none }

/-- A store of a restaurant that has taken no order yet. -/
def openStore : Store :=
  { restaurants := [sampleRestaurant], tables := [freeTable], menuItems := sampleMenu,
    users := [], orders := [], nextId := 2000 }

/-- The cart of the scenario. -/
def sampleCart : Cart :=
  { items := sampleLines, total := 25 }

/-- The session of a customer who scanned the code of table "5" and filled the cart. -/
def sampleSession : Session :=
  { user := none, restaurant := some sampleRestaurant, table := some freeTable,
    cart := some sampleCart, customer := none }

/-- The instant 2024-01-01T09:06:40.000Z on a server whose local time is UTC. -/
def sampleDate : Js.Date :=
  { time := 1704100000000, utcFullYear := 2024, utcMonth := 1, utcDate := 1, utcHours := 9,
    utcMinutes := 6, utcSeconds := 40, utcMilliseconds := 0,
    startOfDay := 1704067200000, endOfDay := 1704153599999 }

/-- The store after the sample customer placed the sample cart. -/
def placedStore : Store :=
  (placeOrder openStore sampleSession (some sampleRestaurant) (some "5550100") none sampleDate).1

/-- The session of the sample customer after the first order, the cart filled again. -/
def secondSession : Session :=
  { (placeOrder openStore sampleSession (some sampleRestaurant) (some "5550100") none
      sampleDate).2.1 with cart := some sampleCart }

/-- The instant 2024-01-01T09:16:40.000Z on a server whose local time is UTC. -/
def laterDate : Js.Date :=
  { time := 1704100600000, utcFullYear := 2024, utcMonth := 1, utcDate := 1, utcHours := 9,
    utcMinutes := 16, utcSeconds := 40, utcMilliseconds := 0,
    startOfDay := 1704067200000, endOfDay := 1704153599999 }

/-- The store after the sample customer placed a second order from the same table. -/
def twiceStore : Store :=
  (placeOrder placedStore secondSession (some sampleRestaurant) (some "5550100") none
    laterDate).1


/-- An admin of the sample restaurant. -/
def sampleAdmin : SessionUser :=
  { _id := 101, role := Role.admin, restaurant := some 1 }

/-- A staff member of another restaurant. -/
def otherStaff : SessionUser :=
  { _id := 200, role := Role.staff, restaurant := some 2 }

/-- Table "6" of the sample restaurant. -/
def otherTable : Table :=
  { _id := 11, restaurant := 1, tableNumber := "6", status := TableStatus.available,
    isActive := true, currentOrder := none }

/-- The sample restaurant with its tables "5" and "6", before any order. -/
def twoTableStore : Store :=
  { openStore with tables := [freeTable, otherTable] }

/-- A cart that holds item A twice, with a note. -/
def notedCart : Cart :=
  { items := [{ menuItem := 50, name := "Item A", price := 10, quantity := 2,
                notes := "no onions", subtotal := 20 }],
    total := 20 }

/-- A session at table "5" with the noted cart. -/
def notedSession : Session :=
  { sampleSession with cart := some notedCart }

/-- The instant 2024-01-01T10:00:00.000Z on a server whose local time is UTC+05:30:
local 15:30 on 1 January. -/
def afternoonDate : Js.Date :=
  { time := 1704103200000, utcFullYear := 2024, utcMonth := 1, utcDate := 1, utcHours := 10,
    utcMinutes := 0, utcSeconds := 0, utcMilliseconds := 0,
    startOfDay := 1704047400000, endOfDay := 1704133799999 }

/-- The instant 2024-01-01T19:00:00.000Z on the same server: local 00:30 on 2 January. -/
def afterMidnightDate : Js.Date :=
  { time := 1704135600000, utcFullYear := 2024, utcMonth := 1, utcDate := 1, utcHours := 19,
    utcMinutes := 0, utcSeconds := 0, utcMilliseconds := 0,
    startOfDay := 1704133800000, endOfDay := 1704220199999 }

/-- The store after the sample customer placed the sample cart in the afternoon. -/
def afternoonStore : Store :=
  (placeOrder openStore sampleSession (some sampleRestaurant) (some "5550100") none
    afternoonDate).1

/-- The two requests of the sample customer on 1 January (server on UTC). -/
def sampleRequests : List PlaceOrderRequest :=
  [{ sess := sampleSession, reqRestaurant := some sampleRestaurant, phone := some "5550100",
     notes := none, now := sampleDate },
   { sess := secondSession, reqRestaurant := some sampleRestaurant, phone := some "5550100",
     notes := none, now := laterDate }]

/-! ## `src/models/User.js`, `src/middleware/auth.js`, `src/routes/auth.js` -/

/-- The method `userSchema.methods.hasPermission`: every permission for a superadmin,
the two fixed lists for an admin and for a staff member, the stored permissions for
any other account. -/
def hasPermission (u : User) (permission : String) : Bool :=
  match u.role with
  | Role.superadmin => true
  | Role.admin =>
    ["manage_menu", "manage_tables", "manage_staff", "view_orders", "manage_orders"].contains
      permission
  | Role.staff => ["view_orders", "update_order_status"].contains permission
  | Role.customer => u.permissions.contains permission

/-- The middleware `isStaff`: a logged-in staff member, admin or superadmin passes. -/
def isStaff (sess : Session) : Bool :=
  match sess.user with
  | none => false
  | some user => [Role.staff, Role.admin, Role.superadmin].contains user.role

/-- The object that `POST /login` stores as `req.session.user`: its restaurant is the
one of the account, `null` for an account without restaurant. -/
def sessionUserOf (u : User) : SessionUser :=
  { _id := u._id, role := u.role, restaurant := u.restaurant }

/-- The answer `res.json` with `success: true` and no order field. -/
def Response.ok : Response :=
  { success := true, message := none, newStatus := none, orderId := none,
    orderNumber := none }

/-- The route `POST /customer-login`: `phone` and `restaurantId` are the fields of
`req.body`.  The customer is found or created by the same statements as in
`placeOrder`; the second `save()` only stamps `lastLogin`, which the model does not
hold.  The `customer` of the answer is the customer stored in the session. -/
def customerLogin (s : Store) (sess : Session) (phone : Option String)
    (restaurantId : Option Id) : Store × Session × Response :=
  match phone, restaurantId with
  | some phone, some restaurantId =>
    if phone = "" then (s, sess, Response.failure "Phone and restaurant required")
    else
      match findOrCreateCustomer s phone restaurantId with
      | none => (s, sess, Response.failure "Login failed")
      | some (s1, customer) =>
        (s1,
          { sess with
            customer := some
              { _id := customer._id, phone := customer.phone, name := customer.name,
                restaurant := customer.restaurant } },
          Response.ok)
  | _, _ => (s, sess, Response.failure "Phone and restaurant required")

/-! ## `src/controllers/superAdminController.js`, `src/controllers/adminController.js` -/

/-- The handler `exports.deleteRestaurant`: `restaurantId` is `req.params.id`.  With an
order of the restaurant in the store nothing is written; otherwise `User.deleteMany`
removes the users of the restaurant and `Restaurant.findByIdAndDelete` the restaurant. -/
def deleteRestaurant (s : Store) (restaurantId : Id) : Store × Response :=
  let orderCount := (s.orders.filter (fun o => decide (o.restaurant = restaurantId))).length
  if orderCount > 0 then
    (s, Response.failure "Cannot delete restaurant with existing orders. Deactivate instead.")
  else
    ({ s with
        users := s.users.filter (fun u => decide (u.restaurant ≠ some restaurantId))
        restaurants := s.restaurants.filter (fun r => decide (r._id ≠ restaurantId)) },
      Response.ok)

/-- The handler `exports.updateMenuItem` on the fields of the model, for a request
without upload error: the menu item of the caller's restaurant gets the submitted name,
price and availability; `save()` validates them (`name` required after trim, `price`
at least 0).  `false` is the error page. -/
def updateMenuItem (s : Store) (user : SessionUser) (itemId : Id) (name : String) (price : ℚ)
    (isAvailable : Bool) : Store × Bool :=
  match s.menuItems.find? (fun m =>
      decide (m._id = itemId ∧ some m.restaurant = user.restaurant)) with
  | none => (s, false)
  | some menuItem =>
    let saved := { menuItem with name := Js.trim name, price := price,
                                 isAvailable := isAvailable }
    if saved.name = "" ∨ saved.price < 0 then (s, false)
    else
      ({ s with menuItems := s.menuItems.map (fun m => if m._id = saved._id then saved else m) },
        true)

/-! ## Customer accounts -/

/-- The customer accounts of a restaurant that carry a phone number. -/
def customersWith (s : Store) (restaurantId : Id) (phone : String) : List User :=
  s.users.filter (fun u => decide (u.phone = some phone ∧ u.role = Role.customer ∧
    u.restaurant = some restaurantId))

/-- The stores reachable through `placeOrder` and `customerLogin`, each called with any
session and any request, from a store in which no two customer accounts share phone
and restaurant (a store without customer accounts is one). -/
inductive CustomerReachable : Store → Prop where
  | init (s : Store)
      (h : ∀ (restaurantId : Id) (phone : String),
        (customersWith s restaurantId phone).length ≤ 1) : CustomerReachable s
  | placeOrder (s : Store) (sess : Session) (reqRestaurant : Option Restaurant)
      (phone notes : Option String) (now : Js.Date) (h : CustomerReachable s) :
      CustomerReachable (placeOrder s sess reqRestaurant phone notes now).1
  | customerLogin (s : Store) (sess : Session) (phone : Option String)
      (restaurantId : Option Id) (h : CustomerReachable s) :
      CustomerReachable (customerLogin s sess phone restaurantId).1

/-! ## Notions of the specification: the status workflow -/

/-- One legal transition: the name of the next status stands in the row of the
current one in `validTransitions`. -/
def LegalTransition (a b : OrderStatus) : Prop :=
  b.toString ∈ validTransitions a

/-- The greatest number of legal transitions that lead from pending to a status. -/
def OrderStatus.depth : OrderStatus → Nat
  | .pending => 0
  | .preparing => 1
  | .served => 2
  | .done => 3
  | .cancelled => 2

/-! ## Sample data of a second restaurant -/

/-- A session before any request. -/
def emptySession : Session :=
  { user := none, restaurant := none, table := none, cart := none, customer := none }

/-- A second restaurant, without order prefix. -/
def secondRestaurant : Restaurant :=
  { _id := 2, slug := "roma", isActive := true, orderPrefix := none }

/-- Table "1" of the second restaurant. -/
def romaTable : Table :=
  { _id := 20, restaurant := 2, tableNumber := "1", status := TableStatus.available,
    isActive := true, currentOrder := none }

/-- A store with the two restaurants, one table each, before any order and any
customer. -/
def chainStore : Store :=
  { restaurants := [sampleRestaurant, secondRestaurant], tables := [freeTable, romaTable],
    menuItems := sampleMenu ++
      [{ _id := 60, restaurant := 2, name := "Item R", price := 8, isAvailable := true }],
    users := [], orders := [], nextId := 2000 }

/-- The store after a customer logged in at the second restaurant with the phone
number 5550100. -/
def registeredStore : Store :=
  (customerLogin chainStore emptySession (some "5550100") (some 2)).1

/-- The superadmin account of the seed data: it has no restaurant. -/
def rootAccount : User :=
  { _id := 1, username := "superadmin", name := "Super Admin", phone := none,
    role := Role.superadmin, restaurant := none }

/-- An admin account of the sample restaurant. -/
def adminAccount : User :=
  { _id := 101, username := "admin", name := "Restaurant Admin", phone := none,
    role := Role.admin, restaurant := some 1 }

/-- A staff account of the sample restaurant. -/
def staffAccount : User :=
  { _id := 100, username := "staff1", name := "John Staff", phone := none,
    role := Role.staff, restaurant := some 1 }

/-- The session of a customer who scanned the code of table "5" of the sample
restaurant and has not added anything yet. -/
def tableSession : Session :=
  (tableEntry chainStore emptySession "demo" "5").1

/-- The session after the customer added item A once, at the price 10. -/
def firstAddSession : Session :=
  (addToCart chainStore tableSession (some sampleRestaurant) 50 (some 1) none).1

/-- The store after the admin of the sample restaurant raised the price of item A
to 12. -/
def repricedStore : Store :=
  (updateMenuItem chainStore (sessionUserOf adminAccount) 50 "Item A" 12 true).1

/-- The session after the customer added item A once more, the price being 12. -/
def secondAddSession : Session :=
  (addToCart repricedStore firstAddSession (some sampleRestaurant) 50 (some 1) none).1

/-- The session after the customer, with item A in the cart, scanned the code of
table "1" of the second restaurant. -/
def movedSession : Session :=
  (tableEntry chainStore firstAddSession "roma" "1").1

/-- The session after the customer at table "5" added item A with the quantity 0. -/
def zeroSession : Session :=
  (addToCart chainStore tableSession (some sampleRestaurant) 50 (some 0) none).1

/-- The store after the order of the sample customer went through preparing to
served. -/
def servedStore : Store :=
  (updateOrderStatus
    (updateOrderStatus placedStore sampleStaff 2001 "preparing" 1704100100000).1
    sampleStaff 2001 "served" 1704100200000).1

/-- The store after the order of the sample customer went through preparing and
served to done. -/
def doneStore : Store :=
  (updateOrderStatus
    (updateOrderStatus
      (updateOrderStatus placedStore sampleStaff 2001 "preparing" 1704100100000).1
      sampleStaff 2001 "served" 1704100200000).1
    sampleAdmin 2001 "done" 1704100300000).1

/-- The session whose copy of the table carries another status and another current
order. -/
def Session.withTableState (sess : Session) (st : TableStatus) (cur : Option Id) : Session :=
  { sess with
    table := sess.table.map (fun t => { t with status := st, currentOrder := cur }) }

/-! ## The amounts of an order in the arithmetic of JS Numbers -/

namespace Js

/-- The scaling of a positive rational `y * u` by powers of two until `y` lies in the
range of the significand of a double, from `2^52` up to, not including, `2^53`; `u`
is then the unit in the last place.  The first argument bounds the number of steps. -/
def scaleToSignificand : Nat → ℚ → ℚ → ℚ × ℚ
  | 0, y, u => (y, u)
  | fuel + 1, y, u =>
    if y < 4503599627370496 then scaleToSignificand fuel (y * 2) (u / 2)
    else if 9007199254740992 ≤ y then scaleToSignificand fuel (y / 2) (u * 2)
    else (y, u)

/-- The integer nearest to a non-negative rational, the even one of two that are
equally near. -/
def roundHalfEven (y : ℚ) : Int :=
  let f := Rat.floor y
  let r := y - f
  if r < 1 / 2 then f
  else if 1 / 2 < r then f + 1
  else if f % 2 = 0 then f else f + 1

/-- The double nearest to a rational (round to nearest, ties to even), as every
arithmetic operation of JS rounds its exact result.  For values in the range of the
normal doubles: overflow to `Infinity` and the subnormal numbers are outside the
model. -/
def toDouble (x : ℚ) : ℚ :=
  if x = 0 then 0
  else
    let p := scaleToSignificand 2200 (if 0 ≤ x then x else - x) 1
    let m := roundHalfEven p.1
    if 0 ≤ x then m * p.2 else - (m * p.2)

/-- The product `a * b` of two Numbers. -/
def mulNumber (a b : ℚ) : ℚ := toDouble (a * b)

/-- The sum `a + b` of two Numbers. -/
def addNumber (a b : ℚ) : ℚ := toDouble (a + b)

end Js

/-- The hook `orderSchema.pre('save')` in the arithmetic of JS Numbers: the statements
of `preSave`, every product and every sum rounded to the nearest double, the literal
`0.10` being the double nearest to one tenth. -/
def preSaveNumber (o : Order) (statusModified : Bool) (now : Time) : Order :=
  let items := o.items.map
    (fun item => { item with subtotal := Js.mulNumber item.price item.quantity })
  let subtotal := items.foldl (fun sum item => Js.addNumber sum item.subtotal) 0
  let tax := Js.mulNumber subtotal (Js.toDouble (1 / 10))
  { o with
    items := items
    subtotal := subtotal
    tax := tax
    total := Js.addNumber subtotal tax
    completedAt := if statusModified && o.status == OrderStatus.done then some now
                   else o.completedAt }

/-- The amounts of an order agree with its lines in exact arithmetic: every line's
subtotal is its price times its quantity, the subtotal is the sum of these products,
the tax is the subtotal times the tax rate and the total is subtotal plus tax. -/
def Order.amountsAgree (o : Order) : Prop :=
  (∀ i ∈ o.items, i.subtotal = i.price * i.quantity) ∧
  o.subtotal = (o.items.map (fun i => i.price * (i.quantity : ℚ))).sum ∧
  o.tax = o.subtotal * taxRate ∧ o.total = o.subtotal + o.tax

/-- An order with one line: item A at 1.00 three times. -/
def threeOrder : Order :=
  { sampleOrder with
    items := [{ menuItem := 50, name := "Item A", price := 1, quantity := 3, notes := "",
                subtotal := 0 }] }

/-! ## Lemmas on the status workflow -/

theorem ofString?_of_mem_validTransitions {cur : OrderStatus} {status : String}
    (h : status ∈ validTransitions cur) :
    ∃ st, OrderStatus.ofString? status = some st ∧ st ≠ cur ∧ st.toString = status := by
  cases cur <;> simp [validTransitions] at h
  · rcases h with h | h <;> subst h <;> simp [OrderStatus.ofString?, OrderStatus.toString]
  · rcases h with h | h <;> subst h <;> simp [OrderStatus.ofString?, OrderStatus.toString]
  · subst h; simp [OrderStatus.ofString?, OrderStatus.toString]

theorem updateOrderStatus_of_not_mem {s : Store} {user : SessionUser} {orderId : Id}
    {status : String} {now : Time} {order : Order}
    (hfind : findOrder s orderId user.restaurant = some order)
    (hnot : status ∉ validTransitions order.status) :
    updateOrderStatus s user orderId status now =
      (s, Response.failure
        ("Cannot change status from " ++ order.status.toString ++ " to " ++ status)) := by
  simp [updateOrderStatus, hfind, hnot]

theorem updateOrderStatus_of_mem {s : Store} {user : SessionUser} {orderId : Id}
    {status : String} (now : Time) {order : Order}
    (hfind : findOrder s orderId user.restaurant = some order)
    (hmem : status ∈ validTransitions order.status) :
    ∃ saved, updateStatus order status user._id now = some saved ∧
      saved._id = order._id ∧ saved.restaurant = order.restaurant ∧
      saved.table = order.table ∧
      saved.statusHistory = order.statusHistory ++
        [{ status := status, timestamp := now, updatedBy := user._id }] ∧
      OrderStatus.ofString? status = some saved.status ∧
      saved.completedAt = (if status = "done" then some now else order.completedAt) ∧
      (updateOrderStatus s user orderId status now).2.success = true ∧
      (updateOrderStatus s user orderId status now).1 =
        (if status = "done" ∨ status = "cancelled" then
          (s.saveOrder saved).findByIdAndUpdateTable order.table
            (fun t => { t with status := TableStatus.available, currentOrder := none })
        else s.saveOrder saved) := by
  obtain ⟨st, hst, hne, hstr⟩ := ofString?_of_mem_validTransitions hmem
  have hu : updateStatus order status user._id now =
      some (preSave
        { order with
          status := st
          statusHistory := order.statusHistory ++
            [{ status := status, timestamp := now, updatedBy := user._id }] } true now) := by
    simp [updateStatus, hst, hne]
  have hdone : (st = OrderStatus.done) ↔ status = "done" := by
    rw [← hstr]; cases st <;> simp [OrderStatus.toString]
  refine ⟨_, hu, ?_, ?_, ?_, ?_, ?_, ?_, ?_, ?_⟩ <;>
    simp [updateOrderStatus, hfind, hmem, hu, preSave, hst, hdone]

theorem mem_validTransitions_iff (cur : OrderStatus) (status : String) :
    status ∈ validTransitions cur ↔
      (cur = OrderStatus.pending ∧ (status = "preparing" ∨ status = "cancelled")) ∨
      (cur = OrderStatus.preparing ∧ (status = "served" ∨ status = "cancelled")) ∨
      (cur = OrderStatus.served ∧ status = "done") := by
  cases cur <;> simp [validTransitions]

theorem find?_map_saved {l : List Order} {orderId : Id} {r : Option Id} {order saved : Order}
    (h : l.find? (fun o => decide (o._id = orderId ∧ some o.restaurant = r)) = some order)
    (hid : saved._id = orderId) (hr : some saved.restaurant = r) :
    (l.map (fun x => if x._id = saved._id then saved else x)).find?
      (fun o => decide (o._id = orderId ∧ some o.restaurant = r)) = some saved := by
  induction l with
  | nil => simp at h
  | cons a l ih =>
    simp only [List.map_cons, List.find?_cons] at h ⊢
    by_cases ha : a._id = saved._id
    · simp [ha, hid, hr]
    · have hp : decide (a._id = orderId ∧ some a.restaurant = r) = false := by
        simp only [decide_eq_false_iff_not, not_and]
        intro h1
        exact absurd (h1.trans hid.symm) ha
      simp only [ha, if_false, hp] at h ⊢
      exact ih h

theorem findOrder_eq_some {s : Store} {orderId : Id} {r : Option Id} {order : Order}
    (h : findOrder s orderId r = some order) :
    order ∈ s.orders ∧ order._id = orderId ∧ some order.restaurant = r := by
  unfold findOrder at h
  have h1 := List.find?_some h
  have h2 := List.mem_of_find?_eq_some h
  simp only [decide_eq_true_eq] at h1
  exact ⟨h2, h1.1, h1.2⟩

theorem findOrder_after_update {s : Store} {user : SessionUser} {orderId : Id}
    {status : String} (now : Time) {order : Order}
    (hfind : findOrder s orderId user.restaurant = some order)
    (hmem : status ∈ validTransitions order.status) :
    ∃ saved, findOrder (updateOrderStatus s user orderId status now).1 orderId user.restaurant
        = some saved ∧
      saved.statusHistory = order.statusHistory ++
        [{ status := status, timestamp := now, updatedBy := user._id }] ∧
      OrderStatus.ofString? status = some saved.status ∧
      (updateOrderStatus s user orderId status now).2.success = true := by
  obtain ⟨saved, _, hid, hr, _, hh, hst, _, hok, hs⟩ := updateOrderStatus_of_mem now hfind hmem
  obtain ⟨_, hoid, hor⟩ := findOrder_eq_some hfind
  refine ⟨saved, ?_, hh, hst, hok⟩
  have hf : findOrder (s.saveOrder saved) orderId user.restaurant = some saved :=
    find?_map_saved hfind (hid.trans hoid) (by rw [hr]; exact hor)
  rw [hs]
  split
  · exact hf
  · exact hf

/-! ## Effect of the handlers on the store -/

theorem insertUser_eq_some {s s1 : Store} {u : User} (h : s.insertUser u = some s1) :
    s1 = { s with users := s.users ++ [u], nextId := s.nextId + 1 } := by
  unfold Store.insertUser at h
  split at h
  · simp at h
  · split at h
    · simp at h
    · simpa using h.symm

theorem findOrCreateCustomer_eq_some {s s1 : Store} {phone : String} {restaurantId : Id}
    {customer : User} (h : findOrCreateCustomer s phone restaurantId = some (s1, customer)) :
    s1.orders = s.orders ∧ s1.tables = s.tables ∧ s1.restaurants = s.restaurants ∧
      s.nextId ≤ s1.nextId := by
  unfold findOrCreateCustomer at h
  split at h
  · simp only [Option.some.injEq, Prod.mk.injEq] at h
    obtain ⟨rfl, _⟩ := h
    simp
  · simp only [Option.map_eq_some'] at h
    obtain ⟨s2, hins, heq⟩ := h
    simp only [Prod.mk.injEq] at heq
    obtain ⟨rfl, _⟩ := heq
    rw [insertUser_eq_some hins]
    simp

theorem insertOrder_eq_some {s s2 : Store} {o saved : Order} {now : Time}
    (h : s.insertOrder o now = some (s2, saved)) :
    o.valid = true ∧ saved = { preSave o true now with createdAt := now } ∧
      s2 = { s with orders := s.orders ++ [saved], nextId := s.nextId + 1 } ∧
      ∀ x ∈ s.orders, ¬ (x.restaurant = saved.restaurant ∧ x.orderNumber = saved.orderNumber) := by
  unfold Store.insertOrder at h
  split at h
  · simp at h
  · rename_i hv
    simp only at h
    split at h
    · simp at h
    · rename_i hu
      simp only [Option.some.injEq, Prod.mk.injEq] at h
      obtain ⟨rfl, rfl⟩ := h
      refine ⟨by simpa using hv, rfl, rfl, ?_⟩
      intro x hx hc
      apply hu
      simp only [List.any_eq_true, decide_eq_true_eq]
      exact ⟨x, hx, hc⟩

theorem placeOrder_cases (s : Store) (sess : Session) (reqRestaurant : Option Restaurant)
    (phone notes : Option String) (now : Js.Date) :
    ((placeOrder s sess reqRestaurant phone notes now).2.2.success = false ∧
      (placeOrder s sess reqRestaurant phone notes now).1.orders = s.orders ∧
      (placeOrder s sess reqRestaurant phone notes now).1.tables = s.tables ∧
      (placeOrder s sess reqRestaurant phone notes now).1.restaurants = s.restaurants ∧
      (placeOrder s sess reqRestaurant phone notes now).2.1.cart = sess.cart ∧
      s.nextId ≤ (placeOrder s sess reqRestaurant phone notes now).1.nextId) ∨
    (∃ restaurant table cart ph s1 customer s2 saved,
      (reqRestaurant <|> sess.restaurant) = some restaurant ∧ sess.table = some table ∧
      sess.cart = some cart ∧ cart.items.length ≠ 0 ∧ phone = some ph ∧ ph ≠ "" ∧
      findOrCreateCustomer s ph restaurant._id = some (s1, customer) ∧
      s1.insertOrder (newOrder s1.nextId restaurant table customer ph
        (generateOrderNumber s1 restaurant._id now) cart (notes.getD "") now.time) now.time
        = some (s2, saved) ∧
      placeOrder s sess reqRestaurant phone notes now =
        (s2.findByIdAndUpdateTable table._id
            (fun t => { t with status := TableStatus.occupied, currentOrder := some saved._id }),
          { sess with
            customer := some
              { _id := customer._id, phone := customer.phone, name := customer.name }
            cart := none },
          { success := true, message := none, newStatus := none,
            orderId := some saved._id, orderNumber := some saved.orderNumber })) := by
  unfold placeOrder
  split
  · rename_i restaurant table hr ht
    split
    · left; simp [Response.failure]
    · rename_i cart hc
      split
      · left; simp [Response.failure]
      · rename_i hlen
        split
        · left; simp [Response.failure]
        · rename_i ph
          split
          · left; simp [Response.failure]
          · rename_i hph
            split
            · left; simp [Response.failure]
            · rename_i s1 customer hcust
              obtain ⟨ho, htb, hrs, hn⟩ := findOrCreateCustomer_eq_some hcust
              simp only
              split
              · left; simp [Response.failure, ho, htb, hrs, hn]
              · rename_i s2 saved hins
                right
                exact ⟨restaurant, table, cart, ph, s1, customer, s2, saved, hr, ht, hc, hlen,
                  rfl, hph, hcust, hins, rfl⟩
  · left; simp [Response.failure]

theorem updateOrderStatus_cases (s : Store) (user : SessionUser) (orderId : Id)
    (status : String) (now : Time) :
    ((updateOrderStatus s user orderId status now).2.success = false ∧
      (updateOrderStatus s user orderId status now).1 = s) ∨
    (∃ order saved, findOrder s orderId user.restaurant = some order ∧
      status ∈ validTransitions order.status ∧
      saved._id = order._id ∧
      OrderStatus.ofString? status = some saved.status ∧
      saved.completedAt = (if status = "done" then some now else order.completedAt) ∧
      (updateOrderStatus s user orderId status now).2.success = true ∧
      (updateOrderStatus s user orderId status now).1.orders =
        s.orders.map (fun x => if x._id = saved._id then saved else x) ∧
      (updateOrderStatus s user orderId status now).1.nextId = s.nextId) := by
  cases hfind : findOrder s orderId user.restaurant with
  | none => left; simp [updateOrderStatus, hfind, Response.failure]
  | some order =>
    by_cases hmem : status ∈ validTransitions order.status
    · right
      obtain ⟨saved, _, hid, _, _, _, hst, hc, hok, hs⟩ := updateOrderStatus_of_mem now hfind hmem
      refine ⟨order, saved, rfl, hmem, hid, hst, hc, hok, ?_, ?_⟩
      · rw [hs]; split <;> rfl
      · rw [hs]; split <;> rfl
    · left
      rw [updateOrderStatus_of_not_mem hfind hmem]
      simp [Response.failure]

theorem updateTableStatus_orders (s : Store) (user : SessionUser) (tableId : Id)
    (status : String) :
    (updateTableStatus s user tableId status).1.orders = s.orders ∧
      (updateTableStatus s user tableId status).1.nextId = s.nextId := by
  unfold updateTableStatus
  split
  · simp
  · split <;> simp

theorem placeOrder_orders (s : Store) (sess : Session) (reqRestaurant : Option Restaurant)
    (phone notes : Option String) (now : Js.Date) :
    ((placeOrder s sess reqRestaurant phone notes now).1.orders = s.orders ∧
      s.nextId ≤ (placeOrder s sess reqRestaurant phone notes now).1.nextId) ∨
    (∃ saved, (placeOrder s sess reqRestaurant phone notes now).1.orders = s.orders ++ [saved] ∧
      s.nextId ≤ saved._id ∧
      saved._id < (placeOrder s sess reqRestaurant phone notes now).1.nextId ∧
      saved.status = OrderStatus.pending ∧ saved.completedAt = none) := by
  rcases placeOrder_cases s sess reqRestaurant phone notes now with h | h
  · left; exact ⟨h.2.1, h.2.2.2.2.2⟩
  · right
    obtain ⟨restaurant, table, cart, ph, s1, customer, s2, saved, _, _, _, _, _, _, hcust, hins,
      heq⟩ := h
    obtain ⟨ho, _, _, hn⟩ := findOrCreateCustomer_eq_some hcust
    obtain ⟨_, hsaved, hs2, _⟩ := insertOrder_eq_some hins
    refine ⟨saved, ?_, ?_, ?_, ?_, ?_⟩
    · rw [heq, hs2]; simp [Store.findByIdAndUpdateTable, ho]
    · rw [hsaved]; simpa [preSave, newOrder] using hn
    · rw [heq, hs2, hsaved]; simp [Store.findByIdAndUpdateTable, preSave, newOrder]
    · rw [hsaved]; simp [preSave, newOrder]
    · rw [hsaved]; simp [preSave, newOrder]

theorem reachable_ids {s : Store} (h : Reachable s) :
    (∀ o ∈ s.orders, o._id < s.nextId) ∧ (s.orders.map (fun o => o._id)).Nodup := by
  induction h with
  | init s horders _ => simp [horders]
  | placeOrder s sess rr phone notes now _ ih =>
    rcases placeOrder_orders s sess rr phone notes now with ⟨ho, hn⟩ | ⟨saved, ho, hlo, hhi, _, _⟩
    · rw [ho]
      exact ⟨fun o hmem => lt_of_lt_of_le (ih.1 o hmem) hn, ih.2⟩
    · rw [ho]
      constructor
      · intro o hmem
        rcases List.mem_append.1 hmem with hm | hm
        · exact lt_trans (lt_of_lt_of_le (ih.1 o hm) hlo) hhi
        · simp only [List.mem_singleton] at hm
          rw [hm]; exact hhi
      · rw [List.map_append, List.nodup_append]
        refine ⟨ih.2, by simp, ?_⟩
        intro a ha hb
        simp only [List.map_cons, List.map_nil, List.mem_singleton] at hb
        obtain ⟨o, hmem, rfl⟩ := List.mem_map.1 ha
        have h1 : o._id < s.nextId := ih.1 o hmem
        have h2 : o._id = saved._id := hb
        rw [h2] at h1
        exact absurd (lt_of_lt_of_le h1 hlo) (lt_irrefl _)
  | updateOrderStatus s user orderId status now _ ih =>
    rcases updateOrderStatus_cases s user orderId status now with ⟨_, hs⟩ |
      ⟨order, saved, _, _, _, _, _, _, ho, hn⟩
    · rw [hs]; exact ih
    · have hmap : ((updateOrderStatus s user orderId status now).1.orders.map (fun o => o._id))
          = s.orders.map (fun o => o._id) := by
        rw [ho, List.map_map]
        apply List.map_congr_left
        intro x _
        by_cases hx : x._id = saved._id <;> simp [hx]
      constructor
      · intro o hmem
        have : o._id ∈ s.orders.map (fun o => o._id) := by
          rw [← hmap]; exact List.mem_map_of_mem _ hmem
        obtain ⟨x, hx, hxe⟩ := List.mem_map.1 this
        rw [hn, ← hxe]; exact ih.1 x hx
      · rw [hmap]; exact ih.2
  | updateTableStatus s user tableId status _ ih =>
    obtain ⟨ho, hn⟩ := updateTableStatus_orders s user tableId status
    rw [ho, hn]; exact ih

theorem ofString?_eq_done (status : String) :
    OrderStatus.ofString? status = some OrderStatus.done ↔ status = "done" := by
  unfold OrderStatus.ofString?
  constructor
  · intro h
    repeat' split at h
    all_goals first | assumption | simp at h
  · intro h; subst h; decide

theorem not_mem_validTransitions_done (status : String) :
    status ∉ validTransitions OrderStatus.done := by
  simp [validTransitions]

theorem mem_validTransitions_done {cur : OrderStatus}
    (h : "done" ∈ validTransitions cur) : cur = OrderStatus.served := by
  cases cur <;> simp [validTransitions] at h ⊢

theorem reachable_completedAt {s : Store} (h : Reachable s) :
    ∀ o ∈ s.orders, (o.completedAt ≠ none ↔ o.status = OrderStatus.done) := by
  induction h with
  | init s horders _ => simp [horders]
  | placeOrder s sess rr phone notes now _ ih =>
    rcases placeOrder_orders s sess rr phone notes now with ⟨ho, _⟩ | ⟨saved, ho, _, _, hst, hc⟩
    · rw [ho]; exact ih
    · rw [ho]
      intro o hmem
      rcases List.mem_append.1 hmem with hm | hm
      · exact ih o hm
      · simp only [List.mem_singleton] at hm
        subst hm
        simp [hst, hc]
  | updateOrderStatus s user orderId status now _ ih =>
    rcases updateOrderStatus_cases s user orderId status now with ⟨_, hs⟩ |
      ⟨order, saved, hfind, hmem, _, hst, hc, _, ho, _⟩
    · rw [hs]; exact ih
    · rw [ho]
      intro o ho'
      obtain ⟨x, hx, rfl⟩ := List.mem_map.1 ho'
      by_cases hid : x._id = saved._id
      · simp only [hid, if_true]
        by_cases hd : status = "done"
        · have : saved.status = OrderStatus.done := by
            have h1 := (ofString?_eq_done status).2 hd
            rw [hst] at h1
            exact Option.some.inj h1
          simp [hc, hd, this]
        · have hnd : saved.status ≠ OrderStatus.done := by
            intro h1
            rw [h1] at hst
            exact hd ((ofString?_eq_done status).1 hst)
          have hord : order.status ≠ OrderStatus.done := by
            intro h1
            rw [h1] at hmem
            exact not_mem_validTransitions_done status hmem
          have hnone : order.completedAt = none := by
            by_contra hcon
            exact hord ((ih order (findOrder_eq_some hfind).1).1 hcon)
          simp [hc, hd, hnone, hnd]
      · simp only [hid, if_false]
        exact ih x hx
  | updateTableStatus s user tableId status _ ih =>
    rw [(updateTableStatus_orders s user tableId status).1]; exact ih

/-! ## Lemmas on `generateOrderNumber` and on identifiers -/

theorem digitChar_mod_ten (n : Nat) :
    Nat.digitChar (n % 10) ≠ '-' ∧ (Nat.digitChar (n % 10)).isDigit = true := by
  have h : n % 10 < 10 := Nat.mod_lt _ (by decide)
  interval_cases n % 10 <;> decide

theorem digitChar_bne_hyphen (n : Nat) : (Nat.digitChar (n % 10) != '-') = true := by
  simpa using (digitChar_mod_ten n).1

theorem dateStr_eq (d : Js.Date) (hyear : d.utcFullYear ≤ 9999) :
    Js.removeHyphens (Js.sliceTo 10 (Js.toISOString d)) = dateDigits d := by
  apply String.ext
  simp only [Js.removeHyphens, Js.sliceTo, Js.toISOString, dateDigits, hyear, if_true,
    Js.fourDigits, Js.twoDigits, String.data_append]
  simp only [List.cons_append, List.nil_append, List.take_succ_cons, List.take_zero,
    List.filter_cons, digitChar_bne_hyphen, if_true, List.filter_nil]
  rfl

theorem orderPrefixOf_configured (r : Restaurant) (p : String) (hp : r.orderPrefix = some p)
    (hne : p ≠ "") : orderPrefixOf (some r) = p := by
  simp [orderPrefixOf, hp, hne]

theorem orderPrefixOf_unconfigured (r : Restaurant)
    (hp : r.orderPrefix = none ∨ r.orderPrefix = some "") :
    orderPrefixOf (some r) = "ORD" := by
  rcases hp with hp | hp <;> simp [orderPrefixOf, hp]

theorem padStart_repr (k : Nat) : Js.padStart 4 '0' (Nat.repr k) = paddedSequence k := rfl

theorem dateDigits_digits (d : Js.Date) :
    (dateDigits d).length = 8 ∧ (dateDigits d).data.all Char.isDigit = true := by
  simp [dateDigits, Js.fourDigits, Js.twoDigits, String.length, digitChar_mod_ten]
theorem toDigitsCore_four (f n : Nat) (hn : n < 10000) :
    Nat.toDigitsCore 10 (f + 4) n [] =
      if n / 10 = 0 then [Nat.digitChar (n % 10)]
      else if n / 10 / 10 = 0 then [Nat.digitChar (n / 10 % 10), Nat.digitChar (n % 10)]
      else if n / 10 / 10 / 10 = 0 then
        [Nat.digitChar (n / 10 / 10 % 10), Nat.digitChar (n / 10 % 10), Nat.digitChar (n % 10)]
      else [Nat.digitChar (n / 10 / 10 / 10 % 10), Nat.digitChar (n / 10 / 10 % 10),
        Nat.digitChar (n / 10 % 10), Nat.digitChar (n % 10)] := by
  have h4 : n / 10 / 10 / 10 / 10 = 0 := by omega
  simp only [Nat.toDigitsCore, h4, if_true]

theorem padStart_repr_lt (k : Nat) (hk : k < 10000) :
    Js.padStart 4 '0' (Nat.repr k) = Js.fourDigits k := by
  have hrepr : (Nat.repr k).data = Nat.toDigitsCore 10 (k + 1) k [] := rfl
  have hdata : (Nat.repr k).data =
      if k / 10 = 0 then [Nat.digitChar (k % 10)]
      else if k / 10 / 10 = 0 then [Nat.digitChar (k / 10 % 10), Nat.digitChar (k % 10)]
      else if k / 10 / 10 / 10 = 0 then
        [Nat.digitChar (k / 10 / 10 % 10), Nat.digitChar (k / 10 % 10), Nat.digitChar (k % 10)]
      else [Nat.digitChar (k / 10 / 10 / 10 % 10), Nat.digitChar (k / 10 / 10 % 10),
        Nat.digitChar (k / 10 % 10), Nat.digitChar (k % 10)] := by
    rw [hrepr]
    by_cases h10 : k / 10 = 0
    · simp only [Nat.toDigitsCore, h10, if_true]
    · obtain ⟨m, rfl⟩ : ∃ m, k = m + 3 := ⟨k - 3, by omega⟩
      exact toDigitsCore_four m (m + 3) hk
  have hz : Nat.digitChar 0 = '0' := rfl
  apply String.ext
  simp only [Js.padStart, Js.fourDigits, String.data_append, hdata]
  split
  · have h1 : k / 1000 % 10 = 0 := by omega
    have h2 : k / 100 % 10 = 0 := by omega
    have h3 : k / 10 % 10 = 0 := by omega
    simp [h1, h2, h3, hz, List.replicate]
  · split
    · have h1 : k / 1000 % 10 = 0 := by omega
      have h2 : k / 100 % 10 = 0 := by omega
      simp [h1, h2, hz, List.replicate]
    · split
      · have h1 : k / 1000 % 10 = 0 := by omega
        have h2 : k / 10 / 10 % 10 = k / 100 % 10 := by omega
        simp [h1, h2, hz, List.replicate]
      · have h1 : k / 10 / 10 / 10 % 10 = k / 1000 % 10 := by omega
        have h2 : k / 10 / 10 % 10 = k / 100 % 10 := by omega
        simp [h1, h2, hz, List.replicate]

theorem filter_id_length_le_one {l : List Order} (hnodup : (l.map (fun o => o._id)).Nodup)
    (r : Option Id) : (l.filter (fun o => decide (r = some o._id))).length ≤ 1 := by
  induction l with
  | nil => simp
  | cons a l ih =>
    rw [List.map_cons, List.nodup_cons] at hnodup
    by_cases ha : r = some a._id
    · subst ha
      have hnone : l.filter (fun o => decide (some a._id = some o._id)) = [] := by
        rw [List.filter_eq_nil_iff]
        intro o ho
        simp only [decide_eq_true_eq]
        intro hr
        exact hnodup.1 (List.mem_map.2 ⟨o, ho, (Option.some.inj hr).symm⟩)
      rw [List.filter_cons, hnone]
      simp
    · simp only [List.filter_cons, ha, decide_False]
      exact ih hnodup.2

/-! ## Claims on `updateOrderStatus` -/

theorem updateOrderStatus_success_iff_mem (s : Store) (user : SessionUser) (orderId : Id)
    (status : String) (now : Time) (order : Order)
    (hfind : findOrder s orderId user.restaurant = some order) :
    (updateOrderStatus s user orderId status now).2.success = true ↔
      status ∈ validTransitions order.status := by
  by_cases hmem : status ∈ validTransitions order.status
  · obtain ⟨_, _, _, _, _, _, _, _, hok, _⟩ := updateOrderStatus_of_mem now hfind hmem
    simp [hok, hmem]
  · rw [updateOrderStatus_of_not_mem hfind hmem]
    simp [Response.failure, hmem]

/-- C1. For an order found in the caller's restaurant and any requested status,
`updateOrderStatus` answers `success: true` exactly when the requested status is in
the legal set of the order's current status: pending to preparing or cancelled,
preparing to served or cancelled, served to done, nothing from done or cancelled. -/
theorem updateOrderStatus_success_iff_legal (s : Store) (user : SessionUser) (orderId : Id)
    (status : String) (now : Time) (order : Order)
    (hfind : findOrder s orderId user.restaurant = some order) :
    (updateOrderStatus s user orderId status now).2.success = true ↔
      (order.status = OrderStatus.pending ∧ (status = "preparing" ∨ status = "cancelled")) ∨
      (order.status = OrderStatus.preparing ∧ (status = "served" ∨ status = "cancelled")) ∨
      (order.status = OrderStatus.served ∧ status = "done") := by
  rw [← mem_validTransitions_iff]
  exact updateOrderStatus_success_iff_mem s user orderId status now order hfind

theorem updateOrderStatus_success_iff_legal_witness :
    findOrder sampleStore 1000 sampleStaff.restaurant = some sampleOrder ∧
    ((updateOrderStatus sampleStore sampleStaff 1000 "preparing" 1704100060000).2.success = true ↔
      (sampleOrder.status = OrderStatus.pending ∧
        ("preparing" = "preparing" ∨ "preparing" = "cancelled")) ∨
      (sampleOrder.status = OrderStatus.preparing ∧
        ("preparing" = "served" ∨ "preparing" = "cancelled")) ∨
      (sampleOrder.status = OrderStatus.served ∧ "preparing" = "done")) :=
  ⟨rfl, updateOrderStatus_success_iff_legal sampleStore sampleStaff 1000 "preparing"
    1704100060000 sampleOrder rfl⟩

/-- C2. A requested status outside the legal set of the order's current status is
refused: the answer is `success: false` and the store (the order with its status,
history, completion time and totals, and every table) is left as it was. -/
theorem updateOrderStatus_illegal_no_mutation (s : Store) (user : SessionUser) (orderId : Id)
    (status : String) (now : Time) (order : Order)
    (hfind : findOrder s orderId user.restaurant = some order)
    (hillegal : ¬ ((order.status = OrderStatus.pending ∧
          (status = "preparing" ∨ status = "cancelled")) ∨
        (order.status = OrderStatus.preparing ∧ (status = "served" ∨ status = "cancelled")) ∨
        (order.status = OrderStatus.served ∧ status = "done"))) :
    (updateOrderStatus s user orderId status now).2.success = false ∧
      (updateOrderStatus s user orderId status now).1 = s := by
  rw [← mem_validTransitions_iff] at hillegal
  rw [updateOrderStatus_of_not_mem hfind hillegal]
  simp [Response.failure]

theorem updateOrderStatus_illegal_no_mutation_witness :
    findOrder sampleStore 1000 sampleStaff.restaurant = some sampleOrder ∧
    ¬ ((sampleOrder.status = OrderStatus.pending ∧ ("done" = "preparing" ∨ "done" = "cancelled")) ∨
        (sampleOrder.status = OrderStatus.preparing ∧ ("done" = "served" ∨ "done" = "cancelled")) ∨
        (sampleOrder.status = OrderStatus.served ∧ "done" = "done")) ∧
    (updateOrderStatus sampleStore sampleStaff 1000 "done" 1704100060000).2.success = false ∧
    (updateOrderStatus sampleStore sampleStaff 1000 "done" 1704100060000).1 = sampleStore :=
  ⟨rfl, by decide,
    updateOrderStatus_illegal_no_mutation sampleStore sampleStaff 1000 "done" 1704100060000
      sampleOrder rfl (by decide)⟩

/-- C3. A successful `updateOrderStatus` makes the order's status history the previous
history with exactly one entry appended, carrying the requested status and the acting
user: the earlier entries are kept and the length grows by one.  In particular the
chain pending, preparing, served, done succeeds step by step and appends three
entries. -/
theorem updateOrderStatus_appends_history (s : Store) (user : SessionUser) (orderId : Id)
    (order : Order) (hfind : findOrder s orderId user.restaurant = some order) :
    (∀ (status : String) (now : Time),
      (updateOrderStatus s user orderId status now).2.success = true →
      ∃ saved,
        findOrder (updateOrderStatus s user orderId status now).1 orderId user.restaurant
          = some saved ∧
        saved.statusHistory = order.statusHistory ++
          [{ status := status, timestamp := now, updatedBy := user._id }] ∧
        saved.statusHistory.length = order.statusHistory.length + 1) ∧
    (order.status = OrderStatus.pending → ∀ (t1 t2 t3 : Time),
      ∃ saved,
        (updateOrderStatus s user orderId "preparing" t1).2.success = true ∧
        (updateOrderStatus (updateOrderStatus s user orderId "preparing" t1).1
          user orderId "served" t2).2.success = true ∧
        (updateOrderStatus (updateOrderStatus (updateOrderStatus s user orderId "preparing" t1).1
          user orderId "served" t2).1 user orderId "done" t3).2.success = true ∧
        findOrder (updateOrderStatus (updateOrderStatus
          (updateOrderStatus s user orderId "preparing" t1).1
          user orderId "served" t2).1 user orderId "done" t3).1 orderId user.restaurant
          = some saved ∧
        saved.statusHistory = order.statusHistory ++
          [{ status := "preparing", timestamp := t1, updatedBy := user._id },
           { status := "served", timestamp := t2, updatedBy := user._id },
           { status := "done", timestamp := t3, updatedBy := user._id }]) := by
  constructor
  · intro status now hok
    have hmem : status ∈ validTransitions order.status :=
      (updateOrderStatus_success_iff_mem s user orderId status now order hfind).1 hok
    obtain ⟨saved, hf, hh, _, _⟩ := findOrder_after_update now hfind hmem
    exact ⟨saved, hf, hh, by simp [hh]⟩
  · intro hpending t1 t2 t3
    obtain ⟨o1, hf1, hh1, hst1, hok1⟩ := findOrder_after_update t1 hfind
      (show "preparing" ∈ validTransitions order.status by simp [hpending, validTransitions])
    have hs1 : o1.status = OrderStatus.preparing := by
      simpa [OrderStatus.ofString?] using hst1.symm
    obtain ⟨o2, hf2, hh2, hst2, hok2⟩ := findOrder_after_update t2 hf1
      (show "served" ∈ validTransitions o1.status by simp [hs1, validTransitions])
    have hs2 : o2.status = OrderStatus.served := by
      simpa [OrderStatus.ofString?] using hst2.symm
    obtain ⟨o3, hf3, hh3, _, hok3⟩ := findOrder_after_update t3 hf2
      (show "done" ∈ validTransitions o2.status by simp [hs2, validTransitions])
    exact ⟨o3, hok1, hok2, hok3, hf3, by simp [hh3, hh2, hh1]⟩

theorem updateOrderStatus_appends_history_witness :
    findOrder sampleStore 1000 sampleStaff.restaurant = some sampleOrder ∧
    ((∀ (status : String) (now : Time),
      (updateOrderStatus sampleStore sampleStaff 1000 status now).2.success = true →
      ∃ saved,
        findOrder (updateOrderStatus sampleStore sampleStaff 1000 status now).1 1000
          sampleStaff.restaurant = some saved ∧
        saved.statusHistory = sampleOrder.statusHistory ++
          [{ status := status, timestamp := now, updatedBy := sampleStaff._id }] ∧
        saved.statusHistory.length = sampleOrder.statusHistory.length + 1) ∧
    (sampleOrder.status = OrderStatus.pending → ∀ (t1 t2 t3 : Time),
      ∃ saved,
        (updateOrderStatus sampleStore sampleStaff 1000 "preparing" t1).2.success = true ∧
        (updateOrderStatus (updateOrderStatus sampleStore sampleStaff 1000 "preparing" t1).1
          sampleStaff 1000 "served" t2).2.success = true ∧
        (updateOrderStatus (updateOrderStatus
          (updateOrderStatus sampleStore sampleStaff 1000 "preparing" t1).1
          sampleStaff 1000 "served" t2).1 sampleStaff 1000 "done" t3).2.success = true ∧
        findOrder (updateOrderStatus (updateOrderStatus
          (updateOrderStatus sampleStore sampleStaff 1000 "preparing" t1).1
          sampleStaff 1000 "served" t2).1 sampleStaff 1000 "done" t3).1 1000
          sampleStaff.restaurant = some saved ∧
        saved.statusHistory = sampleOrder.statusHistory ++
          [{ status := "preparing", timestamp := t1, updatedBy := sampleStaff._id },
           { status := "served", timestamp := t2, updatedBy := sampleStaff._id },
           { status := "done", timestamp := t3, updatedBy := sampleStaff._id }])) :=
  ⟨rfl, updateOrderStatus_appends_history sampleStore sampleStaff 1000 sampleOrder rfl⟩

/-- C4. A successful `updateOrderStatus` to done or to cancelled leaves the order's
table (which is still there if it was) with status available and no current order; a
successful transition to preparing or to served leaves every table as it was. -/
theorem updateOrderStatus_table_effect (s : Store) (user : SessionUser) (orderId : Id)
    (status : String) (now : Time) (order : Order)
    (hfind : findOrder s orderId user.restaurant = some order)
    (hok : (updateOrderStatus s user orderId status now).2.success = true) :
    ((status = "done" ∨ status = "cancelled") →
      (∀ t ∈ (updateOrderStatus s user orderId status now).1.tables, t._id = order.table →
        t.status = TableStatus.available ∧ t.currentOrder = none) ∧
      ((∃ t ∈ s.tables, t._id = order.table) →
        ∃ t ∈ (updateOrderStatus s user orderId status now).1.tables, t._id = order.table)) ∧
    ((status = "preparing" ∨ status = "served") →
      (updateOrderStatus s user orderId status now).1.tables = s.tables) := by
  have hmem := (updateOrderStatus_success_iff_mem s user orderId status now order hfind).1 hok
  obtain ⟨saved, _, _, _, _, _, _, _, _, hs⟩ := updateOrderStatus_of_mem now hfind hmem
  rw [hs]
  constructor
  · intro hterm
    rw [if_pos hterm]
    constructor
    · intro t ht hid
      simp only [Store.findByIdAndUpdateTable, Store.saveOrder, List.mem_map] at ht
      obtain ⟨a, _, rfl⟩ := ht
      by_cases ha : a._id = order.table
      · simp [ha]
      · simp [ha] at hid
    · rintro ⟨t, ht, hid⟩
      refine ⟨{ t with status := TableStatus.available, currentOrder := none }, ?_, hid⟩
      simp only [Store.findByIdAndUpdateTable, Store.saveOrder, List.mem_map]
      exact ⟨t, ht, by simp [hid]⟩
  · intro hmid
    have hnot : ¬ (status = "done" ∨ status = "cancelled") := by
      rcases hmid with h | h <;> subst h <;> decide
    rw [if_neg hnot]
    rfl

theorem updateOrderStatus_table_effect_witness :
    findOrder sampleStore 1000 sampleStaff.restaurant = some sampleOrder ∧
    (updateOrderStatus sampleStore sampleStaff 1000 "cancelled" 1704100060000).2.success = true ∧
    ((("cancelled" = "done" ∨ "cancelled" = "cancelled") →
      (∀ t ∈ (updateOrderStatus sampleStore sampleStaff 1000 "cancelled" 1704100060000).1.tables,
        t._id = sampleOrder.table →
        t.status = TableStatus.available ∧ t.currentOrder = none) ∧
      ((∃ t ∈ sampleStore.tables, t._id = sampleOrder.table) →
        ∃ t ∈ (updateOrderStatus sampleStore sampleStaff 1000 "cancelled" 1704100060000).1.tables,
          t._id = sampleOrder.table)) ∧
    (("cancelled" = "preparing" ∨ "cancelled" = "served") →
      (updateOrderStatus sampleStore sampleStaff 1000 "cancelled" 1704100060000).1.tables
        = sampleStore.tables)) :=
  ⟨rfl, rfl, updateOrderStatus_table_effect sampleStore sampleStaff 1000 "cancelled"
    1704100060000 sampleOrder rfl rfl⟩

/-! ## Claims on reachable states -/

theorem updateOrderStatus_stamp {s : Store} (h : Reachable s) {user : SessionUser}
    {orderId : Id} {status : String} (now : Time) {order : Order}
    (hfind : findOrder s orderId user.restaurant = some order)
    (hmem : status ∈ validTransitions order.status) :
    (updateOrderStatus s user orderId status now).2.success = true ∧
    ∃ saved,
      findOrder (updateOrderStatus s user orderId status now).1 orderId user.restaurant
        = some saved ∧
      OrderStatus.ofString? status = some saved.status ∧
      saved.completedAt = (if status = "done" then some now else none) := by
  obtain ⟨saved, _, hid, hr, _, _, hst, hc, hok, hs⟩ := updateOrderStatus_of_mem now hfind hmem
  obtain ⟨hordmem, hoid, hor⟩ := findOrder_eq_some hfind
  have hord : order.status ≠ OrderStatus.done := by
    intro h1
    rw [h1] at hmem
    exact not_mem_validTransitions_done status hmem
  have hnone : order.completedAt = none := by
    by_contra hcon
    exact hord ((reachable_completedAt h order hordmem).1 hcon)
  have hf : findOrder (s.saveOrder saved) orderId user.restaurant = some saved :=
    find?_map_saved hfind (hid.trans hoid) (by rw [hr]; exact hor)
  refine ⟨hok, saved, ?_, hst, by rw [hc, hnone]⟩
  rw [hs]
  split
  · exact hf
  · exact hf

/-- C5. In every reachable state an order's completion time is set exactly when its
status is done.  Every legal request on a found order succeeds and, when it is the
request done, stamps the order with the time of the call; a request preparing, served
or cancelled leaves the order without completion time.  Across any `updateOrderStatus`
call, order by order: an order whose completion time is set is left as it is; a
request other than done changes no completion time; a completion time changes only on
the requested order, which goes from served to done and is stamped with the time of
the call.  `placeOrder` keeps the stored orders. -/
theorem completedAt_iff_done (s : Store) (h : Reachable s) :
    (∀ o ∈ s.orders, (o.completedAt ≠ none ↔ o.status = OrderStatus.done)) ∧
    (∀ (user : SessionUser) (orderId : Id) (status : String) (now : Time) (order : Order),
      findOrder s orderId user.restaurant = some order →
      status ∈ validTransitions order.status →
      (updateOrderStatus s user orderId status now).2.success = true ∧
      ∃ saved,
        findOrder (updateOrderStatus s user orderId status now).1 orderId user.restaurant
          = some saved ∧
        OrderStatus.ofString? status = some saved.status ∧
        saved.completedAt = (if status = "done" then some now else none)) ∧
    (∀ (user : SessionUser) (orderId : Id) (status : String) (now : Time),
      List.Forall₂ (fun o o' =>
          o'._id = o._id ∧
          (o.completedAt ≠ none → o' = o) ∧
          (status ≠ "done" → o'.completedAt = o.completedAt) ∧
          (o'.completedAt ≠ o.completedAt →
            o._id = orderId ∧ o.status = OrderStatus.served ∧
            o'.status = OrderStatus.done ∧ o'.completedAt = some now))
        s.orders (updateOrderStatus s user orderId status now).1.orders) ∧
    (∀ (sess : Session) (reqRestaurant : Option Restaurant) (phone notes : Option String)
        (now : Js.Date),
      s.orders <+: (placeOrder s sess reqRestaurant phone notes now).1.orders) := by
  refine ⟨reachable_completedAt h, ?_, ?_, ?_⟩
  · intro user orderId status now order hfind hmem
    exact updateOrderStatus_stamp h now hfind hmem
  · intro user orderId status now
    rcases updateOrderStatus_cases s user orderId status now with ⟨_, hs⟩ |
      ⟨order, saved, hfind, hmem, hsid, hst, hc, _, ho, _⟩
    · rw [hs, List.forall₂_same]
      intro o _
      simp
    · obtain ⟨hordmem, hordid, _⟩ := findOrder_eq_some hfind
      have hord : order.status ≠ OrderStatus.done := by
        intro h1
        rw [h1] at hmem
        exact not_mem_validTransitions_done status hmem
      have hnone : order.completedAt = none := by
        by_contra hcon
        exact hord ((reachable_completedAt h order hordmem).1 hcon)
      rw [ho, List.forall₂_map_right_iff, List.forall₂_same]
      intro o homem
      by_cases hid : o._id = saved._id
      · have heq : o = order :=
          List.inj_on_of_nodup_map (reachable_ids h).2 homem hordmem (hid.trans hsid)
        subst heq
        rw [if_pos hid]
        refine ⟨hid.symm, fun hset => absurd hnone hset, ?_, ?_⟩
        · intro hd; rw [hc, if_neg hd]
        · intro hchg
          have hd : status = "done" := by
            by_contra hd
            exact hchg (by rw [hc, if_neg hd])
          have hsd : saved.status = OrderStatus.done := by
            have h1 := (ofString?_eq_done status).2 hd
            rw [hst] at h1
            exact Option.some.inj h1
          refine ⟨hordid, ?_, hsd, by rw [hc, if_pos hd]⟩
          rw [hd] at hmem
          exact mem_validTransitions_done hmem
      · simp [hid]
  · intro sess rr phone notes now
    rcases placeOrder_orders s sess rr phone notes now with ⟨ho, _⟩ | ⟨saved, ho, _⟩
    · rw [ho]
    · rw [ho]; exact List.prefix_append _ _

theorem reachable_servedStore : Reachable servedStore :=
  Reachable.updateOrderStatus _ _ _ _ _ (Reachable.updateOrderStatus _ _ _ _ _
    (Reachable.placeOrder _ _ _ _ _ _ (Reachable.init openStore rfl (by decide))))

theorem completedAt_iff_done_witness :
    Reachable servedStore ∧
    servedStore.orders.map (fun o => (o._id, o.status, o.completedAt)) =
      [(2001, OrderStatus.served, none)] ∧
    (updateOrderStatus servedStore sampleAdmin 2001 "done" 1704100300000).1.orders.map
      (fun o => (o._id, o.status, o.completedAt)) =
      [(2001, OrderStatus.done, some 1704100300000)] ∧
    (updateOrderStatus doneStore sampleAdmin 2001 "cancelled" 1704100400000).1.orders.map
      (fun o => (o._id, o.status, o.completedAt)) =
      [(2001, OrderStatus.done, some 1704100300000)] ∧
    ((∀ o ∈ servedStore.orders, (o.completedAt ≠ none ↔ o.status = OrderStatus.done)) ∧
    (∀ (user : SessionUser) (orderId : Id) (status : String) (now : Time) (order : Order),
      findOrder servedStore orderId user.restaurant = some order →
      status ∈ validTransitions order.status →
      (updateOrderStatus servedStore user orderId status now).2.success = true ∧
      ∃ saved,
        findOrder (updateOrderStatus servedStore user orderId status now).1 orderId
          user.restaurant = some saved ∧
        OrderStatus.ofString? status = some saved.status ∧
        saved.completedAt = (if status = "done" then some now else none)) ∧
    (∀ (user : SessionUser) (orderId : Id) (status : String) (now : Time),
      List.Forall₂ (fun o o' =>
          o'._id = o._id ∧
          (o.completedAt ≠ none → o' = o) ∧
          (status ≠ "done" → o'.completedAt = o.completedAt) ∧
          (o'.completedAt ≠ o.completedAt →
            o._id = orderId ∧ o.status = OrderStatus.served ∧
            o'.status = OrderStatus.done ∧ o'.completedAt = some now))
        servedStore.orders (updateOrderStatus servedStore user orderId status now).1.orders) ∧
    (∀ (sess : Session) (reqRestaurant : Option Restaurant) (phone notes : Option String)
        (now : Js.Date),
      servedStore.orders <+: (placeOrder servedStore sess reqRestaurant phone notes now).1.orders)) :=
  ⟨reachable_servedStore, by decide, by decide, by decide,
    completedAt_iff_done servedStore reachable_servedStore⟩

/-! ## Claims on `placeOrder` and `generateOrderNumber` -/

/-- C7. When a restaurant and a table are resolved and the session holds a cart, a
successful `placeOrder` appends one order to the store: its status is pending, its
lines are the lines of the cart in the same order with the same menu item, name,
price, quantity and notes (only the subtotal of a line is recomputed); the table of
the session is still stored if it was, is occupied and references the new order; the
cart of the session is cleared. -/
theorem placeOrder_success_effect (s : Store) (sess : Session)
    (reqRestaurant : Option Restaurant) (phone notes : Option String) (now : Js.Date)
    (restaurant : Restaurant) (table : Table) (cart : Cart)
    (hrestaurant : (reqRestaurant <|> sess.restaurant) = some restaurant)
    (htable : sess.table = some table) (hcart : sess.cart = some cart)
    (hok : (placeOrder s sess reqRestaurant phone notes now).2.2.success = true) :
    ∃ saved,
      (placeOrder s sess reqRestaurant phone notes now).1.orders = s.orders ++ [saved] ∧
      (placeOrder s sess reqRestaurant phone notes now).2.2.orderId = some saved._id ∧
      saved.status = OrderStatus.pending ∧
      saved.restaurant = restaurant._id ∧ saved.table = table._id ∧
      saved.items = cart.items.map
        (fun item => { item with subtotal := item.price * item.quantity }) ∧
      saved.items.map (fun i => (i.menuItem, i.name, i.price, i.quantity, i.notes)) =
        cart.items.map (fun i => (i.menuItem, i.name, i.price, i.quantity, i.notes)) ∧
      (∀ t ∈ (placeOrder s sess reqRestaurant phone notes now).1.tables, t._id = table._id →
        t.status = TableStatus.occupied ∧ t.currentOrder = some saved._id) ∧
      ((∃ t ∈ s.tables, t._id = table._id) →
        ∃ t ∈ (placeOrder s sess reqRestaurant phone notes now).1.tables, t._id = table._id) ∧
      (placeOrder s sess reqRestaurant phone notes now).2.1.cart = none := by
  rcases placeOrder_cases s sess reqRestaurant phone notes now with h | h
  · rw [h.1] at hok
    exact absurd hok (by decide)
  · obtain ⟨restaurant', table', cart', ph, s1, customer, s2, saved, hr, ht, hc, _, _, _, hcust,
      hins, heq⟩ := h
    rw [hrestaurant] at hr
    rw [htable] at ht
    rw [hcart] at hc
    obtain rfl := Option.some.inj hr
    obtain rfl := Option.some.inj ht
    obtain rfl := Option.some.inj hc
    obtain ⟨ho, htb, _, _⟩ := findOrCreateCustomer_eq_some hcust
    obtain ⟨_, hsaved, hs2, _⟩ := insertOrder_eq_some hins
    have hitems : saved.items = cart.items.map
        (fun item => { item with subtotal := item.price * item.quantity }) := by
      rw [hsaved]; simp [preSave, newOrder]
    refine ⟨saved, ?_, ?_, ?_, ?_, ?_, hitems, ?_, ?_, ?_, ?_⟩
    · rw [heq, hs2]; simp [Store.findByIdAndUpdateTable, ho]
    · rw [heq]
    · rw [hsaved]; simp [preSave, newOrder]
    · rw [hsaved]; simp [preSave, newOrder]
    · rw [hsaved]; simp [preSave, newOrder]
    · rw [hitems, List.map_map]; rfl
    · intro t hmem hid
      rw [heq, hs2] at hmem
      simp only [Store.findByIdAndUpdateTable, List.mem_map] at hmem
      obtain ⟨a, _, rfl⟩ := hmem
      by_cases ha : a._id = table._id
      · simp [ha]
      · simp [ha] at hid
    · rintro ⟨t, hmem, hid⟩
      refine ⟨{ t with status := TableStatus.occupied, currentOrder := some saved._id }, ?_, hid⟩
      rw [heq, hs2]
      simp only [Store.findByIdAndUpdateTable, List.mem_map, htb]
      exact ⟨t, hmem, by simp [hid]⟩
    · rw [heq]

theorem placeOrder_success_effect_witness :
    ((some sampleRestaurant <|> sampleSession.restaurant) = some sampleRestaurant ∧
      sampleSession.table = some freeTable ∧ sampleSession.cart = some sampleCart ∧
      (placeOrder openStore sampleSession (some sampleRestaurant) (some "5550100") none
        sampleDate).2.2.success = true) ∧
    ∃ saved,
      (placeOrder openStore sampleSession (some sampleRestaurant) (some "5550100") none
        sampleDate).1.orders = openStore.orders ++ [saved] ∧
      (placeOrder openStore sampleSession (some sampleRestaurant) (some "5550100") none
        sampleDate).2.2.orderId = some saved._id ∧
      saved.status = OrderStatus.pending ∧
      saved.restaurant = sampleRestaurant._id ∧ saved.table = freeTable._id ∧
      saved.items = sampleCart.items.map
        (fun item => { item with subtotal := item.price * item.quantity }) ∧
      saved.items.map (fun i => (i.menuItem, i.name, i.price, i.quantity, i.notes)) =
        sampleCart.items.map (fun i => (i.menuItem, i.name, i.price, i.quantity, i.notes)) ∧
      (∀ t ∈ (placeOrder openStore sampleSession (some sampleRestaurant) (some "5550100") none
          sampleDate).1.tables, t._id = freeTable._id →
        t.status = TableStatus.occupied ∧ t.currentOrder = some saved._id) ∧
      ((∃ t ∈ openStore.tables, t._id = freeTable._id) →
        ∃ t ∈ (placeOrder openStore sampleSession (some sampleRestaurant) (some "5550100") none
          sampleDate).1.tables, t._id = freeTable._id) ∧
      (placeOrder openStore sampleSession (some sampleRestaurant) (some "5550100") none
        sampleDate).2.1.cart = none :=
  ⟨⟨rfl, rfl, rfl, rfl⟩,
    placeOrder_success_effect openStore sampleSession (some sampleRestaurant) (some "5550100")
      none sampleDate sampleRestaurant freeTable sampleCart rfl rfl rfl rfl⟩

/-- C8. `placeOrder` answers `success: false` whenever no restaurant is resolved (none
on the request, none in the session), the session has no table, the cart is absent or
has no line, or no phone is supplied (absent or empty); the store (orders, customers,
tables) and the session (with its cart) are then left as they were. -/
theorem placeOrder_precondition_failure (s : Store) (sess : Session)
    (reqRestaurant : Option Restaurant) (phone notes : Option String) (now : Js.Date)
    (hmissing : (reqRestaurant = none ∧ sess.restaurant = none) ∨ sess.table = none ∨
      sess.cart = none ∨ (∃ cart, sess.cart = some cart ∧ cart.items = []) ∨
      phone = none ∨ phone = some "") :
    (placeOrder s sess reqRestaurant phone notes now).2.2.success = false ∧
      (placeOrder s sess reqRestaurant phone notes now).1 = s ∧
      (placeOrder s sess reqRestaurant phone notes now).2.1 = sess := by
  rcases placeOrder_cases s sess reqRestaurant phone notes now with h | h
  swap
  · obtain ⟨restaurant, table, cart, ph, _, _, _, _, hr, ht, hc, hlen, hph, hne, _⟩ := h
    exfalso
    rcases hmissing with ⟨h1, h2⟩ | h1 | h1 | ⟨c, h1, h2⟩ | h1 | h1
    · simp [h1, h2] at hr
    · simp [h1] at ht
    · simp [h1] at hc
    · rw [h1] at hc
      obtain rfl := Option.some.inj hc
      simp [h2] at hlen
    · simp [h1] at hph
    · rw [h1] at hph
      obtain rfl := Option.some.inj hph
      exact hne rfl
  · refine ⟨h.1, ?_, ?_⟩ <;>
    · unfold placeOrder
      rcases hmissing with ⟨h1, h2⟩ | h1 | h1 | ⟨c, h1, h2⟩ | h1 | h1
      · simp [h1, h2]
      · simp [h1]
      · split
        · simp [h1]
        · rfl
      · split
        · simp [h1, h2]
        · rfl
      · split
        · split
          · rfl
          · split
            · rfl
            · simp [h1]
        · rfl
      · split
        · split
          · rfl
          · split
            · rfl
            · simp [h1]
        · rfl

theorem placeOrder_precondition_failure_witness :
    ((some sampleRestaurant = none ∧ sampleSession.restaurant = none) ∨
      sampleSession.table = none ∨ sampleSession.cart = none ∨
      (∃ cart, sampleSession.cart = some cart ∧ cart.items = []) ∨
      (none : Option String) = none ∨ (none : Option String) = some "") ∧
    ((placeOrder openStore sampleSession (some sampleRestaurant) none none
        sampleDate).2.2.success = false ∧
      (placeOrder openStore sampleSession (some sampleRestaurant) none none sampleDate).1
        = openStore ∧
      (placeOrder openStore sampleSession (some sampleRestaurant) none none sampleDate).2.1
        = sampleSession) :=
  ⟨Or.inr (Or.inr (Or.inr (Or.inr (Or.inl rfl)))),
    placeOrder_precondition_failure openStore sampleSession (some sampleRestaurant) none none
      sampleDate (Or.inr (Or.inr (Or.inr (Or.inr (Or.inl rfl)))))⟩

/-- C10. For a date whose year has four digits, `generateOrderNumber` returns the
prefix, a hyphen, the date as eight digits `YYYYMMDD`, a hyphen, and `n + 1` in decimal
left-padded with zeros to four digits (exactly its four digits below 10000), where `n`
counts the restaurant's orders created within the day; the prefix is the restaurant's
configured prefix, and `ORD` when it has none (or an empty one). -/
theorem generateOrderNumber_format (s : Store) (restaurantId : Id) (today : Js.Date)
    (hyear : today.utcFullYear ≤ 9999) :
    ((dateDigits today).length = 8 ∧ (dateDigits today).data.all Char.isDigit = true) ∧
    (countTodaysOrders s restaurantId today.startOfDay today.endOfDay + 1 < 10000 →
      paddedSequence (countTodaysOrders s restaurantId today.startOfDay today.endOfDay + 1)
        = Js.fourDigits
            (countTodaysOrders s restaurantId today.startOfDay today.endOfDay + 1)) ∧
    (∀ (r : Restaurant) (p : String),
      s.restaurants.find? (fun r => decide (r._id = restaurantId)) = some r →
      r.orderPrefix = some p → p ≠ "" →
      generateOrderNumber s restaurantId today =
        p ++ "-" ++ dateDigits today ++ "-" ++
          paddedSequence
            (countTodaysOrders s restaurantId today.startOfDay today.endOfDay + 1)) ∧
    (∀ (r : Restaurant),
      s.restaurants.find? (fun r => decide (r._id = restaurantId)) = some r →
      (r.orderPrefix = none ∨ r.orderPrefix = some "") →
      generateOrderNumber s restaurantId today =
        "ORD" ++ "-" ++ dateDigits today ++ "-" ++
          paddedSequence
            (countTodaysOrders s restaurantId today.startOfDay today.endOfDay + 1)) := by
  refine ⟨dateDigits_digits today, ?_, ?_, ?_⟩
  · intro hlt
    rw [← padStart_repr_lt _ hlt, padStart_repr]
  · intro r p hfind hp hne
    simp only [generateOrderNumber, hfind, dateStr_eq today hyear,
      orderPrefixOf_configured r p hp hne, padStart_repr]
  · intro r hfind hp
    simp only [generateOrderNumber, hfind, dateStr_eq today hyear,
      orderPrefixOf_unconfigured r hp, padStart_repr]

theorem generateOrderNumber_format_witness :
    laterDate.utcFullYear ≤ 9999 ∧
    generateOrderNumber placedStore 1 laterDate = "DEMO-20240101-0002" ∧
    generateOrderNumber placedStore 1 laterDate =
      "DEMO" ++ "-" ++ dateDigits laterDate ++ "-" ++
        paddedSequence (countTodaysOrders placedStore 1 laterDate.startOfDay laterDate.endOfDay + 1) :=
  ⟨by decide, by decide,
    (generateOrderNumber_format placedStore 1 laterDate (by decide)).2.2.1 sampleRestaurant
      "DEMO" rfl rfl (by decide)⟩

/-! ## The tables and their orders -/

/-- C9, as stated, fails: the sample customer places two orders from table "5" one
after the other, `placeOrder` accepts both, and the table then carries two pending
orders. -/
theorem two_active_orders_on_one_table :
    Reachable twiceStore ∧ (∃ t ∈ twiceStore.tables, t._id = 10) ∧
      ¬ ((activeOrdersOn twiceStore 10).length ≤ 1) :=
  ⟨Reachable.placeOrder _ _ _ _ _ _
      (Reachable.placeOrder _ _ _ _ _ _ (Reachable.init openStore rfl (by decide))),
    by decide, by decide⟩

/-! ## Lemmas on the cart, the order numbers and tenant scoping -/

theorem parseInt_intCast (q : Int) : Js.parseInt (q : ℚ) = q := by
  have hfloor : ∀ z : Int, Rat.floor (z : ℚ) = z := by
    intro z
    have h : ⌊(z : ℚ)⌋ = z := Int.floor_intCast z
    exact h
  unfold Js.parseInt
  split
  · exact hfloor q
  · have h := hfloor (-q)
    rw [Int.cast_neg] at h
    rw [h, neg_neg]

theorem parseInt_nonneg (x : ℚ) (hx : 0 ≤ x) :
    (0 : ℚ) ≤ Js.parseInt x ∧ (Js.parseInt x : ℚ) ≤ x ∧ x < Js.parseInt x + 1 := by
  have hdef : Js.parseInt x = ⌊x⌋ := by
    unfold Js.parseInt
    rw [if_pos hx]
    rfl
  rw [hdef]
  refine ⟨?_, Int.floor_le x, Int.lt_floor_add_one x⟩
  exact_mod_cast Int.floor_nonneg.2 hx

theorem parseInt_nonpos (x : ℚ) (hx : x ≤ 0) :
    x ≤ Js.parseInt x ∧ (Js.parseInt x : ℚ) ≤ 0 ∧ (Js.parseInt x : ℚ) - 1 < x := by
  rcases eq_or_lt_of_le hx with h0 | hlt
  · subst h0
    have h := parseInt_nonneg 0 le_rfl
    have h1 : (Js.parseInt 0 : ℚ) = 0 := le_antisymm h.2.1 h.1
    rw [h1]
    norm_num
  · have hdef : Js.parseInt x = - ⌊-x⌋ := by
      unfold Js.parseInt
      rw [if_neg (not_le.2 hlt)]
      rfl
    rw [hdef]
    have h1 := Int.floor_le (-x)
    have h2 := Int.lt_floor_add_one (-x)
    have h3 : (0 : ℚ) ≤ ⌊-x⌋ := by
      exact_mod_cast Int.floor_nonneg.2 (by linarith : (0 : ℚ) ≤ -x)
    push_cast
    refine ⟨by linarith, by linarith, by linarith⟩

theorem findIndex_eq_some {α : Type} {p : α → Bool} {l : List α} {i : Nat}
    (h : Js.findIndex p l = some i) :
    ∃ a, l[i]? = some a ∧ p a = true ∧ ∀ j b, j < i → l[j]? = some b → p b = false := by
  induction l generalizing i with
  | nil => simp [Js.findIndex] at h
  | cons x l ih =>
    unfold Js.findIndex at h
    split at h
    · rename_i hx
      obtain rfl := Option.some.inj h
      exact ⟨x, by simp, hx, fun j b hj => absurd hj (Nat.not_lt_zero j)⟩
    · rename_i hx
      simp only [Option.map_eq_some'] at h
      obtain ⟨k, hk, rfl⟩ := h
      obtain ⟨a, ha, hpa, hbefore⟩ := ih hk
      refine ⟨a, by simpa using ha, hpa, ?_⟩
      intro j b hj hb
      cases j with
      | zero =>
        simp only [List.getElem?_cons_zero, Option.some.injEq] at hb
        subst hb
        simpa using hx
      | succ j =>
        simp only [List.getElem?_cons_succ] at hb
        exact hbefore j b (Nat.lt_of_succ_lt_succ hj) hb

theorem findIndex_eq_none {α : Type} {p : α → Bool} {l : List α}
    (h : Js.findIndex p l = none) : ∀ a ∈ l, p a = false := by
  induction l with
  | nil => simp
  | cons x l ih =>
    unfold Js.findIndex at h
    split at h
    · simp at h
    · rename_i hx
      simp only [Option.map_eq_none'] at h
      intro a ha
      rcases List.mem_cons.1 ha with rfl | hmem
      · simpa using hx
      · exact ih h a hmem

theorem cartTotal_eq_sum (items : List LineItem) :
    cartTotal items = (items.map (fun item => item.subtotal)).sum := by
  unfold cartTotal
  have h : ∀ (l : List LineItem) (acc : ℚ),
      l.foldl (fun sum item => sum + item.subtotal) acc
        = acc + (l.map (fun item => item.subtotal)).sum := by
    intro l
    induction l with
    | nil => intro acc; simp
    | cons a l ih => intro acc; simp [ih, add_assoc]
  simpa using h items 0

theorem addToCart_cases (s : Store) (sess : Session) (reqRestaurant : Option Restaurant)
    (itemId : Id) (quantity : Option ℚ) (notes : Option String) :
    ((addToCart s sess reqRestaurant itemId quantity notes).2.success = false ∧
      (addToCart s sess reqRestaurant itemId quantity notes).1 = sess) ∨
    (∃ restaurant menuItem items,
      (reqRestaurant <|> sess.restaurant) = some restaurant ∧
      findMenuItem s itemId restaurant._id = some menuItem ∧
      ((∃ i, Js.findIndex (fun item => decide (item.menuItem = itemId))
            (sess.cart.getD { items := [], total := 0 }).items = some i ∧
          items = (sess.cart.getD { items := [], total := 0 }).items.modify
            (fun item => { item with
              quantity := item.quantity + Js.parseInt (quantity.getD 1)
              subtotal := (item.quantity + Js.parseInt (quantity.getD 1)) * menuItem.price })
            i) ∨
        (Js.findIndex (fun item => decide (item.menuItem = itemId))
            (sess.cart.getD { items := [], total := 0 }).items = none ∧
          items = (sess.cart.getD { items := [], total := 0 }).items ++
            [{ menuItem := menuItem._id, name := menuItem.name, price := menuItem.price,
               quantity := Js.parseInt (quantity.getD 1), notes := notes.getD "",
               subtotal := menuItem.price * Js.parseInt (quantity.getD 1) }])) ∧
      addToCart s sess reqRestaurant itemId quantity notes =
        ({ sess with cart := some { items := items, total := cartTotal items } },
          Response.cartUpdated)) := by
  unfold addToCart
  split
  · left; simp [Response.failure]
  · rename_i restaurant hr
    split
    · left; simp [Response.failure]
    · rename_i menuItem hm
      right
      cases hidx : Js.findIndex (fun item => decide (item.menuItem = itemId))
          (sess.cart.getD { items := [], total := 0 }).items with
      | none => exact ⟨restaurant, menuItem, _, hr, hm, Or.inr ⟨rfl, rfl⟩, by simp [hidx]⟩
      | some i => exact ⟨restaurant, menuItem, _, hr, hm, Or.inl ⟨i, rfl, rfl⟩, by simp [hidx]⟩

theorem updateCartItem_cases (sess : Session) (itemId : Id) (quantity : ℚ) :
    ((updateCartItem sess itemId quantity).2.success = false ∧
      (updateCartItem sess itemId quantity).1 = sess) ∨
    (∃ cart i items, sess.cart = some cart ∧
      Js.findIndex (fun item => decide (item.menuItem = itemId)) cart.items = some i ∧
      items = (if quantity ≤ 0 then cart.items.eraseIdx i
        else cart.items.modify
          (fun item => { item with
            quantity := Js.parseInt quantity
            subtotal := Js.parseInt quantity * item.price })
          i) ∧
      updateCartItem sess itemId quantity =
        ({ sess with cart := some { items := items, total := cartTotal items } },
          Response.cartUpdated)) := by
  unfold updateCartItem
  split
  · left; simp [Response.failure]
  · rename_i cart hc
    split
    · left; simp [Response.failure]
    · rename_i i hi
      right
      exact ⟨cart, i, _, hc, hi, rfl, rfl⟩

theorem modify_map_menuItem (l : List LineItem) (f : LineItem → LineItem) (i : Nat)
    (hf : ∀ item, (f item).menuItem = item.menuItem) :
    (l.modify f i).map (fun item => item.menuItem) = l.map (fun item => item.menuItem) := by
  apply List.ext_getElem?
  intro j
  simp only [List.getElem?_map, List.getElem?_modify]
  cases l[j]? with
  | none => simp
  | some a => by_cases h : i = j <;> simp [h, hf]

theorem filter_menuItem_length (l : List LineItem) (itemId : Id) :
    (l.filter (fun item => decide (item.menuItem = itemId))).length =
      (l.map (fun item => item.menuItem)).count itemId := by
  induction l with
  | nil => simp
  | cons a l ih =>
    by_cases h : a.menuItem = itemId
    · simp [List.filter_cons, h, ih]
    · simp [List.filter_cons, h, ih, List.count_cons]

theorem findOrder_eq_find?_filter (s : Store) (orderId r : Id) :
    findOrder s orderId (some r) =
      (s.orders.filter (fun o => decide (o.restaurant = r))).find?
        (fun o => decide (o._id = orderId)) := by
  unfold findOrder
  rw [List.find?_filter]
  congr 1
  funext o
  by_cases h1 : o._id = orderId <;> by_cases h2 : o.restaurant = r <;> simp [h1, h2]

theorem updateOrderStatus_response_congr {s1 s2 : Store} (user : SessionUser) (orderId : Id)
    (status : String) (now : Time)
    (h : findOrder s1 orderId user.restaurant = findOrder s2 orderId user.restaurant) :
    (updateOrderStatus s1 user orderId status now).2 =
      (updateOrderStatus s2 user orderId status now).2 := by
  unfold updateOrderStatus
  rw [h]
  split
  · rfl
  · split
    · rfl
    · split <;> rfl

theorem generateOrderNumber_congr {s s1 : Store} (restaurantId : Id) (today : Js.Date)
    (hr : s1.restaurants = s.restaurants) (ho : s1.orders = s.orders) :
    generateOrderNumber s1 restaurantId today = generateOrderNumber s restaurantId today := by
  simp only [generateOrderNumber, countTodaysOrders, hr, ho]

theorem generateOrderNumber_eq (s : Store) (restaurantId : Id) (today : Js.Date) :
    generateOrderNumber s restaurantId today =
      orderPrefixOf (s.restaurants.find? (fun r => decide (r._id = restaurantId))) ++ "-" ++
        Js.removeHyphens (Js.sliceTo 10 (Js.toISOString today)) ++ "-" ++
        paddedSequence
          ((ordersOfDay s restaurantId today.startOfDay today.endOfDay).length + 1) := rfl

theorem placeOrder_restaurants (s : Store) (sess : Session) (reqRestaurant : Option Restaurant)
    (phone notes : Option String) (now : Js.Date) :
    (placeOrder s sess reqRestaurant phone notes now).1.restaurants = s.restaurants := by
  rcases placeOrder_cases s sess reqRestaurant phone notes now with h | h
  · exact h.2.2.2.1
  · obtain ⟨_, _, _, _, s1, _, s2, saved, _, _, _, _, _, _, hcust, hins, heq⟩ := h
    obtain ⟨_, _, hrs, _⟩ := findOrCreateCustomer_eq_some hcust
    obtain ⟨_, _, hs2, _⟩ := insertOrder_eq_some hins
    rw [heq, hs2]
    simpa [Store.findByIdAndUpdateTable] using hrs

theorem placeOrder_saved (s : Store) (sess : Session) (reqRestaurant : Option Restaurant)
    (phone notes : Option String) (now : Js.Date) :
    (placeOrder s sess reqRestaurant phone notes now).1.orders = s.orders ∨
    (∃ saved restaurant,
      (reqRestaurant <|> sess.restaurant) = some restaurant ∧
      (placeOrder s sess reqRestaurant phone notes now).2.2.success = true ∧
      (placeOrder s sess reqRestaurant phone notes now).1.orders = s.orders ++ [saved] ∧
      saved.restaurant = restaurant._id ∧ saved.createdAt = now.time ∧
      saved.orderNumber = generateOrderNumber s restaurant._id now ∧
      ∀ x ∈ s.orders, ¬ (x.restaurant = saved.restaurant ∧ x.orderNumber = saved.orderNumber)) := by
  rcases placeOrder_cases s sess reqRestaurant phone notes now with h | h
  · left; exact h.2.1
  · right
    obtain ⟨restaurant, table, cart, ph, s1, customer, s2, saved, hr, _, _, _, _, _, hcust, hins,
      heq⟩ := h
    obtain ⟨ho, _, hrs, _⟩ := findOrCreateCustomer_eq_some hcust
    obtain ⟨_, hsaved, hs2, huniq⟩ := insertOrder_eq_some hins
    refine ⟨saved, restaurant, hr, by rw [heq], ?_, ?_, ?_, ?_, ?_⟩
    · rw [heq, hs2]; simp [Store.findByIdAndUpdateTable, ho]
    · rw [hsaved]; simp [preSave, newOrder]
    · rw [hsaved]
    · rw [hsaved]
      simp only [preSave, newOrder]
      exact generateOrderNumber_congr _ _ hrs ho
    · rw [← ho]; exact huniq

theorem ordersOfDay_subset {s : Store} {restaurantId : Id} {a b : Time} {o : Order}
    (h : o ∈ ordersOfDay s restaurantId a b) : o ∈ s.orders ∧ o.restaurant = restaurantId := by
  unfold ordersOfDay at h
  rw [List.mem_filter] at h
  simp only [decide_eq_true_eq] at h
  exact ⟨h.1, h.2.1⟩

theorem placeOrder_day_step (s : Store) (sess : Session) (reqRestaurant : Option Restaurant)
    (phone notes : Option String) (now : Js.Date) (restaurantId : Id) (a b : Time)
    (ha : now.startOfDay = a) (hb : now.endOfDay = b) (hlo : a ≤ now.time)
    (hhi : now.time ≤ b) :
    ordersOfDay (placeOrder s sess reqRestaurant phone notes now).1 restaurantId a b
      = ordersOfDay s restaurantId a b ∨
    ∃ saved date,
      ordersOfDay (placeOrder s sess reqRestaurant phone notes now).1 restaurantId a b
        = ordersOfDay s restaurantId a b ++ [saved] ∧
      saved.orderNumber =
        orderPrefixOf (s.restaurants.find? (fun r => decide (r._id = restaurantId))) ++ "-" ++
          date ++ "-" ++ paddedSequence ((ordersOfDay s restaurantId a b).length + 1) ∧
      ∀ x ∈ ordersOfDay s restaurantId a b, x.orderNumber ≠ saved.orderNumber := by
  rcases placeOrder_saved s sess reqRestaurant phone notes now with h | h
  · left
    unfold ordersOfDay
    rw [h]
  · obtain ⟨saved, restaurant, _, _, ho, hrest, hcreated, hnum, huniq⟩ := h
    by_cases hR : restaurant._id = restaurantId
    · right
      refine ⟨saved, Js.removeHyphens (Js.sliceTo 10 (Js.toISOString now)), ?_, ?_, ?_⟩
      · unfold ordersOfDay
        rw [ho, List.filter_append]
        congr 1
        simp [List.filter_cons, hrest, hR, hcreated, hlo, hhi]
      · rw [hnum, generateOrderNumber_eq, hR, ha, hb]
      · intro x hx hc
        obtain ⟨hxmem, hxr⟩ := ordersOfDay_subset hx
        exact huniq x hxmem ⟨by rw [hxr, hrest, hR], hc⟩
    · left
      unfold ordersOfDay
      rw [ho, List.filter_append]
      simp [List.filter_cons, hrest, hR]

theorem placeOrders_restaurants (reqs : List PlaceOrderRequest) (s : Store) :
    (placeOrders s reqs).restaurants = s.restaurants := by
  induction reqs generalizing s with
  | nil => rfl
  | cons r reqs ih =>
    unfold placeOrders
    rw [List.foldl_cons]
    exact (ih _).trans (placeOrder_restaurants s r.sess r.reqRestaurant r.phone r.notes r.now)

theorem placeOrders_numbered (restaurantId : Id) (a b : Time) (reqs : List PlaceOrderRequest) :
    ∀ (s : Store),
      (∀ r ∈ reqs, r.now.startOfDay = a ∧ r.now.endOfDay = b ∧ a ≤ r.now.time ∧
        r.now.time ≤ b) →
      (∀ k o, (ordersOfDay s restaurantId a b)[k]? = some o →
        ∃ date, o.orderNumber =
          orderPrefixOf (s.restaurants.find? (fun r => decide (r._id = restaurantId)))
            ++ "-" ++ date ++ "-" ++ paddedSequence (k + 1)) →
      ((ordersOfDay s restaurantId a b).map (fun o => o.orderNumber)).Nodup →
      (∀ k o, (ordersOfDay (placeOrders s reqs) restaurantId a b)[k]? = some o →
        ∃ date, o.orderNumber =
          orderPrefixOf (s.restaurants.find? (fun r => decide (r._id = restaurantId)))
            ++ "-" ++ date ++ "-" ++ paddedSequence (k + 1)) ∧
      ((ordersOfDay (placeOrders s reqs) restaurantId a b).map
        (fun o => o.orderNumber)).Nodup := by
  induction reqs with
  | nil => intro s _ hnum hnodup; exact ⟨hnum, hnodup⟩
  | cons r reqs ih =>
    intro s hday hnum hnodup
    obtain ⟨ha, hb, hlo, hhi⟩ := hday r (List.mem_cons_self _ _)
    have hrest := placeOrder_restaurants s r.sess r.reqRestaurant r.phone r.notes r.now
    have hstep : placeOrders s (r :: reqs) =
        placeOrders (placeOrder s r.sess r.reqRestaurant r.phone r.notes r.now).1 reqs := rfl
    rw [hstep]
    have hday' : ∀ r' ∈ reqs, r'.now.startOfDay = a ∧ r'.now.endOfDay = b ∧ a ≤ r'.now.time ∧
        r'.now.time ≤ b := fun r' hr' => hday r' (List.mem_cons_of_mem _ hr')
    have key := ih (placeOrder s r.sess r.reqRestaurant r.phone r.notes r.now).1 hday'
    rw [hrest] at key
    rcases placeOrder_day_step s r.sess r.reqRestaurant r.phone r.notes r.now restaurantId a b
      ha hb hlo hhi with hsame | ⟨saved, date, happ, hsaved, hfresh⟩
    · rw [hsame] at key
      exact key hnum hnodup
    · rw [happ] at key
      apply key
      · intro k o hk
        by_cases hlt : k < (ordersOfDay s restaurantId a b).length
        · rw [List.getElem?_append_left hlt] at hk
          exact hnum k o hk
        · have hge : (ordersOfDay s restaurantId a b).length ≤ k := Nat.le_of_not_lt hlt
          rw [List.getElem?_append_right hge] at hk
          have hk0 : k - (ordersOfDay s restaurantId a b).length = 0 := by
            by_contra hne
            obtain ⟨m, hm⟩ := Nat.exists_eq_succ_of_ne_zero hne
            rw [hm] at hk
            simp at hk
          rw [hk0] at hk
          simp only [List.getElem?_cons_zero, Option.some.injEq] at hk
          subst hk
          have hkeq : k = (ordersOfDay s restaurantId a b).length := by omega
          rw [hkeq]
          exact ⟨date, hsaved⟩
      · rw [List.map_append, List.nodup_append]
        refine ⟨hnodup, by simp, ?_⟩
        intro n hn hn'
        simp only [List.map_cons, List.map_nil, List.mem_singleton] at hn'
        obtain ⟨x, hx, hxn⟩ := List.mem_map.1 hn
        exact hfresh x hx (hxn.trans hn')

theorem updateStatus_frame {o saved : Order} {status : String} {userId : Id} {now : Time}
    (h : updateStatus o status userId now = some saved) :
    saved._id = o._id ∧ saved.restaurant = o.restaurant ∧ saved.orderNumber = o.orderNumber ∧
      saved.createdAt = o.createdAt ∧ saved.table = o.table := by
  unfold updateStatus at h
  split at h
  · simp at h
  · simp only [Option.some.injEq] at h
    subst h
    simp [preSave]

theorem updateOrderStatus_orders (s : Store) (user : SessionUser) (orderId : Id)
    (status : String) (now : Time) :
    (updateOrderStatus s user orderId status now).1.orders = s.orders ∨
    ∃ order saved, order ∈ s.orders ∧ updateStatus order status user._id now = some saved ∧
      (updateOrderStatus s user orderId status now).1.orders =
        s.orders.map (fun x => if x._id = saved._id then saved else x) := by
  cases hfind : findOrder s orderId user.restaurant with
  | none => left; simp [updateOrderStatus, hfind]
  | some order =>
    by_cases hmem : status ∈ validTransitions order.status
    · right
      obtain ⟨saved, hu, _, _, _, _, _, _, _, hs⟩ := updateOrderStatus_of_mem now hfind hmem
      refine ⟨order, saved, (findOrder_eq_some hfind).1, hu, ?_⟩
      rw [hs]; split <;> rfl
    · left
      rw [updateOrderStatus_of_not_mem hfind hmem]

theorem reachable_orderNumbers {s : Store} (h : Reachable s) :
    (s.orders.map (fun o => (o.restaurant, o.orderNumber))).Nodup := by
  induction h with
  | init s horders _ => simp [horders]
  | placeOrder s sess rr phone notes now _ ih =>
    rcases placeOrder_saved s sess rr phone notes now with ho | ⟨saved, _, _, _, ho, _, _, _, hu⟩
    · rw [ho]; exact ih
    · rw [ho, List.map_append, List.nodup_append]
      refine ⟨ih, by simp, ?_⟩
      intro a ha hb
      simp only [List.map_cons, List.map_nil, List.mem_singleton] at hb
      obtain ⟨x, hx, hxa⟩ := List.mem_map.1 ha
      rw [hb] at hxa
      simp only [Prod.mk.injEq] at hxa
      exact hu x hx hxa
  | updateOrderStatus s user orderId status now hs ih =>
    rcases updateOrderStatus_orders s user orderId status now with ho |
      ⟨order, saved, hmem, hu, ho⟩
    · rw [ho]; exact ih
    · obtain ⟨hid, hr, hn, _, _⟩ := updateStatus_frame hu
      have hmap : ((updateOrderStatus s user orderId status now).1.orders.map
          (fun o => (o.restaurant, o.orderNumber))) =
          s.orders.map (fun o => (o.restaurant, o.orderNumber)) := by
        rw [ho, List.map_map]
        apply List.map_congr_left
        intro x hx
        by_cases hxid : x._id = saved._id
        · have hxo : x = order :=
            List.inj_on_of_nodup_map (reachable_ids hs).2 hx hmem (hxid.trans hid)
          subst hxo
          simp [hxid, hr, hn]
        · simp [hxid]
      rw [hmap]; exact ih
  | updateTableStatus s user tableId status _ ih =>
    rw [(updateTableStatus_orders s user tableId status).1]; exact ih

/-! ## Claims on the order numbers of a day -/

/-- C11. Let the requests to `placeOrder` of a server-local day (each with the same
start and end of day, and its instant between them) be served one after another,
from a store where the restaurant has no order created within that day.  Then, of the
orders of the restaurant created within the day, in the order of their placement, the
`k`-th carries the sequence component `k` (zero-padded to four digits) after the
restaurant's prefix and a date, and their order numbers are pairwise distinct. -/
theorem orderNumbers_of_day (s : Store) (restaurantId : Id) (a b : Time)
    (reqs : List PlaceOrderRequest)
    (hempty : ordersOfDay s restaurantId a b = [])
    (hday : ∀ r ∈ reqs, r.now.startOfDay = a ∧ r.now.endOfDay = b ∧ a ≤ r.now.time ∧
      r.now.time ≤ b) :
    (∀ k o, (ordersOfDay (placeOrders s reqs) restaurantId a b)[k]? = some o →
      ∃ date, o.orderNumber =
        orderPrefixOf (s.restaurants.find? (fun r => decide (r._id = restaurantId)))
          ++ "-" ++ date ++ "-" ++ paddedSequence (k + 1)) ∧
    ((ordersOfDay (placeOrders s reqs) restaurantId a b).map
      (fun o => o.orderNumber)).Nodup := by
  apply placeOrders_numbered restaurantId a b reqs s hday
  · intro k o hk
    rw [hempty] at hk
    simp at hk
  · rw [hempty]
    simp

theorem orderNumbers_of_day_witness :
    (ordersOfDay openStore 1 1704067200000 1704153599999 = [] ∧
      (∀ r ∈ sampleRequests, r.now.startOfDay = 1704067200000 ∧
        r.now.endOfDay = 1704153599999 ∧ 1704067200000 ≤ r.now.time ∧
        r.now.time ≤ 1704153599999)) ∧
    (ordersOfDay (placeOrders openStore sampleRequests) 1 1704067200000 1704153599999).map
      (fun o => o.orderNumber) = ["DEMO-20240101-0001", "DEMO-20240101-0002"] ∧
    ((∀ k o, (ordersOfDay (placeOrders openStore sampleRequests) 1 1704067200000
        1704153599999)[k]? = some o →
      ∃ date, o.orderNumber =
        orderPrefixOf (openStore.restaurants.find? (fun r => decide (r._id = 1)))
          ++ "-" ++ date ++ "-" ++ paddedSequence (k + 1)) ∧
    ((ordersOfDay (placeOrders openStore sampleRequests) 1 1704067200000 1704153599999).map
      (fun o => o.orderNumber)).Nodup) :=
  ⟨⟨rfl, by decide⟩, by decide,
    orderNumbers_of_day openStore 1 1704067200000 1704153599999 sampleRequests rfl
      (by decide)⟩

/-- C12. In every reachable state no two stored orders of one restaurant share an
order number; and a `placeOrder` whose generated number is already the number of a
stored order of that restaurant answers `success: false`, stores no order and leaves
every table as it was. -/
theorem orderNumber_unique (s : Store) (h : Reachable s) :
    (s.orders.map (fun o => (o.restaurant, o.orderNumber))).Nodup ∧
    (∀ (sess : Session) (reqRestaurant : Option Restaurant) (phone notes : Option String)
        (now : Js.Date) (restaurant : Restaurant),
      (reqRestaurant <|> sess.restaurant) = some restaurant →
      (∃ o ∈ s.orders, o.restaurant = restaurant._id ∧
        o.orderNumber = generateOrderNumber s restaurant._id now) →
      (placeOrder s sess reqRestaurant phone notes now).2.2.success = false ∧
      (placeOrder s sess reqRestaurant phone notes now).1.orders = s.orders ∧
      (placeOrder s sess reqRestaurant phone notes now).1.tables = s.tables) := by
  refine ⟨reachable_orderNumbers h, ?_⟩
  intro sess reqRestaurant phone notes now restaurant hr ⟨o, ho, hor, hon⟩
  rcases placeOrder_cases s sess reqRestaurant phone notes now with hfail | hsucc
  · exact ⟨hfail.1, hfail.2.1, hfail.2.2.1⟩
  · exfalso
    rcases placeOrder_saved s sess reqRestaurant phone notes now with hsame | hnew
    · obtain ⟨_, _, _, _, s1, _, s2, saved, _, _, _, _, _, _, hcust, hins, heq⟩ := hsucc
      obtain ⟨ho1, _, _, _⟩ := findOrCreateCustomer_eq_some hcust
      obtain ⟨_, _, hs2, _⟩ := insertOrder_eq_some hins
      rw [heq, hs2] at hsame
      simp [Store.findByIdAndUpdateTable, ho1] at hsame
    · obtain ⟨saved, restaurant', hr', _, _, hrest, _, hnum, hu⟩ := hnew
      rw [hr] at hr'
      obtain rfl := Option.some.inj hr'
      exact hu o ho ⟨by rw [hor, hrest], by rw [hon, hnum]⟩

theorem orderNumber_unique_witness :
    Reachable afternoonStore ∧
    (∃ o ∈ afternoonStore.orders, o.restaurant = sampleRestaurant._id ∧
      o.orderNumber = generateOrderNumber afternoonStore sampleRestaurant._id
        afterMidnightDate) ∧
    ((afternoonStore.orders.map (fun o => (o.restaurant, o.orderNumber))).Nodup ∧
    (∀ (sess : Session) (reqRestaurant : Option Restaurant) (phone notes : Option String)
        (now : Js.Date) (restaurant : Restaurant),
      (reqRestaurant <|> sess.restaurant) = some restaurant →
      (∃ o ∈ afternoonStore.orders, o.restaurant = restaurant._id ∧
        o.orderNumber = generateOrderNumber afternoonStore restaurant._id now) →
      (placeOrder afternoonStore sess reqRestaurant phone notes now).2.2.success = false ∧
      (placeOrder afternoonStore sess reqRestaurant phone notes now).1.orders
        = afternoonStore.orders ∧
      (placeOrder afternoonStore sess reqRestaurant phone notes now).1.tables
        = afternoonStore.tables)) :=
  ⟨Reachable.placeOrder _ _ _ _ _ _ (Reachable.init openStore rfl (by decide)),
    by decide,
    orderNumber_unique afternoonStore
      (Reachable.placeOrder _ _ _ _ _ _ (Reachable.init openStore rfl (by decide)))⟩

/-! ## Claims on the cart -/

/-- C13, as stated, fails: the cart holds item A twice and `addToCart` is called for
item A with the quantity 2.5; the call succeeds and the line then holds 4, not 4.5:
`parseInt` has cut the quantity to 2. -/
theorem addToCart_fractional_quantity :
    sampleSession.cart = some sampleCart ∧
    sampleCart.items.map (fun i => (i.menuItem, i.quantity)) = [(50, 2), (51, 1)] ∧
    (addToCart openStore sampleSession (some sampleRestaurant) 50 (some (5 / 2))
      none).2.success = true ∧
    (viewCart (addToCart openStore sampleSession (some sampleRestaurant) 50 (some (5 / 2))
      none).1).items.map (fun i => (i.menuItem, i.quantity)) = [(50, 4), (51, 1)] ∧
    ¬ ((viewCart (addToCart openStore sampleSession (some sampleRestaurant) 50 (some (5 / 2))
      none).1).items.map (fun i => (i.quantity : ℚ)) = [2 + 5 / 2, 1]) := by
  decide!

/-- C13, amended. When the cart already holds a line for the menu item, a successful
`addToCart` with a quantity `q` that is printed in decimal notation adds the integer
part of `q` (`parseInt`: `q` cut toward zero, `q` itself when `q` is an integer) to the
quantity of that line (the first line for the item), keeps the number of lines, keeps
the item, name, price and notes of the line, and leaves every other line as it was. -/
theorem addToCart_existing_line (s : Store) (sess : Session)
    (reqRestaurant : Option Restaurant) (itemId : Id) (q : ℚ) (notes : Option String)
    (cart : Cart) (i : Nat) (_hdec : Js.decimalNotation q) (hcart : sess.cart = some cart)
    (hidx : Js.findIndex (fun item => decide (item.menuItem = itemId)) cart.items = some i)
    (hok : (addToCart s sess reqRestaurant itemId (some q) notes).2.success = true) :
    (∃ cart' line line',
      (addToCart s sess reqRestaurant itemId (some q) notes).1.cart = some cart' ∧
      cart.items[i]? = some line ∧ line.menuItem = itemId ∧
      cart'.items[i]? = some line' ∧
      line'.quantity = line.quantity + Js.parseInt q ∧
      line'.menuItem = line.menuItem ∧ line'.name = line.name ∧ line'.price = line.price ∧
      line'.notes = line.notes ∧
      cart'.items.length = cart.items.length ∧
      ∀ j, j ≠ i → cart'.items[j]? = cart.items[j]?) ∧
    (0 ≤ q → (0 : ℚ) ≤ Js.parseInt q ∧ (Js.parseInt q : ℚ) ≤ q ∧ q < Js.parseInt q + 1) ∧
    (q ≤ 0 → q ≤ Js.parseInt q ∧ (Js.parseInt q : ℚ) ≤ 0 ∧ (Js.parseInt q : ℚ) - 1 < q) ∧
    (∀ z : Int, q = z → Js.parseInt q = z) := by
  refine ⟨?_, parseInt_nonneg q, parseInt_nonpos q, ?_⟩
  · obtain ⟨line, hline, hp, _⟩ := findIndex_eq_some hidx
    rcases addToCart_cases s sess reqRestaurant itemId (some q) notes with h | h
    · rw [h.1] at hok
      exact absurd hok (by decide)
    · obtain ⟨restaurant, menuItem, items, _, _, hitems, heq⟩ := h
      simp only [hcart, Option.getD_some, hidx, Option.some.injEq, reduceCtorEq, false_and,
        or_false] at hitems
      obtain ⟨k, rfl, rfl⟩ := hitems
      refine ⟨_, line,
        { line with
          quantity := line.quantity + Js.parseInt q
          subtotal := (line.quantity + Js.parseInt q) * menuItem.price },
        by rw [heq], hline, by simpa using hp, ?_, rfl, rfl, rfl, rfl, rfl, ?_, ?_⟩
      · simp only [List.getElem?_modify_eq, hline, Option.map_eq_map, Option.map_some']
      · simp
      · intro j hj
        exact List.getElem?_modify_ne _ _ (Ne.symm hj)
  · intro z hz
    rw [hz]
    exact parseInt_intCast z

theorem addToCart_existing_line_witness :
    (Js.decimalNotation (5 / 2) ∧ sampleSession.cart = some sampleCart ∧
      Js.findIndex (fun item => decide (item.menuItem = 50)) sampleCart.items = some 0 ∧
      (addToCart openStore sampleSession (some sampleRestaurant) 50 (some (5 / 2))
        none).2.success = true) ∧
    Js.parseInt (5 / 2) = 2 ∧
    ((∃ cart' line line',
      (addToCart openStore sampleSession (some sampleRestaurant) 50 (some (5 / 2))
        none).1.cart = some cart' ∧
      sampleCart.items[0]? = some line ∧ line.menuItem = 50 ∧
      cart'.items[0]? = some line' ∧
      line'.quantity = line.quantity + Js.parseInt (5 / 2) ∧
      line'.menuItem = line.menuItem ∧ line'.name = line.name ∧ line'.price = line.price ∧
      line'.notes = line.notes ∧
      cart'.items.length = sampleCart.items.length ∧
      ∀ j, j ≠ 0 → cart'.items[j]? = sampleCart.items[j]?) ∧
    ((0 : ℚ) ≤ 5 / 2 → (0 : ℚ) ≤ Js.parseInt (5 / 2) ∧ (Js.parseInt (5 / 2) : ℚ) ≤ 5 / 2 ∧
      (5 / 2 : ℚ) < Js.parseInt (5 / 2) + 1) ∧
    ((5 / 2 : ℚ) ≤ 0 → (5 / 2 : ℚ) ≤ Js.parseInt (5 / 2) ∧ (Js.parseInt (5 / 2) : ℚ) ≤ 0 ∧
      (Js.parseInt (5 / 2) : ℚ) - 1 < 5 / 2) ∧
    (∀ z : Int, (5 / 2 : ℚ) = z → Js.parseInt (5 / 2) = z)) :=
  ⟨⟨Or.inr ⟨by rw [abs_of_pos (by norm_num)]; norm_num,
      by rw [abs_of_pos (by norm_num)]; norm_num⟩, rfl, rfl, rfl⟩, by decide!,
    addToCart_existing_line openStore sampleSession (some sampleRestaurant) 50 (5 / 2) none
      sampleCart 0 (Or.inr ⟨by rw [abs_of_pos (by norm_num)]; norm_num,
      by rw [abs_of_pos (by norm_num)]; norm_num⟩) rfl rfl rfl⟩

/-- C14, as stated, fails: the cart holds item A twice and `updateCartItem` is called
for item A with the quantity 0.5; the test `quantity <= 0` does not hold, the line stays
in the cart and its quantity becomes 0 (`parseInt` of 0.5), not 0.5, its subtotal 0. -/
theorem updateCartItem_fractional_quantity :
    sampleSession.cart = some sampleCart ∧
    sampleCart.items.map (fun i => (i.menuItem, i.quantity)) = [(50, 2), (51, 1)] ∧
    (updateCartItem sampleSession 50 (1 / 2)).2.success = true ∧
    (viewCart (updateCartItem sampleSession 50 (1 / 2)).1).items.map
      (fun i => (i.menuItem, i.quantity, i.subtotal)) = [(50, 0, 0), (51, 1, 5)] ∧
    ¬ ((viewCart (updateCartItem sampleSession 50 (1 / 2)).1).items.map
      (fun i => (i.quantity : ℚ)) = [1 / 2, 1]) := by
  decide!

/-- C14, amended. When the cart holds a line for the menu item, `updateCartItem` with
a quantity `q` succeeds; with `q` at most 0 it removes exactly that line (the first
line for the item): one line less, the others in their order; with `q` above 0 and
printed in decimal notation it sets the line's quantity to the integer part of `q`
(`parseInt`: at most `q` and more than `q - 1`, so `q` itself when `q` is an integer
and 0 when `q` is below 1) and its subtotal to that integer times the line's price,
keeps the number of lines and leaves every other line as it was. -/
theorem updateCartItem_effect (sess : Session) (itemId : Id) (q : ℚ) (cart : Cart)
    (i : Nat) (hcart : sess.cart = some cart)
    (hidx : Js.findIndex (fun item => decide (item.menuItem = itemId)) cart.items = some i) :
    (updateCartItem sess itemId q).2.success = true ∧
    ∃ cart' line,
      (updateCartItem sess itemId q).1.cart = some cart' ∧
      cart.items[i]? = some line ∧ line.menuItem = itemId ∧
      (q ≤ 0 →
        cart'.items = cart.items.take i ++ cart.items.drop (i + 1) ∧
        cart'.items.length + 1 = cart.items.length) ∧
      (0 < q → Js.decimalNotation q →
        cart'.items[i]? = some { line with quantity := Js.parseInt q,
                                           subtotal := Js.parseInt q * line.price } ∧
        cart'.items.length = cart.items.length ∧
        (∀ j, j ≠ i → cart'.items[j]? = cart.items[j]?) ∧
        (0 : ℚ) ≤ Js.parseInt q ∧ (Js.parseInt q : ℚ) ≤ q ∧ q < Js.parseInt q + 1 ∧
        (∀ z : Int, q = z → Js.parseInt q = z)) := by
  obtain ⟨line, hline, hp, _⟩ := findIndex_eq_some hidx
  have hlt : i < cart.items.length := by
    by_contra hge
    rw [List.getElem?_eq_none (Nat.le_of_not_lt hge)] at hline
    exact absurd hline (by simp)
  rcases updateCartItem_cases sess itemId q with h | h
  · have hsucc : (updateCartItem sess itemId q).2.success = true := by
      simp [updateCartItem, hcart, hidx, Response.cartUpdated]
    rw [h.1] at hsucc
    exact absurd hsucc (by decide)
  · obtain ⟨cart0, k, items, hc0, hk, hitems, heq⟩ := h
    rw [hcart] at hc0
    obtain rfl := Option.some.inj hc0
    rw [hidx] at hk
    obtain rfl := Option.some.inj hk
    refine ⟨by rw [heq]; rfl, _, line, by rw [heq], hline, by simpa using hp, ?_, ?_⟩
    · intro hq
      subst hitems
      simp only [hq, if_true]
      refine ⟨List.eraseIdx_eq_take_drop_succ _ _, ?_⟩
      rw [List.length_eraseIdx_of_lt hlt]
      omega
    · intro hq _
      have hq' : ¬ q ≤ 0 := not_le.2 hq
      subst hitems
      simp only [hq', if_false]
      obtain ⟨h1, h2, h3⟩ := parseInt_nonneg q (le_of_lt hq)
      refine ⟨?_, by simp, ?_, h1, h2, h3, ?_⟩
      · simp only [List.getElem?_modify_eq, hline, Option.map_eq_map, Option.map_some']
      · intro j hj
        exact List.getElem?_modify_ne _ _ (Ne.symm hj)
      · intro z hz
        rw [hz]
        exact parseInt_intCast z

theorem updateCartItem_effect_witness :
    (sampleSession.cart = some sampleCart ∧
      Js.findIndex (fun item => decide (item.menuItem = 50)) sampleCart.items = some 0) ∧
    (viewCart (updateCartItem sampleSession 50 0).1).items.map
      (fun i => (i.menuItem, i.quantity)) = [(51, 1)] ∧
    (viewCart (updateCartItem sampleSession 50 3).1).items.map
      (fun i => (i.menuItem, i.quantity, i.subtotal)) = [(50, 3, 30), (51, 1, 5)] ∧
    ((updateCartItem sampleSession 50 3).2.success = true ∧
    ∃ cart' line,
      (updateCartItem sampleSession 50 3).1.cart = some cart' ∧
      sampleCart.items[0]? = some line ∧ line.menuItem = 50 ∧
      ((3 : ℚ) ≤ 0 →
        cart'.items = sampleCart.items.take 0 ++ sampleCart.items.drop (0 + 1) ∧
        cart'.items.length + 1 = sampleCart.items.length) ∧
      ((0 : ℚ) < 3 → Js.decimalNotation 3 →
        cart'.items[0]? = some { line with quantity := Js.parseInt 3,
                                           subtotal := Js.parseInt 3 * line.price } ∧
        cart'.items.length = sampleCart.items.length ∧
        (∀ j, j ≠ 0 → cart'.items[j]? = sampleCart.items[j]?) ∧
        (0 : ℚ) ≤ Js.parseInt 3 ∧ (Js.parseInt 3 : ℚ) ≤ 3 ∧ (3 : ℚ) < Js.parseInt 3 + 1 ∧
        (∀ z : Int, (3 : ℚ) = z → Js.parseInt 3 = z))) :=
  ⟨⟨rfl, rfl⟩, by decide!, by decide!,
    updateCartItem_effect sampleSession 50 3 sampleCart 0 rfl rfl⟩

/-- C15. After every successful `addToCart` and every successful `updateCartItem` the
session holds a cart whose total is the sum of the subtotals of its lines, taken from
zero in the order of the lines: zero for a cart without lines. -/
theorem cart_total_is_sum :
    (∀ (s : Store) (sess : Session) (reqRestaurant : Option Restaurant) (itemId : Id)
        (quantity : Option ℚ) (notes : Option String),
      (addToCart s sess reqRestaurant itemId quantity notes).2.success = true →
      ∃ cart, (addToCart s sess reqRestaurant itemId quantity notes).1.cart = some cart ∧
        cart.total = (cart.items.map (fun item => item.subtotal)).sum ∧
        (cart.items = [] → cart.total = 0)) ∧
    (∀ (sess : Session) (itemId : Id) (quantity : ℚ),
      (updateCartItem sess itemId quantity).2.success = true →
      ∃ cart, (updateCartItem sess itemId quantity).1.cart = some cart ∧
        cart.total = (cart.items.map (fun item => item.subtotal)).sum ∧
        (cart.items = [] → cart.total = 0)) := by
  constructor
  · intro s sess reqRestaurant itemId quantity notes hok
    rcases addToCart_cases s sess reqRestaurant itemId quantity notes with h | h
    · rw [h.1] at hok
      exact absurd hok (by decide)
    · obtain ⟨_, _, items, _, _, _, heq⟩ := h
      refine ⟨{ items := items, total := cartTotal items }, by rw [heq],
        cartTotal_eq_sum items, ?_⟩
      intro hnil
      simp only at hnil
      simp [hnil, cartTotal]
  · intro sess itemId quantity hok
    rcases updateCartItem_cases sess itemId quantity with h | h
    · rw [h.1] at hok
      exact absurd hok (by decide)
    · obtain ⟨_, _, items, _, _, _, heq⟩ := h
      refine ⟨{ items := items, total := cartTotal items }, by rw [heq],
        cartTotal_eq_sum items, ?_⟩
      intro hnil
      simp only at hnil
      simp [hnil, cartTotal]

/-- C16, as stated, fails: the cart holds item A with the note "no onions"; adding
item A again with the note "extra spicy" succeeds and leaves one line, three of item
A, whose note is still "no onions". -/
theorem addToCart_drops_new_notes :
    (addToCart openStore notedSession (some sampleRestaurant) 50 (some 1)
      (some "extra spicy")).2.success = true ∧
    (viewCart (addToCart openStore notedSession (some sampleRestaurant) 50 (some 1)
      (some "extra spicy")).1).items.map (fun item => (item.menuItem, item.quantity, item.notes))
      = [(50, 3, "no onions")] := by
  decide

/-- C16, amended. When the cart already holds a line for the menu item, a successful
`addToCart` of that item with any notes merges into that line: the number of lines and
the number of lines for the item stay the same, and the notes of the line stay what
they were (the notes of the request are dropped). -/
theorem addToCart_keeps_notes (s : Store) (sess : Session)
    (reqRestaurant : Option Restaurant) (itemId : Id) (quantity : Option ℚ)
    (notes : Option String) (cart : Cart) (i : Nat) (hcart : sess.cart = some cart)
    (hidx : Js.findIndex (fun item => decide (item.menuItem = itemId)) cart.items = some i)
    (hok : (addToCart s sess reqRestaurant itemId quantity notes).2.success = true) :
    ∃ cart' line line',
      (addToCart s sess reqRestaurant itemId quantity notes).1.cart = some cart' ∧
      cart.items[i]? = some line ∧ cart'.items[i]? = some line' ∧
      line'.notes = line.notes ∧
      cart'.items.length = cart.items.length ∧
      (cart'.items.filter (fun item => decide (item.menuItem = itemId))).length =
        (cart.items.filter (fun item => decide (item.menuItem = itemId))).length := by
  obtain ⟨line, hline, _, _⟩ := findIndex_eq_some hidx
  rcases addToCart_cases s sess reqRestaurant itemId quantity notes with h | h
  · rw [h.1] at hok
    exact absurd hok (by decide)
  · obtain ⟨restaurant, menuItem, items, _, _, hitems, heq⟩ := h
    simp only [hcart, Option.getD_some, hidx, Option.some.injEq, reduceCtorEq, false_and,
      or_false] at hitems
    obtain ⟨k, rfl, rfl⟩ := hitems
    refine ⟨_, line,
      { line with
        quantity := line.quantity + Js.parseInt (quantity.getD 1)
        subtotal := (line.quantity + Js.parseInt (quantity.getD 1)) * menuItem.price },
      by rw [heq], hline, ?_, rfl, ?_, ?_⟩
    · simp only [List.getElem?_modify_eq, hline, Option.map_eq_map, Option.map_some']
    · simp
    · simp only [filter_menuItem_length]
      exact congrArg (List.count itemId) (modify_map_menuItem _ _ _ (fun _ => rfl))

theorem addToCart_keeps_notes_witness :
    (notedSession.cart = some notedCart ∧
      Js.findIndex (fun item => decide (item.menuItem = 50)) notedCart.items = some 0 ∧
      (addToCart openStore notedSession (some sampleRestaurant) 50 (some 1)
        (some "extra spicy")).2.success = true) ∧
    ∃ cart' line line',
      (addToCart openStore notedSession (some sampleRestaurant) 50 (some 1)
        (some "extra spicy")).1.cart = some cart' ∧
      notedCart.items[0]? = some line ∧ cart'.items[0]? = some line' ∧
      line'.notes = line.notes ∧
      cart'.items.length = notedCart.items.length ∧
      (cart'.items.filter (fun item => decide (item.menuItem = 50))).length =
        (notedCart.items.filter (fun item => decide (item.menuItem = 50))).length :=
  ⟨⟨rfl, rfl, rfl⟩,
    addToCart_keeps_notes openStore notedSession (some sampleRestaurant) 50 (some 1)
      (some "extra spicy") notedCart 0 rfl rfl rfl⟩

/-- C17. `addToCart` answers `success: false` when no available menu item of the
active restaurant has the requested id (the item does not exist, is unavailable, or
belongs to another restaurant); the session, with its cart or without one, is left as
it was. -/
theorem addToCart_missing_item (s : Store) (sess : Session)
    (reqRestaurant : Option Restaurant) (itemId : Id) (quantity : Option ℚ)
    (notes : Option String) (restaurant : Restaurant)
    (hrestaurant : (reqRestaurant <|> sess.restaurant) = some restaurant)
    (hmissing : ∀ m ∈ s.menuItems, m._id = itemId →
      m.isAvailable = false ∨ m.restaurant ≠ restaurant._id) :
    (addToCart s sess reqRestaurant itemId quantity notes).2.success = false ∧
      (addToCart s sess reqRestaurant itemId quantity notes).1 = sess ∧
      (addToCart s sess reqRestaurant itemId quantity notes).1.cart = sess.cart := by
  have hnone : findMenuItem s itemId restaurant._id = none := by
    unfold findMenuItem
    rw [List.find?_eq_none]
    intro m hm
    simp only [decide_eq_true_eq, not_and]
    intro hid hr
    rcases hmissing m hm hid with h | h
    · simp [h]
    · exact absurd hr h
  simp [addToCart, hrestaurant, hnone, Response.failure]

theorem addToCart_missing_item_witness :
    ((some sampleRestaurant <|> sampleSession.restaurant) = some sampleRestaurant ∧
      (∀ m ∈ openStore.menuItems, m._id = 99 →
        m.isAvailable = false ∨ m.restaurant ≠ sampleRestaurant._id)) ∧
    ((addToCart openStore sampleSession (some sampleRestaurant) 99 (some 1) none).2.success
        = false ∧
      (addToCart openStore sampleSession (some sampleRestaurant) 99 (some 1) none).1
        = sampleSession ∧
      (addToCart openStore sampleSession (some sampleRestaurant) 99 (some 1) none).1.cart
        = sampleSession.cart) :=
  ⟨⟨rfl, by decide⟩,
    addToCart_missing_item openStore sampleSession (some sampleRestaurant) 99 (some 1) none
      sampleRestaurant rfl (by decide)⟩

/-! ## Claims on table entry, table status and tenant scoping -/

/-- C18, as stated, fails: the sample customer, with two lines in the cart at table
"5", enters table "6"; the session now holds table "6" and still the two lines, which
`viewCart` shows and which `placeOrder` places as an order on table "6". -/
theorem tableEntry_keeps_previous_cart :
    (tableEntry twoTableStore sampleSession "demo" "6").2 = true ∧
    sampleSession.table = some freeTable ∧
    (tableEntry twoTableStore sampleSession "demo" "6").1.table = some otherTable ∧
    (viewCart (tableEntry twoTableStore sampleSession "demo" "6").1).items = sampleLines ∧
    ¬ ((viewCart (tableEntry twoTableStore sampleSession "demo" "6").1).items = []) ∧
    (placeOrder twoTableStore (tableEntry twoTableStore sampleSession "demo" "6").1
      (some sampleRestaurant) (some "5550100") none sampleDate).1.orders.map
        (fun o => (o.table, o.items.map (fun i => i.menuItem))) = [(11, [50, 51])] := by
  decide

/-- C18, amended. `tableEntry` leaves the cart of the session as it is, whatever
restaurant and table are entered: `viewCart` shows the same lines before and after.
When it succeeds it only replaces the restaurant and the table of the session, by
the active restaurant with the slug and its active table with the number. -/
theorem tableEntry_keeps_cart (s : Store) (sess : Session) (restaurantSlug tableNumber : String) :
    (tableEntry s sess restaurantSlug tableNumber).1.cart = sess.cart ∧
    viewCart (tableEntry s sess restaurantSlug tableNumber).1 = viewCart sess ∧
    ((tableEntry s sess restaurantSlug tableNumber).2 = false →
      (tableEntry s sess restaurantSlug tableNumber).1 = sess) ∧
    ((tableEntry s sess restaurantSlug tableNumber).2 = true →
      ∃ restaurant table,
        (tableEntry s sess restaurantSlug tableNumber).1 =
          { sess with restaurant := some restaurant, table := some table } ∧
        restaurant ∈ s.restaurants ∧ table ∈ s.tables ∧
        table.restaurant = restaurant._id ∧ table.tableNumber = tableNumber) := by
  unfold tableEntry viewCart
  split
  · simp
  · rename_i restaurant hr
    split
    · simp
    · rename_i table ht
      refine ⟨rfl, rfl, by simp, fun _ => ⟨restaurant, table, rfl,
        List.mem_of_find?_eq_some hr, List.mem_of_find?_eq_some ht, ?_, ?_⟩⟩
      · have := List.find?_some ht
        simp only [decide_eq_true_eq] at this
        exact this.1
      · have := List.find?_some ht
        simp only [decide_eq_true_eq] at this
        exact this.2.1

/-- C19. For a table found in the caller's restaurant, `updateTableStatus` with
`available` succeeds, sets the table's status to available and its current order to
null, and with `occupied`, `reserved` or `cleaning` succeeds and sets only the status;
in both cases the orders, whatever their status, are left as they were. -/
theorem updateTableStatus_effect (s : Store) (user : SessionUser) (tableId : Id)
    (status : String) (table : Table)
    (hfind : s.tables.find? (fun t =>
      decide (t._id = tableId ∧ some t.restaurant = user.restaurant)) = some table) :
    (status = "available" →
      (updateTableStatus s user tableId status).2.success = true ∧
      (updateTableStatus s user tableId status).1.tables =
        s.tables.map (fun t => if t._id = table._id then
          { table with status := TableStatus.available, currentOrder := none } else t) ∧
      (updateTableStatus s user tableId status).1.orders = s.orders) ∧
    (∀ st, (status = "occupied" ∧ st = TableStatus.occupied) ∨
        (status = "reserved" ∧ st = TableStatus.reserved) ∨
        (status = "cleaning" ∧ st = TableStatus.cleaning) →
      (updateTableStatus s user tableId status).2.success = true ∧
      (updateTableStatus s user tableId status).1.tables =
        s.tables.map (fun t => if t._id = table._id then { table with status := st } else t) ∧
      (updateTableStatus s user tableId status).1.orders = s.orders) := by
  unfold updateTableStatus
  rw [hfind]
  constructor
  · intro h
    subst h
    simp [TableStatus.ofString?]
  · intro st h
    rcases h with ⟨h, rfl⟩ | ⟨h, rfl⟩ | ⟨h, rfl⟩ <;> subst h <;>
      simp [TableStatus.ofString?]

theorem updateTableStatus_effect_witness :
    sampleStore.tables.find? (fun t =>
      decide (t._id = 10 ∧ some t.restaurant = sampleAdmin.restaurant)) = some sampleTable ∧
    sampleStore.orders.map (fun o => (o._id, o.status)) = [(1000, OrderStatus.pending)] ∧
    (("available" = "available" →
      (updateTableStatus sampleStore sampleAdmin 10 "available").2.success = true ∧
      (updateTableStatus sampleStore sampleAdmin 10 "available").1.tables =
        sampleStore.tables.map (fun t => if t._id = sampleTable._id then
          { sampleTable with status := TableStatus.available, currentOrder := none } else t) ∧
      (updateTableStatus sampleStore sampleAdmin 10 "available").1.orders
        = sampleStore.orders) ∧
    (∀ st, ("available" = "occupied" ∧ st = TableStatus.occupied) ∨
        ("available" = "reserved" ∧ st = TableStatus.reserved) ∨
        ("available" = "cleaning" ∧ st = TableStatus.cleaning) →
      (updateTableStatus sampleStore sampleAdmin 10 "available").2.success = true ∧
      (updateTableStatus sampleStore sampleAdmin 10 "available").1.tables =
        sampleStore.tables.map
          (fun t => if t._id = sampleTable._id then { sampleTable with status := st } else t) ∧
      (updateTableStatus sampleStore sampleAdmin 10 "available").1.orders
        = sampleStore.orders)) :=
  ⟨rfl, rfl, updateTableStatus_effect sampleStore sampleAdmin 10 "available" sampleTable rfl⟩

/-- C20. When no order with the requested id belongs to the caller's restaurant (the
order is in another restaurant), `updateOrderStatus` answers the failure `Order not
found`, the very answer it gives for an id that no order has, whatever status is
requested, and leaves the store (that order and every table) as it was; and the answer
of `updateOrderStatus` is the same in two stores that hold the same orders of the
caller's restaurant, whatever the other restaurants hold. -/
theorem updateOrderStatus_other_restaurant (s : Store) (user : SessionUser) (orderId : Id)
    (status : String) (now : Time) (r : Id) (hr : user.restaurant = some r)
    (hother : ∀ o ∈ s.orders, o._id = orderId → o.restaurant ≠ r) :
    updateOrderStatus s user orderId status now = (s, Response.failure "Order not found") ∧
    (∀ (s0 : Store) (id0 : Id) (status0 : String) (now0 : Time),
      (∀ o ∈ s0.orders, o._id ≠ id0) →
      (updateOrderStatus s0 user id0 status0 now0).2 = Response.failure "Order not found") ∧
    (∀ (s1 s2 : Store) (id0 : Id) (status0 : String) (now0 : Time),
      s1.orders.filter (fun o => decide (o.restaurant = r)) =
        s2.orders.filter (fun o => decide (o.restaurant = r)) →
      (updateOrderStatus s1 user id0 status0 now0).2 =
        (updateOrderStatus s2 user id0 status0 now0).2) := by
  refine ⟨?_, ?_, ?_⟩
  · have hnone : findOrder s orderId user.restaurant = none := by
      unfold findOrder
      rw [List.find?_eq_none]
      intro o ho
      simp only [decide_eq_true_eq, not_and, hr, Option.some.injEq]
      exact hother o ho
    simp [updateOrderStatus, hnone]
  · intro s0 id0 status0 now0 hno
    have hnone : findOrder s0 id0 user.restaurant = none := by
      unfold findOrder
      rw [List.find?_eq_none]
      intro o ho
      simp only [decide_eq_true_eq, not_and]
      intro hid
      exact absurd hid (hno o ho)
    simp [updateOrderStatus, hnone]
  · intro s1 s2 id0 status0 now0 hsame
    apply updateOrderStatus_response_congr
    rw [hr, findOrder_eq_find?_filter, findOrder_eq_find?_filter, hsame]

theorem updateOrderStatus_other_restaurant_witness :
    (otherStaff.restaurant = some 2 ∧
      (∀ o ∈ sampleStore.orders, o._id = 1000 → o.restaurant ≠ 2)) ∧
    (updateOrderStatus sampleStore otherStaff 1000 "preparing" 1704100060000 =
      (sampleStore, Response.failure "Order not found") ∧
    (∀ (s0 : Store) (id0 : Id) (status0 : String) (now0 : Time),
      (∀ o ∈ s0.orders, o._id ≠ id0) →
      (updateOrderStatus s0 otherStaff id0 status0 now0).2
        = Response.failure "Order not found") ∧
    (∀ (s1 s2 : Store) (id0 : Id) (status0 : String) (now0 : Time),
      s1.orders.filter (fun o => decide (o.restaurant = 2)) =
        s2.orders.filter (fun o => decide (o.restaurant = 2)) →
      (updateOrderStatus s1 otherStaff id0 status0 now0).2 =
        (updateOrderStatus s2 otherStaff id0 status0 now0).2)) :=
  ⟨⟨rfl, by decide⟩,
    updateOrderStatus_other_restaurant sampleStore otherStaff 1000 "preparing" 1704100060000 2
      rfl (by decide)⟩

/-! ## Lemmas on permissions, transitions and histories -/

theorem legalTransition_depth {a b : OrderStatus} (h : LegalTransition a b) :
    a.depth < b.depth := by
  cases a <;> cases b <;>
    simp [LegalTransition, validTransitions, OrderStatus.toString, OrderStatus.depth] at h ⊢

theorem transGen_depth {a b : OrderStatus} (h : Relation.TransGen LegalTransition a b) :
    a.depth < b.depth := by
  induction h with
  | single h1 => exact legalTransition_depth h1
  | tail _ h2 ih => exact lt_trans ih (legalTransition_depth h2)

theorem depth_le_three (a : OrderStatus) : a.depth ≤ 3 := by
  cases a <;> simp [OrderStatus.depth]

theorem chain_depth (l : List OrderStatus) :
    ∀ a, List.Chain LegalTransition a l → a.depth + l.length ≤ 3 := by
  induction l with
  | nil => intro a _; simpa using depth_le_three a
  | cons b l ih =>
    intro a h
    rw [List.chain_cons] at h
    have h1 := legalTransition_depth h.1
    have h2 := ih b h.2
    simp only [List.length_cons]
    omega

theorem legalTransition_of_mem {cur st : OrderStatus} {status : String}
    (hmem : status ∈ validTransitions cur) (hst : OrderStatus.ofString? status = some st) :
    LegalTransition cur st := by
  obtain ⟨st1, h1, _, h3⟩ := ofString?_of_mem_validTransitions hmem
  rw [hst] at h1
  have : st = st1 := Option.some.inj h1
  subst this
  unfold LegalTransition
  rw [h3]; exact hmem

theorem updateOrderStatus_success {s : Store} {user : SessionUser} {orderId : Id}
    {status : String} (now : Time) {order : Order}
    (hfind : findOrder s orderId user.restaurant = some order)
    (hmem : status ∈ validTransitions order.status) :
    ∃ saved, saved._id = order._id ∧ saved.table = order.table ∧
      saved.statusHistory = order.statusHistory ++
        [{ status := status, timestamp := now, updatedBy := user._id }] ∧
      OrderStatus.ofString? status = some saved.status ∧
      (updateOrderStatus s user orderId status now).1.orders =
        s.orders.map (fun x => if x._id = saved._id then saved else x) ∧
      (updateOrderStatus s user orderId status now).1.tables =
        (if status = "done" ∨ status = "cancelled" then
          s.tables.map (fun t => if t._id = order.table then
            { t with status := TableStatus.available, currentOrder := none } else t)
        else s.tables) := by
  obtain ⟨saved, _, hid, _, htab, hh, hst, _, _, hs⟩ := updateOrderStatus_of_mem now hfind hmem
  refine ⟨saved, hid, htab, hh, hst, ?_, ?_⟩
  · rw [hs]; split <;> rfl
  · rw [hs]; split <;> rfl

theorem placeOrder_history (s : Store) (sess : Session) (reqRestaurant : Option Restaurant)
    (phone notes : Option String) (now : Js.Date) :
    (placeOrder s sess reqRestaurant phone notes now).1.orders = s.orders ∨
    (∃ saved, (placeOrder s sess reqRestaurant phone notes now).1.orders = s.orders ++ [saved] ∧
      saved.status = OrderStatus.pending ∧ saved.statusHistory = []) := by
  rcases placeOrder_cases s sess reqRestaurant phone notes now with h | h
  · left; exact h.2.1
  · right
    obtain ⟨restaurant, table, cart, ph, s1, customer, s2, saved, _, _, _, _, _, _, hcust, hins,
      heq⟩ := h
    obtain ⟨ho, _, _, _⟩ := findOrCreateCustomer_eq_some hcust
    obtain ⟨_, hsaved, hs2, _⟩ := insertOrder_eq_some hins
    refine ⟨saved, ?_, ?_, ?_⟩
    · rw [heq, hs2]; simp [Store.findByIdAndUpdateTable, ho]
    · rw [hsaved]; simp [preSave, newOrder]
    · rw [hsaved]; simp [preSave, newOrder]

theorem reachable_history {s : Store} (h : Reachable s) :
    ∀ o ∈ s.orders, o.statusHistory.length ≤ o.status.depth := by
  induction h with
  | init s horders _ => simp [horders]
  | placeOrder s sess rr phone notes now _ ih =>
    rcases placeOrder_history s sess rr phone notes now with ho | ⟨saved, ho, hst, hh⟩
    · rw [ho]; exact ih
    · rw [ho]
      intro o hmem
      rcases List.mem_append.1 hmem with hm | hm
      · exact ih o hm
      · simp only [List.mem_singleton] at hm
        subst hm
        simp [hh]
  | updateOrderStatus s user orderId status now _ ih =>
    rcases updateOrderStatus_cases s user orderId status now with ⟨_, hs⟩ |
      ⟨order, _, hfind, hmem, _⟩
    · rw [hs]; exact ih
    · obtain ⟨saved, _, _, hh, hst, ho, _⟩ := updateOrderStatus_success now hfind hmem
      obtain ⟨hordmem, _, _⟩ := findOrder_eq_some hfind
      rw [ho]
      intro o hmem1
      obtain ⟨x, hx, hxe⟩ := List.mem_map.1 hmem1
      by_cases hid : x._id = saved._id
      · rw [if_pos hid] at hxe
        subst hxe
        have h1 := ih order hordmem
        have h2 := legalTransition_depth (legalTransition_of_mem hmem hst)
        rw [hh, List.length_append, List.length_singleton]
        omega
      · rw [if_neg hid] at hxe
        subst hxe
        exact ih x hx
  | updateTableStatus s user tableId status _ ih =>
    rw [(updateTableStatus_orders s user tableId status).1]; exact ih

theorem validTransitions_terminal {cur : OrderStatus} (h : cur.nonTerminal = false) :
    validTransitions cur = [] := by
  cases cur <;> simp [OrderStatus.nonTerminal, validTransitions] at h ⊢

/-! ## Claims on the status workflow as a whole -/

/-- C26. No status is reachable from itself through one or more legal transitions, and
a chain of legal transitions has at most three steps.  In every reachable state every
order has at most three entries in its status history (one per successful transition
since it was placed), and no call of `updateOrderStatus` changes an order whose status
is done or cancelled. -/
theorem transitions_acyclic (s : Store) (h : Reachable s) :
    (∀ a, ¬ Relation.TransGen LegalTransition a a) ∧
    (∀ a l, List.Chain LegalTransition a l → l.length ≤ 3) ∧
    (∀ o ∈ s.orders, o.statusHistory.length ≤ 3) ∧
    (∀ (user : SessionUser) (orderId : Id) (status : String) (now : Time),
      List.Forall₂ (fun o o' => o.status.nonTerminal = false → o' = o)
        s.orders (updateOrderStatus s user orderId status now).1.orders) := by
  refine ⟨fun a ha => lt_irrefl _ (transGen_depth ha), ?_, ?_, ?_⟩
  · intro a l hl
    have := chain_depth l a hl
    omega
  · intro o ho
    exact le_trans (reachable_history h o ho) (depth_le_three _)
  · intro user orderId status now
    rcases updateOrderStatus_cases s user orderId status now with ⟨_, hs⟩ |
      ⟨order, saved, hfind, hmem, hsid, _, _, _, ho, _⟩
    · rw [hs, List.forall₂_same]
      intro o _ _
      rfl
    · obtain ⟨hordmem, _, _⟩ := findOrder_eq_some hfind
      rw [ho, List.forall₂_map_right_iff, List.forall₂_same]
      intro o homem hterm
      by_cases hid : o._id = saved._id
      · have heq : o = order :=
          List.inj_on_of_nodup_map (reachable_ids h).2 homem hordmem (hid.trans hsid)
        subst heq
        rw [validTransitions_terminal hterm] at hmem
        simp at hmem
      · rw [if_neg hid]

theorem reachable_doneStore : Reachable doneStore :=
  Reachable.updateOrderStatus _ _ _ _ _ (Reachable.updateOrderStatus _ _ _ _ _
    (Reachable.updateOrderStatus _ _ _ _ _
      (Reachable.placeOrder _ _ _ _ _ _ (Reachable.init openStore rfl (by decide)))))

theorem transitions_acyclic_witness :
    Reachable doneStore ∧
    doneStore.orders.map (fun o => (o._id, o.status, o.statusHistory.length)) =
      [(2001, OrderStatus.done, 3)] ∧
    ((∀ a, ¬ Relation.TransGen LegalTransition a a) ∧
    (∀ a l, List.Chain LegalTransition a l → l.length ≤ 3) ∧
    (∀ o ∈ doneStore.orders, o.statusHistory.length ≤ 3) ∧
    (∀ (user : SessionUser) (orderId : Id) (status : String) (now : Time),
      List.Forall₂ (fun o o' => o.status.nonTerminal = false → o' = o)
        doneStore.orders (updateOrderStatus doneStore user orderId status now).1.orders)) :=
  ⟨reachable_doneStore, by decide, transitions_acyclic doneStore reachable_doneStore⟩

/-! ## Claims on permissions and on the superadmin -/

/-- C25. A staff account has the permission `update_order_status` and an admin account
has not, although the middleware `isStaff` admits the admin to the staff route and
`updateOrderStatus` performs the transition for the admin.  It is the only permission
of a staff member that an admin lacks; a superadmin has every permission. -/
theorem admin_lacks_update_order_status :
    staffAccount.role = Role.staff ∧ adminAccount.role = Role.admin ∧
    hasPermission staffAccount "update_order_status" = true ∧
    hasPermission adminAccount "update_order_status" = false ∧
    ¬ (hasPermission staffAccount "update_order_status" = true →
        hasPermission adminAccount "update_order_status" = true) ∧
    isStaff { emptySession with user := some (sessionUserOf adminAccount) } = true ∧
    (updateOrderStatus sampleStore (sessionUserOf adminAccount) sampleOrder._id "preparing"
      1704100100000).2.success = true ∧
    (∀ (staff admin root : User) (p : String), staff.role = Role.staff →
      admin.role = Role.admin → root.role = Role.superadmin →
      hasPermission root p = true ∧
      (hasPermission staff p = true → p ≠ "update_order_status" →
        hasPermission admin p = true)) := by
  refine ⟨rfl, rfl, by decide, by decide, by decide, by decide, by decide, ?_⟩
  intro staff admin root p hs ha hr
  unfold hasPermission
  rw [hs, ha, hr]
  refine ⟨rfl, ?_⟩
  intro h1 h2
  simp only [List.contains_eq_any_beq, List.any_cons, List.any_nil, Bool.or_false,
    Bool.or_eq_true, beq_iff_eq] at h1 ⊢
  rcases h1 with h1 | h1
  · subst h1; simp
  · exact absurd h1 h2

/-- C21. A superadmin passes the middleware `isStaff`, but the session that `POST
/login` builds for the superadmin account carries no restaurant, so the query of
`updateOrderStatus` finds no order: whatever the store, the order and the requested
status, the answer is "Order not found" and nothing is written.  So it is for the
pending sample order and the legal request `preparing`. -/
theorem superadmin_finds_no_order :
    isStaff { emptySession with user := some (sessionUserOf rootAccount) } = true ∧
    sampleOrder ∈ sampleStore.orders ∧ "preparing" ∈ validTransitions sampleOrder.status ∧
    (updateOrderStatus sampleStore (sessionUserOf rootAccount) sampleOrder._id "preparing"
      1704100100000).2.success = false ∧
    (∀ (s : Store) (orderId : Id) (status : String) (now : Time),
      updateOrderStatus s (sessionUserOf rootAccount) orderId status now =
        (s, Response.failure "Order not found")) := by
  refine ⟨by decide, List.mem_cons_self _ _, by decide, by decide, ?_⟩
  intro s orderId status now
  have hfind : findOrder s orderId (sessionUserOf rootAccount).restaurant = none := by
    unfold findOrder
    rw [List.find?_eq_none]
    intro o _
    simp [sessionUserOf, rootAccount]
  simp [updateOrderStatus, hfind]

/-! ## Claims on `deleteRestaurant` -/

/-- C24. `deleteRestaurant` removes a restaurant exactly when no order references it.
With an order of the restaurant in the store it answers `success: false` and writes
nothing.  With none it answers `success: true`, the restaurants that remain are those
with another identifier, the users that remain are those of another restaurant (or of
none), and the other collections are as before. -/
theorem deleteRestaurant_iff_no_order (s : Store) (restaurantId : Id) :
    ((∃ o ∈ s.orders, o.restaurant = restaurantId) →
      (deleteRestaurant s restaurantId).2.success = false ∧
      (deleteRestaurant s restaurantId).1 = s) ∧
    ((¬ ∃ o ∈ s.orders, o.restaurant = restaurantId) →
      (deleteRestaurant s restaurantId).2.success = true ∧
      (deleteRestaurant s restaurantId).1.restaurants =
        s.restaurants.filter (fun r => decide (r._id ≠ restaurantId)) ∧
      (deleteRestaurant s restaurantId).1.users =
        s.users.filter (fun u => decide (u.restaurant ≠ some restaurantId)) ∧
      (deleteRestaurant s restaurantId).1.orders = s.orders ∧
      (deleteRestaurant s restaurantId).1.tables = s.tables ∧
      (deleteRestaurant s restaurantId).1.menuItems = s.menuItems) ∧
    (∀ r ∈ s.restaurants, r._id = restaurantId →
      (r ∉ (deleteRestaurant s restaurantId).1.restaurants ↔
        ¬ ∃ o ∈ s.orders, o.restaurant = restaurantId)) := by
  have hcount : (0 < (s.orders.filter (fun o => decide (o.restaurant = restaurantId))).length) ↔
      ∃ o ∈ s.orders, o.restaurant = restaurantId := by
    rw [List.length_pos_iff_exists_mem]
    simp [List.mem_filter]
  refine ⟨?_, ?_, ?_⟩
  · intro hex
    have := hcount.2 hex
    simp [deleteRestaurant, this, Response.failure]
  · intro hno
    have : ¬ (0 < (s.orders.filter (fun o => decide (o.restaurant = restaurantId))).length) :=
      fun hc => hno (hcount.1 hc)
    simp [deleteRestaurant, this, Response.ok]
  · intro r hr hid
    by_cases hex : ∃ o ∈ s.orders, o.restaurant = restaurantId
    · have := hcount.2 hex
      simp [deleteRestaurant, this, hr, hex]
    · have : ¬ (0 < (s.orders.filter (fun o => decide (o.restaurant = restaurantId))).length) :=
        fun hc => hex (hcount.1 hc)
      simp [deleteRestaurant, this, hex, List.mem_filter, hid]

theorem deleteRestaurant_iff_no_order_witness :
    (∃ o ∈ placedStore.orders, o.restaurant = 1) ∧
    (deleteRestaurant placedStore 1).2.success = false ∧
    (deleteRestaurant placedStore 1).1 = placedStore ∧
    (¬ ∃ o ∈ registeredStore.orders, o.restaurant = 2) ∧
    (deleteRestaurant registeredStore 2).2.success = true ∧
    (deleteRestaurant registeredStore 2).1.restaurants = [sampleRestaurant] ∧
    registeredStore.users.map (fun u => u.username) = ["customer_5550100"] ∧
    (deleteRestaurant registeredStore 2).1.users = [] :=
  ⟨by decide,
    ((deleteRestaurant_iff_no_order placedStore 1).1 (by decide)).1,
    ((deleteRestaurant_iff_no_order placedStore 1).1 (by decide)).2,
    by decide, by decide, by decide, by decide, by decide⟩

/-! ## Lemmas on tables and their current orders -/

theorem placeOrder_tables (s : Store) (sess : Session) (reqRestaurant : Option Restaurant)
    (phone notes : Option String) (now : Js.Date) :
    ((placeOrder s sess reqRestaurant phone notes now).1.orders = s.orders ∧
      (placeOrder s sess reqRestaurant phone notes now).1.tables = s.tables) ∨
    (∃ table saved, sess.table = some table ∧
      (placeOrder s sess reqRestaurant phone notes now).1.orders = s.orders ++ [saved] ∧
      saved.table = table._id ∧ saved.status = OrderStatus.pending ∧
      (placeOrder s sess reqRestaurant phone notes now).1.tables =
        s.tables.map (fun t => if t._id = table._id then
          { t with status := TableStatus.occupied, currentOrder := some saved._id } else t)) := by
  rcases placeOrder_cases s sess reqRestaurant phone notes now with h | h
  · left; exact ⟨h.2.1, h.2.2.1⟩
  · right
    obtain ⟨restaurant, table, cart, ph, s1, customer, s2, saved, _, ht, _, _, _, _, hcust, hins,
      heq⟩ := h
    obtain ⟨ho, htb, _, _⟩ := findOrCreateCustomer_eq_some hcust
    obtain ⟨_, hsaved, hs2, _⟩ := insertOrder_eq_some hins
    refine ⟨table, saved, ht, ?_, ?_, ?_, ?_⟩
    · rw [heq, hs2]; simp [Store.findByIdAndUpdateTable, ho]
    · rw [hsaved]; simp [preSave, newOrder]
    · rw [hsaved]; simp [preSave, newOrder]
    · rw [heq, hs2]; simp [Store.findByIdAndUpdateTable, htb]

theorem updateTableStatus_tables (s : Store) (user : SessionUser) (tableId : Id)
    (status : String) :
    ∀ t ∈ (updateTableStatus s user tableId status).1.tables,
      ∃ t0 ∈ s.tables, t._id = t0._id ∧
        (t.currentOrder = none ∨ t.currentOrder = t0.currentOrder) := by
  unfold updateTableStatus
  split
  · intro t ht; exact ⟨t, ht, rfl, Or.inr rfl⟩
  · rename_i table hfind
    have htm := List.mem_of_find?_eq_some hfind
    split
    · intro t ht; exact ⟨t, ht, rfl, Or.inr rfl⟩
    · intro t ht
      simp only [List.mem_map] at ht
      obtain ⟨x, hx, hxe⟩ := ht
      by_cases hid : x._id = table._id
      · rw [if_pos hid] at hxe
        subst hxe
        refine ⟨table, htm, rfl, ?_⟩
        by_cases hs : status = "available"
        · left; simp [hs]
        · right; simp [hs]
      · rw [if_neg hid] at hxe
        subst hxe
        exact ⟨x, hx, rfl, Or.inr rfl⟩

theorem nonTerminal_of_mem {cur st : OrderStatus} {status : String}
    (hmem : status ∈ validTransitions cur) (hst : OrderStatus.ofString? status = some st)
    (hne : ¬ (status = "done" ∨ status = "cancelled")) : st.nonTerminal = true := by
  obtain ⟨st1, h1, _, h3⟩ := ofString?_of_mem_validTransitions hmem
  rw [hst] at h1
  have : st = st1 := Option.some.inj h1
  subst this
  cases st <;> simp [OrderStatus.toString] at h3 <;> subst h3 <;>
    simp [OrderStatus.nonTerminal] at hne ⊢

/-! ## Claims on the current order of a table -/

/-- C28. In every state reachable through `placeOrder`, `updateOrderStatus` and
`updateTableStatus` from a store without orders whose tables have no current order, a
table's current order, when it has one, is a stored order that was placed on that
table and whose status is pending, preparing or served. -/
theorem currentOrder_is_active (s : Store) (h : Reachable s) :
    ∀ t ∈ s.tables, ∀ orderId, t.currentOrder = some orderId →
      ∃ o ∈ s.orders, o._id = orderId ∧ o.table = t._id ∧ o.status.nonTerminal = true := by
  induction h with
  | init s _ htables =>
    intro t ht orderId hcur
    rw [htables t ht] at hcur
    exact absurd hcur (by simp)
  | placeOrder s sess rr phone notes now _ ih =>
    rcases placeOrder_tables s sess rr phone notes now with ⟨ho, htb⟩ |
      ⟨table, saved, _, ho, hst, hpend, htb⟩
    · rw [ho, htb]; exact ih
    · rw [ho, htb]
      intro t ht orderId hcur
      obtain ⟨x, hx, hxe⟩ := List.mem_map.1 ht
      by_cases hid : x._id = table._id
      · rw [if_pos hid] at hxe
        subst hxe
        simp only [Option.some.injEq] at hcur
        refine ⟨saved, by simp, hcur, ?_, by rw [hpend]; rfl⟩
        rw [hst]; exact hid.symm
      · rw [if_neg hid] at hxe
        subst hxe
        obtain ⟨o, hom, h1, h2, h3⟩ := ih x hx orderId hcur
        exact ⟨o, List.mem_append_left _ hom, h1, h2, h3⟩
  | updateOrderStatus s user orderId status now hreach ih =>
    rcases updateOrderStatus_cases s user orderId status now with ⟨_, hs⟩ |
      ⟨order, _, hfind, hmem, _⟩
    · rw [hs]; exact ih
    · obtain ⟨saved, hsid, hstab, _, hst, ho, htb⟩ := updateOrderStatus_success now hfind hmem
      obtain ⟨hordmem, _, _⟩ := findOrder_eq_some hfind
      have hkeep : ∀ t ∈ s.tables, ∀ oid, t.currentOrder = some oid →
          (oid = order._id → t._id = order.table) ∧
          (oid ≠ order._id ∨ ¬ (status = "done" ∨ status = "cancelled") →
            ∃ o ∈ (updateOrderStatus s user orderId status now).1.orders,
              o._id = oid ∧ o.table = t._id ∧ o.status.nonTerminal = true) := by
        intro t ht oid hcur
        obtain ⟨o, hom, h1, h2, h3⟩ := ih t ht oid hcur
        constructor
        · intro hoid
          have heq : o = order :=
            List.inj_on_of_nodup_map (reachable_ids hreach).2 hom hordmem (h1.trans hoid)
          rw [← heq]; exact h2.symm
        · intro hcase
          rw [ho]
          by_cases hid : o._id = saved._id
          · have heq : o = order :=
              List.inj_on_of_nodup_map (reachable_ids hreach).2 hom hordmem (hid.trans hsid)
            have hoid : oid = order._id := by rw [← h1, heq]
            rcases hcase with hc | hc
            · exact absurd hoid hc
            · refine ⟨saved, ?_, ?_, ?_, nonTerminal_of_mem hmem hst hc⟩
              · exact List.mem_map.2 ⟨o, hom, by rw [if_pos hid]⟩
              · rw [hsid, hoid]
              · rw [hstab, ← heq]; exact h2
          · exact ⟨o, List.mem_map.2 ⟨o, hom, by rw [if_neg hid]⟩, h1, h2, h3⟩
      intro t ht oid hcur
      rw [htb] at ht
      by_cases hterm : status = "done" ∨ status = "cancelled"
      · rw [if_pos hterm] at ht
        obtain ⟨x, hx, hxe⟩ := List.mem_map.1 ht
        by_cases hid : x._id = order.table
        · rw [if_pos hid] at hxe
          subst hxe
          simp at hcur
        · rw [if_neg hid] at hxe
          subst hxe
          have hne : oid ≠ order._id := fun hoid => hid ((hkeep x hx oid hcur).1 hoid)
          exact (hkeep x hx oid hcur).2 (Or.inl hne)
      · rw [if_neg hterm] at ht
        exact (hkeep t ht oid hcur).2 (Or.inr hterm)
  | updateTableStatus s user tableId status _ ih =>
    intro t ht orderId hcur
    obtain ⟨t0, ht0, hid, hc⟩ := updateTableStatus_tables s user tableId status t ht
    rw [(updateTableStatus_orders s user tableId status).1]
    rcases hc with hc | hc
    · rw [hc] at hcur; exact absurd hcur (by simp)
    · rw [hc] at hcur
      obtain ⟨o, hom, h1, h2, h3⟩ := ih t0 ht0 orderId hcur
      exact ⟨o, hom, h1, by rw [h2, hid], h3⟩

theorem currentOrder_is_active_witness :
    Reachable placedStore ∧
    placedStore.tables.map (fun t => (t._id, t.currentOrder)) = [(10, some 2001)] ∧
    placedStore.orders.map (fun o => (o._id, o.table, o.status)) =
      [(2001, 10, OrderStatus.pending)] ∧
    (∀ t ∈ placedStore.tables, ∀ orderId, t.currentOrder = some orderId →
      ∃ o ∈ placedStore.orders,
        o._id = orderId ∧ o.table = t._id ∧ o.status.nonTerminal = true) :=
  ⟨Reachable.placeOrder _ _ _ _ _ _ (Reachable.init openStore rfl (by decide)),
    by decide, by decide,
    currentOrder_is_active placedStore
      (Reachable.placeOrder _ _ _ _ _ _ (Reachable.init openStore rfl (by decide)))⟩

/-! ## Lemmas on customer accounts -/

theorem findCustomer_eq_head? (s : Store) (phone : String) (restaurantId : Id) :
    findCustomer s phone restaurantId = (customersWith s restaurantId (Js.trim phone)).head? := by
  unfold findCustomer customersWith
  rw [List.filter_head?]

theorem findOrCreateCustomer_cases (s : Store) (phone : String) (restaurantId : Id) :
    (∃ c, findCustomer s phone restaurantId = some c ∧
      findOrCreateCustomer s phone restaurantId = some (s, c)) ∨
    (findCustomer s phone restaurantId = none ∧
      (findOrCreateCustomer s phone restaurantId = none ∨
        findOrCreateCustomer s phone restaurantId =
          some ({ s with users := s.users ++ [newCustomer s.nextId phone restaurantId],
                         nextId := s.nextId + 1 },
            newCustomer s.nextId phone restaurantId))) := by
  unfold findOrCreateCustomer
  cases hfind : findCustomer s phone restaurantId with
  | some c => left; exact ⟨c, rfl, rfl⟩
  | none =>
    right
    refine ⟨rfl, ?_⟩
    simp only
    cases hins : s.insertUser (newCustomer s.nextId phone restaurantId) with
    | none => left; rfl
    | some s1 =>
      right
      rw [insertUser_eq_some hins]
      rfl

theorem customersWith_append (s : Store) (u : User) (n : Id) (restaurantId : Id)
    (phone : String) :
    customersWith { s with users := s.users ++ [u], nextId := n } restaurantId phone =
      customersWith s restaurantId phone ++
        (if u.phone = some phone ∧ u.role = Role.customer ∧ u.restaurant = some restaurantId
          then [u] else []) := by
  unfold customersWith
  simp only [List.filter_append, List.filter_cons, List.filter_nil]
  by_cases h : u.phone = some phone ∧ u.role = Role.customer ∧ u.restaurant = some restaurantId
  · simp [h]
  · simp [h]

theorem findOrCreateCustomer_unique {s s1 : Store} {phone : String} {restaurantId : Id}
    {c : User} (hinv : ∀ r p, (customersWith s r p).length ≤ 1)
    (h : findOrCreateCustomer s phone restaurantId = some (s1, c)) :
    ∀ r p, (customersWith s1 r p).length ≤ 1 := by
  rcases findOrCreateCustomer_cases s phone restaurantId with ⟨c0, _, heq⟩ | ⟨hnone, heq | heq⟩
  · rw [heq] at h
    simp only [Option.some.injEq, Prod.mk.injEq] at h
    rw [← h.1]; exact hinv
  · rw [heq] at h; simp at h
  · rw [heq] at h
    simp only [Option.some.injEq, Prod.mk.injEq] at h
    rw [← h.1]
    intro r p
    rw [customersWith_append]
    split
    · rename_i hm
      simp only [newCustomer] at hm
      obtain ⟨hp, _, hr⟩ := hm
      simp only [Option.some.injEq] at hp hr
      subst hp hr
      rw [findCustomer_eq_head?] at hnone
      rw [List.head?_eq_none_iff] at hnone
      rw [hnone]; simp
    · simpa using hinv r p

theorem placeOrder_users (s : Store) (sess : Session) (reqRestaurant : Option Restaurant)
    (phone notes : Option String) (now : Js.Date) :
    (placeOrder s sess reqRestaurant phone notes now).1.users = s.users ∨
    (∃ ph restaurantId s1 c, findOrCreateCustomer s ph restaurantId = some (s1, c) ∧
      (placeOrder s sess reqRestaurant phone notes now).1.users = s1.users) := by
  unfold placeOrder
  split
  · rename_i restaurant table hr ht
    split
    · left; rfl
    · split
      · left; rfl
      · split
        · left; rfl
        · rename_i ph
          split
          · left; rfl
          · split
            · left; rfl
            · rename_i s1 customer hcust
              right
              refine ⟨ph, restaurant._id, s1, customer, hcust, ?_⟩
              simp only
              split
              · rfl
              · rename_i s2 saved hins
                obtain ⟨_, _, hs2, _⟩ := insertOrder_eq_some hins
                rw [hs2]
                rfl
  · left; rfl

theorem customerLogin_users (s : Store) (sess : Session) (phone : Option String)
    (restaurantId : Option Id) :
    (customerLogin s sess phone restaurantId).1.users = s.users ∨
    (∃ ph r s1 c, findOrCreateCustomer s ph r = some (s1, c) ∧
      (customerLogin s sess phone restaurantId).1.users = s1.users) := by
  unfold customerLogin
  split
  · rename_i ph r
    split
    · left; rfl
    · split
      · left; rfl
      · rename_i s1 customer hcust
        right
        exact ⟨ph, r, s1, customer, hcust, rfl⟩
  · left; rfl

theorem customersWith_congr {s s1 : Store} (h : s1.users = s.users) (r : Id) (p : String) :
    customersWith s1 r p = customersWith s r p := by
  unfold customersWith
  rw [h]

theorem reachable_customers {s : Store} (h : CustomerReachable s) :
    ∀ r p, (customersWith s r p).length ≤ 1 := by
  induction h with
  | init s h => exact h
  | placeOrder s sess rr phone notes now _ ih =>
    rcases placeOrder_users s sess rr phone notes now with hu | ⟨ph, r, s1, c, hcust, hu⟩
    · intro r p; rw [customersWith_congr hu]; exact ih r p
    · intro r0 p
      rw [customersWith_congr hu]
      exact findOrCreateCustomer_unique ih hcust r0 p
  | customerLogin s sess phone restaurantId _ ih =>
    rcases customerLogin_users s sess phone restaurantId with hu | ⟨ph, r, s1, c, hcust, hu⟩
    · intro r p; rw [customersWith_congr hu]; exact ih r p
    · intro r0 p
      rw [customersWith_congr hu]
      exact findOrCreateCustomer_unique ih hcust r0 p

/-! ## Claims on customer accounts -/

/-- C22. In every state reachable through `placeOrder` and `customerLogin`, a
restaurant has at most one customer account with a given phone number.  The
resolution of a phone number (trimmed, as the schema stores it) in a restaurant
returns the existing account and writes nothing when there is one; an account that
it returns is either that stored account or a new one, appended to the users when
the restaurant had none with the phone number. -/
theorem customer_unique (s : Store) (h : CustomerReachable s) :
    (∀ restaurantId phone, (customersWith s restaurantId phone).length ≤ 1) ∧
    (∀ phone restaurantId,
      (∀ c ∈ customersWith s restaurantId (Js.trim phone),
        findOrCreateCustomer s phone restaurantId = some (s, c)) ∧
      (∀ s1 c, findOrCreateCustomer s phone restaurantId = some (s1, c) →
        customersWith s1 restaurantId (Js.trim phone) = [c] ∧
        ((c ∈ customersWith s restaurantId (Js.trim phone) ∧ s1 = s) ∨
          (customersWith s restaurantId (Js.trim phone) = [] ∧
            s1.users = s.users ++ [c])))) := by
  have hinv := reachable_customers h
  refine ⟨hinv, ?_⟩
  intro phone restaurantId
  have hsingle : ∀ c ∈ customersWith s restaurantId (Js.trim phone),
      customersWith s restaurantId (Js.trim phone) = [c] := by
    intro c hc
    have hlen := hinv restaurantId (Js.trim phone)
    cases hl : customersWith s restaurantId (Js.trim phone) with
    | nil => rw [hl] at hc; simp at hc
    | cons a l =>
      rw [hl] at hc hlen
      cases l with
      | nil => simp at hc; rw [hc]
      | cons b l => simp at hlen
  constructor
  · intro c hc
    rcases findOrCreateCustomer_cases s phone restaurantId with ⟨c0, hf, heq⟩ | ⟨hnone, _⟩
    · rw [findCustomer_eq_head?, hsingle c hc] at hf
      simp only [List.head?_cons, Option.some.injEq] at hf
      rw [heq, hf]
    · rw [findCustomer_eq_head?, hsingle c hc] at hnone
      simp at hnone
  · intro s1 c hres
    rcases findOrCreateCustomer_cases s phone restaurantId with ⟨c0, hf, heq⟩ |
      ⟨hnone, heq | heq⟩
    · rw [heq] at hres
      simp only [Option.some.injEq, Prod.mk.injEq] at hres
      obtain ⟨rfl, rfl⟩ := hres
      rw [findCustomer_eq_head?] at hf
      have hc : c0 ∈ customersWith s restaurantId (Js.trim phone) := List.mem_of_mem_head? hf
      exact ⟨hsingle c0 hc, Or.inl ⟨hc, rfl⟩⟩
    · rw [heq] at hres; simp at hres
    · rw [heq] at hres
      simp only [Option.some.injEq, Prod.mk.injEq] at hres
      obtain ⟨rfl, rfl⟩ := hres
      rw [findCustomer_eq_head?, List.head?_eq_none_iff] at hnone
      refine ⟨?_, Or.inr ⟨hnone, rfl⟩⟩
      rw [customersWith_append, hnone]
      simp [newCustomer]

theorem reachable_registeredStore : CustomerReachable registeredStore :=
  CustomerReachable.customerLogin _ _ _ _
    (CustomerReachable.init chainStore (by intro r p; simp [customersWith, chainStore]))

theorem customer_unique_witness :
    CustomerReachable registeredStore ∧
    registeredStore.users.map (fun u => (u._id, u.phone, u.restaurant)) =
      [(2000, some "5550100", some 2)] ∧
    ((∀ restaurantId phone, (customersWith registeredStore restaurantId phone).length ≤ 1) ∧
    (∀ phone restaurantId,
      (∀ c ∈ customersWith registeredStore restaurantId (Js.trim phone),
        findOrCreateCustomer registeredStore phone restaurantId = some (registeredStore, c)) ∧
      (∀ s1 c, findOrCreateCustomer registeredStore phone restaurantId = some (s1, c) →
        customersWith s1 restaurantId (Js.trim phone) = [c] ∧
        ((c ∈ customersWith registeredStore restaurantId (Js.trim phone) ∧
            s1 = registeredStore) ∨
          (customersWith registeredStore restaurantId (Js.trim phone) = [] ∧
            s1.users = registeredStore.users ++ [c]))))) :=
  ⟨reachable_registeredStore, by decide, customer_unique registeredStore reachable_registeredStore⟩

/-! ## Claims on the customer of another restaurant -/

/-- C23. The phone number 5550100 is registered as a customer of the second
restaurant.  When the same number places an order at the sample restaurant, no customer
of that restaurant is found, the new account gets the user name `customer_5550100`
again, the unique index on `username` refuses it, and `placeOrder` answers "Error
placing order": no customer of the sample restaurant and no order are stored.  The same
request succeeds while the number is registered nowhere. -/
theorem placeOrder_phone_of_other_restaurant :
    registeredStore.users.map (fun u => (u.username, u.phone, u.role, u.restaurant)) =
      [("customer_5550100", some "5550100", Role.customer, some 2)] ∧
    findCustomer registeredStore "5550100" sampleRestaurant._id = none ∧
    (newCustomer registeredStore.nextId "5550100" sampleRestaurant._id).username =
      "customer_5550100" ∧
    findOrCreateCustomer registeredStore "5550100" sampleRestaurant._id = none ∧
    (placeOrder registeredStore sampleSession (some sampleRestaurant) (some "5550100") none
      sampleDate).2.2 = Response.failure "Error placing order" ∧
    (placeOrder registeredStore sampleSession (some sampleRestaurant) (some "5550100") none
      sampleDate).1.orders = [] ∧
    (placeOrder registeredStore sampleSession (some sampleRestaurant) (some "5550100") none
      sampleDate).1.users = registeredStore.users ∧
    (placeOrder chainStore sampleSession (some sampleRestaurant) (some "5550100") none
      sampleDate).2.2.success = true :=
  ⟨by decide, by decide, by decide, by decide, by decide, by decide, by decide, by decide⟩

/-! ## Claims on cart lines, prices and tenants of an order -/

theorem placeOrder_quantities (s : Store) (sess : Session) (reqRestaurant : Option Restaurant)
    (phone notes : Option String) (now : Js.Date) :
    ∀ o ∈ (placeOrder s sess reqRestaurant phone notes now).1.orders,
      o ∈ s.orders ∨ ∀ i ∈ o.items, 1 ≤ i.quantity := by
  rcases placeOrder_cases s sess reqRestaurant phone notes now with h | h
  · intro o ho
    rw [h.2.1] at ho
    exact Or.inl ho
  · obtain ⟨restaurant, table, cart, ph, s1, customer, s2, saved, _, _, _, _, _, _, hcust, hins,
      heq⟩ := h
    obtain ⟨ho1, _, _, _⟩ := findOrCreateCustomer_eq_some hcust
    obtain ⟨hvalid, hsaved, hs2, _⟩ := insertOrder_eq_some hins
    intro o ho
    rw [heq, hs2] at ho
    simp only [Store.findByIdAndUpdateTable, ho1, List.mem_append, List.mem_singleton] at ho
    rcases ho with ho | ho
    · exact Or.inl ho
    · right
      subst ho
      intro i hi
      rw [hsaved] at hi
      simp only [preSave, List.mem_map] at hi
      obtain ⟨j, hj, hji⟩ := hi
      simp only [Order.valid, Bool.and_eq_true, List.all_eq_true] at hvalid
      have hv := hvalid.2 j hj
      simp only [LineItem.valid, decide_eq_true_eq] at hv
      rw [← hji]
      exact hv.2.2

/-- C27. A customer at table "5" with an empty cart adds item A with the quantity 0:
`addToCart` answers `success: true` and the cart holds a line of quantity 0, which
`updateCartItem` would have removed.  The validator `min: 1` of the order lines then
refuses the cart: `placeOrder` answers "Error placing order".  Every line of an order
that `placeOrder` does store has a quantity of at least 1. -/
theorem addToCart_zero_quantity :
    tableSession.cart = none ∧
    (addToCart chainStore tableSession (some sampleRestaurant) 50 (some 0) none).2.success
      = true ∧
    (viewCart zeroSession).items.map (fun i => (i.menuItem, i.quantity)) = [(50, 0)] ∧
    ¬ (∀ i ∈ (viewCart zeroSession).items, 1 ≤ i.quantity) ∧
    (placeOrder chainStore zeroSession (some sampleRestaurant) (some "5550100") none
      sampleDate).2.2 = Response.failure "Error placing order" ∧
    (∀ (s : Store) (sess : Session) (reqRestaurant : Option Restaurant)
        (phone notes : Option String) (now : Js.Date),
      ∀ o ∈ (placeOrder s sess reqRestaurant phone notes now).1.orders,
        o ∈ s.orders ∨ ∀ i ∈ o.items, 1 ≤ i.quantity) :=
  ⟨by decide, by decide, by decide, by decide, by decide, placeOrder_quantities⟩

/-- C29. A customer adds item A once at the price 10; the admin raises the price to
12; the customer adds item A once more.  The line keeps the captured price 10 with the
quantity 2, but its subtotal is computed from the new menu price: the cart shows the
total 24.  `placeOrder` stores the order with the subtotal 20, recomputed by the
`pre('save')` hook from the captured price. -/
theorem cart_total_differs_from_order_subtotal :
    (viewCart firstAddSession).items.map (fun i => (i.menuItem, i.price, i.quantity, i.subtotal))
      = [(50, 10, 1, 10)] ∧
    repricedStore.menuItems.map (fun m => (m._id, m.price)) = [(50, 12), (51, 5), (60, 8)] ∧
    (viewCart secondAddSession).items.map
      (fun i => (i.menuItem, i.price, i.quantity, i.subtotal)) = [(50, 10, 2, 24)] ∧
    (viewCart secondAddSession).total = 24 ∧
    (placeOrder repricedStore secondAddSession (some sampleRestaurant) (some "5550100") none
      sampleDate).1.orders.map (fun o => (o.subtotal, o.tax, o.total)) = [(20, 2, 22)] ∧
    ¬ (∀ o ∈ (placeOrder repricedStore secondAddSession (some sampleRestaurant)
        (some "5550100") none sampleDate).1.orders,
      o.subtotal = (viewCart secondAddSession).total) := by
  decide!

/-- C30. A customer at table "5" of the sample restaurant adds item A of its menu,
then scans the code of table "1" of the second restaurant and places the order there:
`placeOrder` stores an order of the second restaurant whose line references item A, a
menu item of the sample restaurant, which `addToCart` refuses at the second
restaurant. -/
theorem order_with_foreign_menu_item :
    (tableEntry chainStore firstAddSession "roma" "1").2 = true ∧
    (loadRestaurant chainStore movedSession "roma").map (fun x => x.2) = some secondRestaurant ∧
    (placeOrder chainStore movedSession (some secondRestaurant) (some "5550111") none
      sampleDate).1.orders.map
        (fun o => (o.restaurant, o.table, o.items.map (fun i => i.menuItem))) =
      [(2, 20, [50])] ∧
    (chainStore.menuItems.filter (fun m => decide (m._id = 50))).map (fun m => m.restaurant)
      = [1] ∧
    (addToCart chainStore movedSession (some secondRestaurant) 50 (some 1) none).2 =
      Response.failure "Menu item not found" ∧
    ¬ (∀ o ∈ (placeOrder chainStore movedSession (some secondRestaurant) (some "5550111") none
        sampleDate).1.orders,
      ∀ i ∈ o.items, ∃ m ∈ chainStore.menuItems,
        m._id = i.menuItem ∧ m.restaurant = o.restaurant) :=
  ⟨by decide, by decide, by decide, by decide, by decide, by decide⟩

theorem findOrCreateCustomer_tables (s : Store) (ts : List Table) (phone : String)
    (restaurantId : Id) :
    findOrCreateCustomer { s with tables := ts } phone restaurantId =
      (findOrCreateCustomer s phone restaurantId).map
        (fun p => ({ p.1 with tables := ts }, p.2)) := by
  unfold findOrCreateCustomer findCustomer
  simp only
  split
  · rfl
  · unfold Store.insertUser
    simp only
    split
    · rfl
    · split <;> rfl

theorem insertOrder_tables (s : Store) (ts : List Table) (o : Order) (now : Time) :
    Store.insertOrder { s with tables := ts } o now =
      (s.insertOrder o now).map (fun p => ({ p.1 with tables := ts }, p.2)) := by
  unfold Store.insertOrder
  simp only
  split
  · rfl
  · split <;> rfl

theorem placeOrder_ignores_tables (s : Store) (ts : List Table) (st : TableStatus)
    (cur : Option Id) (sess : Session) (reqRestaurant : Option Restaurant)
    (phone notes : Option String) (now : Js.Date) :
    (placeOrder { s with tables := ts } (sess.withTableState st cur)
        reqRestaurant phone notes now).2.2 =
      (placeOrder s sess reqRestaurant phone notes now).2.2 ∧
    (placeOrder { s with tables := ts } (sess.withTableState st cur)
        reqRestaurant phone notes now).1.orders =
      (placeOrder s sess reqRestaurant phone notes now).1.orders := by
  unfold placeOrder Session.withTableState
  cases hr : (reqRestaurant <|> sess.restaurant) with
  | none => simp
  | some restaurant =>
    cases ht : sess.table with
    | none => simp
    | some table =>
      simp only [Option.map_some']
      cases hc : sess.cart with
      | none => simp
      | some cart =>
        simp only
        by_cases hlen : cart.items.length = 0
        · simp [hlen]
        · simp only [hlen, if_false]
          cases phone with
          | none => simp
          | some ph =>
            simp only
            by_cases hph : ph = ""
            · simp [hph]
            · simp only [hph, if_false]
              rw [findOrCreateCustomer_tables]
              cases hcust : findOrCreateCustomer s ph restaurant._id with
              | none => simp
              | some p =>
                obtain ⟨s1, customer⟩ := p
                simp only [Option.map_some']
                have hins := insertOrder_tables s1 ts
                  (newOrder s1.nextId restaurant table customer ph
                    (generateOrderNumber s1 restaurant._id now) cart (notes.getD "") now.time)
                  now.time
                have hnew : newOrder ({ s1 with tables := ts } : Store).nextId restaurant
                    { table with status := st, currentOrder := cur } customer ph
                    (generateOrderNumber { s1 with tables := ts } restaurant._id now) cart
                    (notes.getD "") now.time =
                    newOrder s1.nextId restaurant table customer ph
                      (generateOrderNumber s1 restaurant._id now) cart (notes.getD "")
                      now.time := rfl
                rw [hnew, hins]
                cases hio : s1.insertOrder (newOrder s1.nextId restaurant table customer ph
                    (generateOrderNumber s1 restaurant._id now) cart (notes.getD "") now.time)
                    now.time with
                | none => simp
                | some p2 =>
                  obtain ⟨s2, saved⟩ := p2
                  simp [Store.findByIdAndUpdateTable]

/-! ## The orders of a table -/

/-- C9, amended. In every reachable state every table references at most one order as
its current order.  The non-terminal orders placed on a table are not limited to one:
the answer of `placeOrder` and the orders it stores do not depend on the status or the
current order of any table, in the store or in the session; and every successful
`placeOrder` appends one pending order to the non-terminal orders of its table,
leaves the earlier orders as they are and makes the new order the current order of
the table. -/
theorem placeOrder_adds_active_order (s : Store) (h : Reachable s) :
    (∀ t ∈ s.tables, (currentOrdersOf s t).length ≤ 1) ∧
    (∀ (ts : List Table) (st : TableStatus) (cur : Option Id) (sess : Session)
        (reqRestaurant : Option Restaurant) (phone notes : Option String) (now : Js.Date),
      (placeOrder { s with tables := ts } (sess.withTableState st cur) reqRestaurant phone
          notes now).2.2 = (placeOrder s sess reqRestaurant phone notes now).2.2 ∧
      (placeOrder { s with tables := ts } (sess.withTableState st cur) reqRestaurant phone
          notes now).1.orders = (placeOrder s sess reqRestaurant phone notes now).1.orders) ∧
    (∀ (sess : Session) (reqRestaurant : Option Restaurant) (phone notes : Option String)
        (now : Js.Date),
      (placeOrder s sess reqRestaurant phone notes now).2.2.success = true →
      ∃ table saved, sess.table = some table ∧ saved.table = table._id ∧
        saved.status = OrderStatus.pending ∧
        (placeOrder s sess reqRestaurant phone notes now).1.orders = s.orders ++ [saved] ∧
        activeOrdersOn (placeOrder s sess reqRestaurant phone notes now).1 table._id =
          activeOrdersOn s table._id ++ [saved] ∧
        ∀ t ∈ (placeOrder s sess reqRestaurant phone notes now).1.tables,
          t._id = table._id → t.currentOrder = some saved._id) := by
  refine ⟨?_, ?_, ?_⟩
  · intro t _
    exact filter_id_length_le_one (reachable_ids h).2 t.currentOrder
  · intro ts st cur sess rr phone notes now
    exact placeOrder_ignores_tables s ts st cur sess rr phone notes now
  · intro sess rr phone notes now hok
    rcases placeOrder_cases s sess rr phone notes now with hf | hs
    · rw [hf.1] at hok
      exact absurd hok (by decide)
    · obtain ⟨restaurant, table, cart, ph, s1, customer, s2, saved, _, ht, _, _, _, _, hcust,
        hins, heq⟩ := hs
      obtain ⟨ho, htb, _, _⟩ := findOrCreateCustomer_eq_some hcust
      obtain ⟨_, hsaved, hs2, _⟩ := insertOrder_eq_some hins
      have htab : saved.table = table._id := by rw [hsaved]; simp [preSave, newOrder]
      have hst : saved.status = OrderStatus.pending := by
        rw [hsaved]; simp [preSave, newOrder]
      have hord : (placeOrder s sess rr phone notes now).1.orders = s.orders ++ [saved] := by
        rw [heq, hs2]; simp [Store.findByIdAndUpdateTable, ho]
      refine ⟨table, saved, ht, htab, hst, hord, ?_, ?_⟩
      · unfold activeOrdersOn
        rw [hord, List.filter_append]
        simp [htab, hst, OrderStatus.nonTerminal]
      · rw [heq, hs2]
        simp only [Store.findByIdAndUpdateTable, List.mem_map]
        rintro t ⟨x, _, hx⟩ hid
        by_cases hxid : x._id = table._id
        · rw [if_pos hxid] at hx
          rw [← hx]
        · rw [if_neg hxid] at hx
          rw [hx] at hxid
          exact absurd hid hxid

theorem placeOrder_adds_active_order_witness :
    Reachable placedStore ∧
    placedStore.tables.map (fun t => (t._id, t.status, t.currentOrder)) =
      [(10, TableStatus.occupied, some 2001)] ∧
    (placeOrder placedStore secondSession (some sampleRestaurant) (some "5550100") none
      laterDate).2.2.success = true ∧
    (activeOrdersOn placedStore 10).map (fun o => o._id) = [2001] ∧
    (activeOrdersOn twiceStore 10).map (fun o => o._id) = [2001, 2002] ∧
    twiceStore.tables.map (fun t => (t._id, t.status, t.currentOrder)) =
      [(10, TableStatus.occupied, some 2002)] ∧
    ((∀ t ∈ placedStore.tables, (currentOrdersOf placedStore t).length ≤ 1) ∧
    (∀ (ts : List Table) (st : TableStatus) (cur : Option Id) (sess : Session)
        (reqRestaurant : Option Restaurant) (phone notes : Option String) (now : Js.Date),
      (placeOrder { placedStore with tables := ts } (sess.withTableState st cur) reqRestaurant
          phone notes now).2.2 = (placeOrder placedStore sess reqRestaurant phone notes now).2.2 ∧
      (placeOrder { placedStore with tables := ts } (sess.withTableState st cur) reqRestaurant
          phone notes now).1.orders =
        (placeOrder placedStore sess reqRestaurant phone notes now).1.orders) ∧
    (∀ (sess : Session) (reqRestaurant : Option Restaurant) (phone notes : Option String)
        (now : Js.Date),
      (placeOrder placedStore sess reqRestaurant phone notes now).2.2.success = true →
      ∃ table saved, sess.table = some table ∧ saved.table = table._id ∧
        saved.status = OrderStatus.pending ∧
        (placeOrder placedStore sess reqRestaurant phone notes now).1.orders =
          placedStore.orders ++ [saved] ∧
        activeOrdersOn (placeOrder placedStore sess reqRestaurant phone notes now).1 table._id =
          activeOrdersOn placedStore table._id ++ [saved] ∧
        ∀ t ∈ (placeOrder placedStore sess reqRestaurant phone notes now).1.tables,
          t._id = table._id → t.currentOrder = some saved._id)) :=
  ⟨Reachable.placeOrder _ _ _ _ _ _ (Reachable.init openStore rfl (by decide)),
    by decide, by decide, by decide, by decide, by decide,
    placeOrder_adds_active_order placedStore
      (Reachable.placeOrder _ _ _ _ _ _ (Reachable.init openStore rfl (by decide)))⟩

/-! ## The amounts of an order -/

theorem preSave_amountsAgree (o : Order) (statusModified : Bool) (now : Time) :
    (preSave o statusModified now).amountsAgree := by
  have hsum : ∀ (l : List LineItem) (acc : ℚ),
      (l.map (fun item => { item with subtotal := item.price * item.quantity })).foldl
          (fun sum item => sum + item.subtotal) acc
        = acc + (l.map (fun i => i.price * (i.quantity : ℚ))).sum := by
    intro l
    induction l with
    | nil => intro acc; simp
    | cons a l ih => intro acc; simp [ih, add_assoc]
  unfold Order.amountsAgree preSave
  refine ⟨?_, ?_, rfl, rfl⟩
  · intro i hi
    simp only [List.mem_map] at hi
    obtain ⟨j, _, rfl⟩ := hi
    rfl
  · simp only [hsum, zero_add, List.map_map]
    rfl

theorem amountsAgree_createdAt {o : Order} (h : o.amountsAgree) (t : Time) :
    Order.amountsAgree { o with createdAt := t } := h

/-- C6, as stated, fails: for an order with the single line 1.00 x 3 the hook, run in
the arithmetic of doubles, stores the subtotal 3 and the tax 0.30000000000000004 (the
double 5404319552844596 / 2^54), which is not one tenth of the subtotal. -/
theorem tax_not_one_tenth :
    threeOrder.items.map (fun i => (i.price, i.quantity)) = [(1, 3)] ∧
    Js.toDouble (1 / 10) = 3602879701896397 / 36028797018963968 ∧
    (preSaveNumber threeOrder true 1704100000000).subtotal = 3 ∧
    (preSaveNumber threeOrder true 1704100000000).tax =
      5404319552844596 / 18014398509481984 ∧
    ¬ ((preSaveNumber threeOrder true 1704100000000).tax =
        (preSaveNumber threeOrder true 1704100000000).subtotal / 10) := by
  decide!

/-- C6, amended. After every persistence of an order, by `placeOrder` and by every
successful `updateOrderStatus`, each line's subtotal is its price times its quantity,
the order's subtotal is the sum of these products, the tax is the subtotal times the
constant 0.10 and the total is subtotal plus tax.  In exact arithmetic the tax is one
tenth of the subtotal; in the arithmetic of doubles each product and sum is rounded,
and the tax is the rounded product of the subtotal and the double nearest to one
tenth.  For the lines (10.00 x 2, 5.00 x 1) both arithmetics give the subtotal 25, the
tax 2.5 and the total 27.5. -/
theorem order_amounts :
    taxRate = 1 / 10 ∧
    (∀ (s : Store) (sess : Session) (reqRestaurant : Option Restaurant)
        (phone notes : Option String) (now : Js.Date),
      ∀ o ∈ (placeOrder s sess reqRestaurant phone notes now).1.orders,
        o ∈ s.orders ∨ o.amountsAgree) ∧
    (∀ (s : Store) (user : SessionUser) (orderId : Id) (status : String) (now : Time)
        (order : Order),
      findOrder s orderId user.restaurant = some order →
      status ∈ validTransitions order.status →
      ∃ saved,
        findOrder (updateOrderStatus s user orderId status now).1 orderId user.restaurant
          = some saved ∧ saved.amountsAgree) ∧
    (∀ (o : Order) (statusModified : Bool) (now : Time),
      (preSaveNumber o statusModified now).items = o.items.map
        (fun item => { item with subtotal := Js.toDouble (item.price * item.quantity) }) ∧
      (preSaveNumber o statusModified now).subtotal =
        (preSaveNumber o statusModified now).items.foldl
          (fun sum item => Js.toDouble (sum + item.subtotal)) 0 ∧
      (preSaveNumber o statusModified now).tax =
        Js.toDouble ((preSaveNumber o statusModified now).subtotal * Js.toDouble (1 / 10)) ∧
      (preSaveNumber o statusModified now).total =
        Js.toDouble ((preSaveNumber o statusModified now).subtotal +
          (preSaveNumber o statusModified now).tax)) ∧
    sampleCart.items.map (fun i => (i.price, i.quantity)) = [(10, 2), (5, 1)] ∧
    placedStore.orders.map (fun o => (o.subtotal, o.tax, o.total)) = [(25, 5 / 2, 55 / 2)] ∧
    ((preSaveNumber sampleOrder true 1704100000000).items.map (fun i => i.subtotal),
      (preSaveNumber sampleOrder true 1704100000000).subtotal,
      (preSaveNumber sampleOrder true 1704100000000).tax,
      (preSaveNumber sampleOrder true 1704100000000).total) = ([20, 5], 25, 5 / 2, 55 / 2) := by
  refine ⟨rfl, ?_, ?_, ?_, by decide!, by decide!, by decide!⟩
  · intro s sess rr phone notes now o ho
    rcases placeOrder_cases s sess rr phone notes now with h | h
    · rw [h.2.1] at ho
      exact Or.inl ho
    · obtain ⟨restaurant, table, cart, ph, s1, customer, s2, saved, _, _, _, _, _, _, hcust,
        hins, heq⟩ := h
      obtain ⟨ho1, _, _, _⟩ := findOrCreateCustomer_eq_some hcust
      obtain ⟨_, hsaved, hs2, _⟩ := insertOrder_eq_some hins
      rw [heq, hs2] at ho
      simp only [Store.findByIdAndUpdateTable, ho1, List.mem_append, List.mem_singleton] at ho
      rcases ho with ho | ho
      · exact Or.inl ho
      · right
        rw [ho, hsaved]
        exact amountsAgree_createdAt (preSave_amountsAgree _ _ _) _
  · intro s user orderId status now order hfind hmem
    obtain ⟨saved, hupd, hid, hr, _, _, _, _, _, hs⟩ := updateOrderStatus_of_mem now hfind hmem
    obtain ⟨_, hoid, hor⟩ := findOrder_eq_some hfind
    have hf : findOrder (s.saveOrder saved) orderId user.restaurant = some saved :=
      find?_map_saved hfind (hid.trans hoid) (by rw [hr]; exact hor)
    refine ⟨saved, ?_, ?_⟩
    · rw [hs]
      split
      · exact hf
      · exact hf
    · unfold updateStatus at hupd
      split at hupd
      · simp at hupd
      · simp only [Option.some.injEq] at hupd
        rw [← hupd]
        exact preSave_amountsAgree _ _ _
  · intro o statusModified now
    exact ⟨rfl, rfl, rfl, rfl⟩

end RestaurantSaaS
